import Mathlib

/-!
# ScriptMgr: the per-kind script registry and its dispatch engine

A shallow embedding of `src/server/game/Scripting/ScriptMgr.cpp`.

* A `TScript*` is an address (`ScriptPtr`), `NULL` is address 0; two pointers are the
  identical instance exactly when the addresses are equal.
* `std::map<uint32, TScript*>` is an association list kept in ascending key order
  (`ScriptMap`), so that iterating it visits the entries in key order, as `std::map` does.
* `ScriptRegistry<TScript>` has one set of statics per script type: `World.reg T`.
* `ABORT()` and a failed `ASSERT` end the process: `Outcome.aborted`, carrying the state
  reached when the process ends.
* `sObjectMgr->GetScriptId`, `ScriptObject::GetName` and the `SCRIPTS` build flag are not
  defined in this file of the repository; they are the fields of `Env`.
* The `uint32` counter `_scriptIdCounter` wraps at `2^32`. `std::string` is `String`, compared
  lexicographically; `std::vector` is `List`, `push_back` appends at the end.
* A dispatch operation yields the list of its observable effects (hook calls, cleared
  gossip menus) and its return value; script bodies are parameters (`DispatchEnv`).

The definitions come first, the theorems after them.
-/

namespace ScriptMgr

/-- The address held by a `TScript*`. -/
abbrev ScriptPtr := Nat

/-- The null pointer. -/
def NULL : ScriptPtr := 0

/-- The 26 script types for which `ScriptRegistry` is instantiated (lines 1691-1716). -/
inductive Kind
  | SpellScriptLoader
  | ServerScript
  | WorldScript
  | FormulaScript
  | WorldMapScript
  | InstanceMapScript
  | BattlegroundMapScript
  | ItemScript
  | CreatureScript
  | GameObjectScript
  | AreaTriggerScript
  | BattlegroundScript
  | OutdoorPvPScript
  | CommandScript
  | WeatherScript
  | AuctionHouseScript
  | ConditionScript
  | VehicleScript
  | DynamicObjectScript
  | TransportScript
  | AchievementCriteriaScript
  | PlayerScript
  | GuildScript
  | GroupScript
  | UnitScript
  | AccountScript
  deriving DecidableEq, Repr

/-- The trait `is_script_database_bound<T>` (lines 45-95): `false` by the primary template,
`true` for the twelve specialisations. -/
def is_script_database_bound : Kind → Bool
  | .SpellScriptLoader => true
  | .InstanceMapScript => true
  | .ItemScript => true
  | .CreatureScript => true
  | .GameObjectScript => true
  | .AreaTriggerScript => true
  | .BattlegroundScript => true
  | .OutdoorPvPScript => true
  | .WeatherScript => true
  | .ConditionScript => true
  | .TransportScript => true
  | .AchievementCriteriaScript => true
  | _ => false

/-- The lines written by `TC_LOG_ERROR` in the registry and in `Initialize`. -/
inductive LogEvent
  /-- Line 121: Script '%s' has same memory pointer as '%s'. -/
  | sameMemoryPointer (name other : String)
  /-- Line 181: Script '%s' already assigned with the same script name. -/
  | alreadyAssigned (name : String)
  /-- Line 190: Script named '%s' does not have a script name assigned in database. -/
  | noScriptNameAssigned (name : String)
  /-- Line 276: ScriptName '%s' exists in database, but no core script found! -/
  | noCoreScriptFound (name : String)
  deriving DecidableEq, Repr

/-- A `std::map<uint32, TScript*>`: the entries in ascending key order. -/
abbrev ScriptMap := List (Nat × ScriptPtr)

/-- The assignment `m[id] = script` of `std::map::operator[]`: the entry with key `id` is
overwritten when there is one, and a new entry is inserted at its place in key order
otherwise. -/
def mapAssign : ScriptMap → Nat → ScriptPtr → ScriptMap
  | [], id, script => [(id, script)]
  | (k, v) :: rest, id, script =>
    if id < k then (id, script) :: (k, v) :: rest
    else if id = k then (k, script) :: rest
    else (k, v) :: mapAssign rest id script

/-- The lookup `m.find(id)` of `std::map`: the entry with key `id`, or `end()` (`none`). -/
def mapFind : ScriptMap → Nat → Option ScriptPtr
  | [], _ => none
  | (k, v) :: rest, id => if k = id then some v else mapFind rest id

/-- The static members of one `ScriptRegistry<TScript>` (lines 108-109, 203). -/
structure Registry where
  ScriptPointerList : ScriptMap
  Scripts : List ScriptPtr
  _scriptIdCounter : Nat
  deriving DecidableEq, Repr

/-- The statics as instantiated at lines 1686-1688: empty containers, counter 0. -/
def Registry.empty : Registry :=
  { ScriptPointerList := [], Scripts := [], _scriptIdCounter := 0 }

/-- The process-wide state the registries work on: one `Registry` per script type,
`ScriptMgr::_scriptCount`, the global `UnusedScriptNames` (line 40) and the log. -/
structure World where
  reg : Kind → Registry
  _scriptCount : Nat
  UnusedScriptNames : List String
  log : List LogEvent

/-- The collaborators of the registry that live outside this file. -/
structure Env where
  /-- Whether the build defines `SCRIPTS` (the `#ifdef` of lines 172 and 273). -/
  SCRIPTS : Bool
  /-- The resolver `sObjectMgr->GetScriptId(name)`; 0 means the name has no ID. -/
  GetScriptId : String → Nat
  /-- The name `script->GetName()` of the object at an address. -/
  GetName : ScriptPtr → String

/-- How a call ends: it returns, or the process is aborted (`ABORT()`, failed `ASSERT`). -/
inductive Outcome (σ : Type)
  | returned (s : σ)
  | aborted (s : σ)

/-- The state a call ends in. -/
def Outcome.state {σ : Type} : Outcome σ → σ
  | .returned s => s
  | .aborted s => s

/-- Whether the call aborted the process. -/
def Outcome.isAborted {σ : Type} : Outcome σ → Bool
  | .returned _ => false
  | .aborted _ => true

/-- Modelled from the spec: `ScriptMgr::IncrementScriptCount` is defined in `ScriptMgr.h`,
which is not part of the sources at hand; the spec says `GlobalScriptCount` is
"incremented once per successful registration". -/
def IncrementScriptCount (scriptCount : Nat) : Nat := scriptCount + 1

/-- The comparison `a < b` of two `std::string`: lexicographic on the characters. -/
def stringLess (a b : String) : Bool := decide (a.toList < b.toList)

/-- The position `std::lower_bound(l.begin(), l.end(), value)` returns on a range that is
partitioned with respect to `· < value` (a sorted range is): the first position whose
element is not less than `value`, `l.length` (that is `end()`) when there is none. -/
def lower_bound (l : List String) (value : String) : Nat :=
  (l.takeWhile (fun x => stringLess x value)).length

/-- The registry `ScriptRegistry<T>` of the world with its statics replaced. -/
def World.setReg (w : World) (T : Kind) (r : Registry) : World :=
  { w with reg := Function.update w.reg T r }

/-- The private overload `AddScript(std::true_type, script)` (lines 146-192): adds a
database bound script. -/
def AddScript_true_type (env : Env) (T : Kind) (w : World) (script : ScriptPtr) :
    Outcome World :=
  let id := env.GetScriptId (env.GetName script)
  if id ≠ 0 then
    -- Try to find an existing script: one whose name matches.
    let existing :=
      (w.reg T).ScriptPointerList.any (fun it => env.GetName it.2 == env.GetName script)
    if !existing then
      let w1 := w.setReg T
        { w.reg T with ScriptPointerList := mapAssign (w.reg T).ScriptPointerList id script }
      let w2 := { w1 with _scriptCount := IncrementScriptCount w1._scriptCount }
      if env.SCRIPTS then
        let itr := lower_bound w2.UnusedScriptNames (env.GetName script)
        if w2.UnusedScriptNames[itr]? = some (env.GetName script) then
          .returned { w2 with UnusedScriptNames := w2.UnusedScriptNames.eraseIdx itr }
        else
          .returned w2
      else
        .returned w2
    else
      .aborted { w with log := w.log ++ [.alreadyAssigned (env.GetName script)] }
  else
    .returned { w with log := w.log ++ [.noScriptNameAssigned (env.GetName script)] }

/-- The private overload `AddScript(std::false_type, script)` (lines 195-200): adds a
code-only script under the next value of the `uint32` counter. -/
def AddScript_false_type (T : Kind) (w : World) (script : ScriptPtr) : Outcome World :=
  let w1 := w.setReg T
    { w.reg T with
      ScriptPointerList :=
        mapAssign (w.reg T).ScriptPointerList (w.reg T)._scriptIdCounter script
      _scriptIdCounter := ((w.reg T)._scriptIdCounter + 1) % 2 ^ 32 }
  .returned { w1 with _scriptCount := IncrementScriptCount w1._scriptCount }

/-- The public `ScriptRegistry<T>::AddScript(script, addToDeleteContainer)`
(lines 111-131). -/
def AddScript (env : Env) (T : Kind) (w : World) (script : ScriptPtr)
    (addToDeleteContainer : Bool) : Outcome World :=
  if script = NULL then
    .aborted w
  else
    -- See if the script is using the same memory as another script.
    match (w.reg T).ScriptPointerList.find? (fun it => it.2 == script) with
    | some it =>
      .returned { w with
        log := w.log ++ [.sameMemoryPointer (env.GetName script) (env.GetName it.2)] }
    | none =>
      match (if is_script_database_bound T then AddScript_true_type env T w script
             else AddScript_false_type T w script) with
      | .aborted w1 => .aborted w1
      | .returned w1 =>
        if addToDeleteContainer then
          .returned (w1.setReg T { w1.reg T with Scripts := (w1.reg T).Scripts ++ [script] })
        else
          .returned w1

/-- The lookup `ScriptRegistry<T>::GetScriptById(id)` (lines 134-141). -/
def GetScriptById (w : World) (T : Kind) (id : Nat) : ScriptPtr :=
  match mapFind (w.reg T).ScriptPointerList id with
  | some script => script
  | none => NULL

/-- The world before any script is registered: every registry empty, no script counted
(constructor, line 244), the unused names as loaded from the database. -/
def World.initial (unusedScriptNames : List String) : World :=
  { reg := fun _ => Registry.empty
    _scriptCount := 0
    UnusedScriptNames := unusedScriptNames
    log := [] }

/-- One call `ScriptRegistry<kind>::AddScript(script, addToDeleteContainer)`. -/
structure Registration where
  kind : Kind
  script : ScriptPtr
  addToDeleteContainer : Bool
  deriving DecidableEq, Repr

/-- A sequence of `AddScript` calls, one after the other; an abort ends the process, so no
later call runs. -/
def registerAll (env : Env) : World → List Registration → Outcome World
  | w, [] => .returned w
  | w, r :: rest =>
    match AddScript env r.kind w r.script r.addToDeleteContainer with
    | .aborted w1 => .aborted w1
    | .returned w1 => registerAll env w1 rest

/-- Whether the call `AddScript` for `r` in the world `w` inserted the script into the
`ScriptPointerList` of a database bound kind: the instance is not a value of the map before
the call and is one after it. -/
def insertsIntoById (env : Env) (w : World) (r : Registration) : Bool :=
  is_script_database_bound r.kind &&
    (!((w.reg r.kind).ScriptPointerList.map Prod.snd).contains r.script &&
      (((AddScript env r.kind w r.script r.addToDeleteContainer).state.reg
        r.kind).ScriptPointerList.map Prod.snd).contains r.script)

/-- The names of the database bound scripts that the calls of a sequence of registrations
inserted into a `ScriptPointerList`, in the order of the calls. -/
def claimedNames (env : Env) : World → List Registration → List String
  | _, [] => []
  | w, r :: rest =>
    (if insertsIntoById env w r then [env.GetName r.script] else []) ++
      claimedNames env (AddScript env r.kind w r.script r.addToDeleteContainer).state rest

/-- The report loop of `ScriptMgr::Initialize` (lines 273-278): in a build with `SCRIPTS`,
one error line for each element of `UnusedScriptNames`, in order. -/
def reportUnusedScriptNames (env : Env) (w : World) : List LogEvent :=
  if env.SCRIPTS then w.UnusedScriptNames.map LogEvent.noCoreScriptFound else []

/-- The registrations a script constructor makes for the object `this` under construction
(lines 1520-1683). Every constructor registers `this` in the registry of its own type with
the default `addToDeleteContainer`; `UnitScript` passes its parameter `addToScripts` on;
`CreatureScript` and `PlayerScript` first run the base constructor `UnitScript(name, false)`. -/
def constructorCalls (T : Kind) (this : ScriptPtr) (addToScripts : Bool) :
    List Registration :=
  match T with
  | .UnitScript => [⟨.UnitScript, this, addToScripts⟩]
  | .CreatureScript => [⟨.UnitScript, this, false⟩, ⟨.CreatureScript, this, true⟩]
  | .PlayerScript => [⟨.UnitScript, this, false⟩, ⟨.PlayerScript, this, true⟩]
  | K => [⟨K, this, true⟩]

/-! ## Point-lookup dispatch (`GET_SCRIPT`, `GET_SCRIPT_RET`) -/

/-- What a dispatch operation hands back to its caller. -/
inductive RetVal
  | void
  | bool (b : Bool)
  | uint32 (n : Nat)
  | pointer (p : Nat)
  deriving DecidableEq, Repr

/-- The operations of `ScriptMgr` written with `GET_SCRIPT` or `GET_SCRIPT_RET`, in the
order of the source; an overloaded name carries the type of its entity. -/
inductive PointOp
  | CreateInstanceData
  | OnDummyEffect_Item
  | OnQuestAccept_Item
  | OnItemUse
  | OnItemExpire
  | OnItemRemove
  | OnDummyEffect_Creature
  | OnGossipHello_Creature
  | OnGossipSelect_Creature
  | OnGossipSelectCode_Creature
  | OnQuestAccept_Creature
  | OnQuestSelect_Creature
  | OnQuestReward_Creature
  | GetDialogStatus_Creature
  | GetCreatureAI
  | GetGameObjectAI
  | OnCreatureUpdate
  | OnGossipHello_GameObject
  | OnGossipSelect_GameObject
  | OnGossipSelectCode_GameObject
  | OnQuestAccept_GameObject
  | OnQuestReward_GameObject
  | GetDialogStatus_GameObject
  | OnGameObjectDestroyed
  | OnGameObjectDamaged
  | OnGameObjectLootStateChanged
  | OnGameObjectStateChanged
  | OnGameObjectUpdate
  | OnDummyEffect_GameObject
  | OnAreaTrigger
  | CreateOutdoorPvP
  | OnWeatherChange
  | OnWeatherUpdate
  | OnConditionCheck
  | OnInstall
  | OnUninstall
  | OnReset
  | OnInstallAccessory
  | OnAddPassenger_Vehicle
  | OnRemovePassenger_Vehicle
  | OnAddPassenger_Transport
  | OnAddCreaturePassenger
  | OnRemovePassenger_Transport
  | OnTransportUpdate
  | OnRelocate
  | OnCriteriaCheck
  deriving DecidableEq, Repr

/-- What a dispatch operation does that its caller can observe. -/
inductive Effect
  /-- The call `player->PlayerTalkClass->ClearMenus()`. -/
  | ClearMenus
  /-- The virtual call of the hook of `op` on the script found. -/
  | hook (op : PointOp) (script : ScriptPtr)
  deriving DecidableEq, Repr

/-- The parts of the dispatch engine that are defined outside this file. -/
structure DispatchEnv where
  /-- The enumerator `DIALOG_STATUS_SCRIPTED_NO_STATUS`. -/
  DIALOG_STATUS_SCRIPTED_NO_STATUS : Nat
  /-- What the hook of `op` of the script at an address returns (the script body). -/
  hookResult : PointOp → ScriptPtr → RetVal

/-- What a dispatch operation is called with, as far as the dispatch engine looks at it. -/
structure DispatchArgs where
  /-- Whether every `ASSERT` at the head of the operation holds for the arguments. -/
  assertsHold : Bool
  /-- The script ID the entity carries (`GetScriptId()`, `ScriptId`, `scriptId`). -/
  scriptId : Nat

/-- The macro `ASSERT(cond)`: the process is aborted (`none`) when `cond` fails. -/
def ASSERT {α : Type} (cond : Bool) (rest : Option α) : Option α :=
  if cond then rest else none

/-- The macro `GET_SCRIPT_RET(T, I, V, R)` (lines 232-235) followed by `body`, the rest of
the function: `R` is returned at once, with nothing done, when no script is found. -/
def GET_SCRIPT_RET (w : World) (T : Kind) (I : Nat) (R : RetVal)
    (body : ScriptPtr → List Effect × RetVal) : List Effect × RetVal :=
  if GetScriptById w T I = NULL then ([], R) else body (GetScriptById w T I)

/-- The macro `GET_SCRIPT(T, I, V)` (lines 228-231) followed by `body`. -/
def GET_SCRIPT (w : World) (T : Kind) (I : Nat)
    (body : ScriptPtr → List Effect × RetVal) : List Effect × RetVal :=
  GET_SCRIPT_RET w T I .void body

/-- The statement `return tmpscript->Hook(args);` (or the bare call, in a `void`
operation). -/
def callHook (denv : DispatchEnv) (op : PointOp) (tmpscript : ScriptPtr) :
    List Effect × RetVal :=
  ([.hook op tmpscript], denv.hookResult op tmpscript)

/-- The two statements `player->PlayerTalkClass->ClearMenus(); return tmpscript->Hook(args);`. -/
def clearMenusThenCallHook (denv : DispatchEnv) (op : PointOp) (tmpscript : ScriptPtr) :
    List Effect × RetVal :=
  ([.ClearMenus, .hook op tmpscript], denv.hookResult op tmpscript)

/-- The point-lookup operations of `ScriptMgr` (lines 730-1222), one line per function:
its `ASSERT`s, its `GET_SCRIPT`/`GET_SCRIPT_RET` with the script type and the default, and
the statements after the macro. The result is `none` when an `ASSERT` aborts the process. -/
def dispatch (denv : DispatchEnv) (w : World) (op : PointOp) (args : DispatchArgs) :
    Option (List Effect × RetVal) :=
  let id := args.scriptId
  match op with
  | .CreateInstanceData => ASSERT args.assertsHold <| some <|
      GET_SCRIPT_RET w .InstanceMapScript id (.pointer NULL) (callHook denv op)
  | .OnDummyEffect_Item => ASSERT args.assertsHold <| some <|
      GET_SCRIPT_RET w .ItemScript id (.bool false) (callHook denv op)
  | .OnQuestAccept_Item => ASSERT args.assertsHold <| some <|
      GET_SCRIPT_RET w .ItemScript id (.bool false) (clearMenusThenCallHook denv op)
  | .OnItemUse => ASSERT args.assertsHold <| some <|
      GET_SCRIPT_RET w .ItemScript id (.bool false) (callHook denv op)
  | .OnItemExpire => ASSERT args.assertsHold <| some <|
      GET_SCRIPT_RET w .ItemScript id (.bool false) (callHook denv op)
  | .OnItemRemove => ASSERT args.assertsHold <| some <|
      GET_SCRIPT_RET w .ItemScript id (.bool false) (callHook denv op)
  | .OnDummyEffect_Creature => ASSERT args.assertsHold <| some <|
      GET_SCRIPT_RET w .CreatureScript id (.bool false) (callHook denv op)
  | .OnGossipHello_Creature => ASSERT args.assertsHold <| some <|
      GET_SCRIPT_RET w .CreatureScript id (.bool false) (clearMenusThenCallHook denv op)
  | .OnGossipSelect_Creature => ASSERT args.assertsHold <| some <|
      GET_SCRIPT_RET w .CreatureScript id (.bool false) (callHook denv op)
  | .OnGossipSelectCode_Creature => ASSERT args.assertsHold <| some <|
      GET_SCRIPT_RET w .CreatureScript id (.bool false) (callHook denv op)
  | .OnQuestAccept_Creature => ASSERT args.assertsHold <| some <|
      GET_SCRIPT_RET w .CreatureScript id (.bool false) (clearMenusThenCallHook denv op)
  | .OnQuestSelect_Creature => ASSERT args.assertsHold <| some <|
      GET_SCRIPT_RET w .CreatureScript id (.bool false) (clearMenusThenCallHook denv op)
  | .OnQuestReward_Creature => ASSERT args.assertsHold <| some <|
      GET_SCRIPT_RET w .CreatureScript id (.bool false) (clearMenusThenCallHook denv op)
  | .GetDialogStatus_Creature => ASSERT args.assertsHold <| some <|
      GET_SCRIPT_RET w .CreatureScript id (.uint32 denv.DIALOG_STATUS_SCRIPTED_NO_STATUS)
        (clearMenusThenCallHook denv op)
  | .GetCreatureAI => ASSERT args.assertsHold <| some <|
      GET_SCRIPT_RET w .CreatureScript id (.pointer NULL) (callHook denv op)
  | .GetGameObjectAI => ASSERT args.assertsHold <| some <|
      GET_SCRIPT_RET w .GameObjectScript id (.pointer NULL) (callHook denv op)
  | .OnCreatureUpdate => ASSERT args.assertsHold <| some <|
      GET_SCRIPT w .CreatureScript id (callHook denv op)
  | .OnGossipHello_GameObject => ASSERT args.assertsHold <| some <|
      GET_SCRIPT_RET w .GameObjectScript id (.bool false) (clearMenusThenCallHook denv op)
  | .OnGossipSelect_GameObject => ASSERT args.assertsHold <| some <|
      GET_SCRIPT_RET w .GameObjectScript id (.bool false) (callHook denv op)
  | .OnGossipSelectCode_GameObject => ASSERT args.assertsHold <| some <|
      GET_SCRIPT_RET w .GameObjectScript id (.bool false) (callHook denv op)
  | .OnQuestAccept_GameObject => ASSERT args.assertsHold <| some <|
      GET_SCRIPT_RET w .GameObjectScript id (.bool false) (clearMenusThenCallHook denv op)
  | .OnQuestReward_GameObject => ASSERT args.assertsHold <| some <|
      GET_SCRIPT_RET w .GameObjectScript id (.bool false) (clearMenusThenCallHook denv op)
  | .GetDialogStatus_GameObject => ASSERT args.assertsHold <| some <|
      GET_SCRIPT_RET w .GameObjectScript id (.uint32 denv.DIALOG_STATUS_SCRIPTED_NO_STATUS)
        (clearMenusThenCallHook denv op)
  | .OnGameObjectDestroyed => ASSERT args.assertsHold <| some <|
      GET_SCRIPT w .GameObjectScript id (callHook denv op)
  | .OnGameObjectDamaged => ASSERT args.assertsHold <| some <|
      GET_SCRIPT w .GameObjectScript id (callHook denv op)
  | .OnGameObjectLootStateChanged => ASSERT args.assertsHold <| some <|
      GET_SCRIPT w .GameObjectScript id (callHook denv op)
  | .OnGameObjectStateChanged => ASSERT args.assertsHold <| some <|
      GET_SCRIPT w .GameObjectScript id (callHook denv op)
  | .OnGameObjectUpdate => ASSERT args.assertsHold <| some <|
      GET_SCRIPT w .GameObjectScript id (callHook denv op)
  | .OnDummyEffect_GameObject => ASSERT args.assertsHold <| some <|
      GET_SCRIPT_RET w .GameObjectScript id (.bool false) (callHook denv op)
  | .OnAreaTrigger => ASSERT args.assertsHold <| some <|
      GET_SCRIPT_RET w .AreaTriggerScript id (.bool false) (callHook denv op)
  | .CreateOutdoorPvP => ASSERT args.assertsHold <| some <|
      GET_SCRIPT_RET w .OutdoorPvPScript id (.pointer NULL) (callHook denv op)
  | .OnWeatherChange => ASSERT args.assertsHold <| some <|
      GET_SCRIPT w .WeatherScript id (callHook denv op)
  | .OnWeatherUpdate => ASSERT args.assertsHold <| some <|
      GET_SCRIPT w .WeatherScript id (callHook denv op)
  | .OnConditionCheck => ASSERT args.assertsHold <| some <|
      GET_SCRIPT_RET w .ConditionScript id (.bool true) (callHook denv op)
  | .OnInstall => ASSERT args.assertsHold <| some <|
      GET_SCRIPT w .VehicleScript id (callHook denv op)
  | .OnUninstall => ASSERT args.assertsHold <| some <|
      GET_SCRIPT w .VehicleScript id (callHook denv op)
  | .OnReset => ASSERT args.assertsHold <| some <|
      GET_SCRIPT w .VehicleScript id (callHook denv op)
  | .OnInstallAccessory => ASSERT args.assertsHold <| some <|
      GET_SCRIPT w .VehicleScript id (callHook denv op)
  | .OnAddPassenger_Vehicle => ASSERT args.assertsHold <| some <|
      GET_SCRIPT w .VehicleScript id (callHook denv op)
  | .OnRemovePassenger_Vehicle => ASSERT args.assertsHold <| some <|
      GET_SCRIPT w .VehicleScript id (callHook denv op)
  | .OnAddPassenger_Transport => ASSERT args.assertsHold <| some <|
      GET_SCRIPT w .TransportScript id (callHook denv op)
  | .OnAddCreaturePassenger => ASSERT args.assertsHold <| some <|
      GET_SCRIPT w .TransportScript id (callHook denv op)
  | .OnRemovePassenger_Transport => ASSERT args.assertsHold <| some <|
      GET_SCRIPT w .TransportScript id (callHook denv op)
  | .OnTransportUpdate => ASSERT args.assertsHold <| some <|
      GET_SCRIPT w .TransportScript id (callHook denv op)
  | .OnRelocate => some <|
      GET_SCRIPT w .TransportScript id (callHook denv op)
  | .OnCriteriaCheck => ASSERT args.assertsHold <| some <|
      GET_SCRIPT_RET w .AchievementCriteriaScript id (.bool false) (callHook denv op)

/-- The script type a point-lookup operation belongs to: the type of the entity's script,
whose registry the operation consults (the first argument of its `GET_SCRIPT` or
`GET_SCRIPT_RET`). -/
def PointOp.kind : PointOp → Kind
  | .CreateInstanceData => .InstanceMapScript
  | .OnDummyEffect_Item | .OnQuestAccept_Item | .OnItemUse | .OnItemExpire
  | .OnItemRemove => .ItemScript
  | .OnDummyEffect_Creature | .OnGossipHello_Creature | .OnGossipSelect_Creature
  | .OnGossipSelectCode_Creature | .OnQuestAccept_Creature | .OnQuestSelect_Creature
  | .OnQuestReward_Creature | .GetDialogStatus_Creature | .GetCreatureAI
  | .OnCreatureUpdate => .CreatureScript
  | .GetGameObjectAI | .OnGossipHello_GameObject | .OnGossipSelect_GameObject
  | .OnGossipSelectCode_GameObject | .OnQuestAccept_GameObject | .OnQuestReward_GameObject
  | .GetDialogStatus_GameObject | .OnGameObjectDestroyed | .OnGameObjectDamaged
  | .OnGameObjectLootStateChanged | .OnGameObjectStateChanged | .OnGameObjectUpdate
  | .OnDummyEffect_GameObject => .GameObjectScript
  | .OnAreaTrigger => .AreaTriggerScript
  | .CreateOutdoorPvP => .OutdoorPvPScript
  | .OnWeatherChange | .OnWeatherUpdate => .WeatherScript
  | .OnConditionCheck => .ConditionScript
  | .OnInstall | .OnUninstall | .OnReset | .OnInstallAccessory | .OnAddPassenger_Vehicle
  | .OnRemovePassenger_Vehicle => .VehicleScript
  | .OnAddPassenger_Transport | .OnAddCreaturePassenger | .OnRemovePassenger_Transport
  | .OnTransportUpdate | .OnRelocate => .TransportScript
  | .OnCriteriaCheck => .AchievementCriteriaScript

/-- The default the spec declares for a point-lookup operation that finds no script: null
for the four operations that create an object, `DIALOG_STATUS_SCRIPTED_NO_STATUS` for
`GetDialogStatus`, `true` for `OnConditionCheck`, nothing for the operations that return
`void`, and `false` for the remaining (boolean) hooks. -/
def declaredDefault (denv : DispatchEnv) : PointOp → RetVal
  | .GetCreatureAI | .GetGameObjectAI | .CreateInstanceData | .CreateOutdoorPvP =>
    .pointer NULL
  | .GetDialogStatus_Creature | .GetDialogStatus_GameObject =>
    .uint32 denv.DIALOG_STATUS_SCRIPTED_NO_STATUS
  | .OnConditionCheck => .bool true
  | .OnCreatureUpdate | .OnGameObjectDestroyed | .OnGameObjectDamaged
  | .OnGameObjectLootStateChanged | .OnGameObjectStateChanged | .OnGameObjectUpdate
  | .OnWeatherChange | .OnWeatherUpdate | .OnInstall | .OnUninstall | .OnReset
  | .OnInstallAccessory | .OnAddPassenger_Vehicle | .OnRemovePassenger_Vehicle
  | .OnAddPassenger_Transport | .OnAddCreaturePassenger | .OnRemovePassenger_Transport
  | .OnTransportUpdate | .OnRelocate => .void
  | _ => .bool false

/-- A sample dispatch environment: the status constant is 100, every boolean hook of a
script answers `true`. -/
def sampleDispatchEnv : DispatchEnv :=
  { DIALOG_STATUS_SCRIPTED_NO_STATUS := 100
    hookResult := fun _ _ => .bool true }

/-! ## Broadcast dispatch (`FOR_SCRIPTS`, `FOREACH_SCRIPT`) -/

/-- The macro `FOREACH_SCRIPT(T)->Hook(args)` (lines 213-225): the enclosing function
returns at once when `ScriptPointerList` is empty; otherwise the hook is called on
`itr->second` for every entry of `ScriptPointerList`, from `begin()` to `end()`. The
arguments passed by reference are the accumulator `acc`, which each call may change. The
result is the list of the scripts called, in call order, and the accumulator after the last
call. -/
def FOREACH_SCRIPT {α : Type} (w : World) (T : Kind) (hook : ScriptPtr → α → α) (acc : α) :
    List ScriptPtr × α :=
  if (w.reg T).ScriptPointerList.isEmpty then ([], acc)
  else (w.reg T).ScriptPointerList.foldl
    (fun st itr => (st.1 ++ [itr.2], hook itr.2 st.2)) ([], acc)

/-- The broadcast operations of `ScriptMgr` that hand an argument by mutable reference to
every script (an accumulator), in the order of the source; `OnPlayerChat` has five
overloads, named after their last parameter. -/
inductive AccumulatorOp
  | OnMotdChange
  | OnHonorCalculation
  | OnGrayLevelCalculation
  | OnColorCodeCalculation
  | OnZeroDifferenceCalculation
  | OnBaseGainCalculation
  | OnGainCalculation
  | OnGroupRateCalculation
  | OnPlayerMoneyChanged
  | OnGivePlayerXP
  | OnPlayerReputationChange
  | OnPlayerChat
  | OnPlayerChat_receiver
  | OnPlayerChat_group
  | OnPlayerChat_guild
  | OnPlayerChat_channel
  | OnGuildAddMember
  | OnGuildMemberWitdrawMoney
  | OnGuildMemberDepositMoney
  | OnHeal
  | OnDamage
  | ModifyPeriodicDamageAurasTick
  | ModifyMeleeDamage
  | ModifySpellDamageTaken
  deriving DecidableEq, Repr

/-- The script type whose registry a broadcast operation walks: the argument of its
`FOREACH_SCRIPT`. -/
def AccumulatorOp.kind : AccumulatorOp → Kind
  | .OnMotdChange => .WorldScript
  | .OnHonorCalculation | .OnGrayLevelCalculation | .OnColorCodeCalculation
  | .OnZeroDifferenceCalculation | .OnBaseGainCalculation | .OnGainCalculation
  | .OnGroupRateCalculation => .FormulaScript
  | .OnPlayerMoneyChanged | .OnGivePlayerXP | .OnPlayerReputationChange | .OnPlayerChat
  | .OnPlayerChat_receiver | .OnPlayerChat_group | .OnPlayerChat_guild
  | .OnPlayerChat_channel => .PlayerScript
  | .OnGuildAddMember | .OnGuildMemberWitdrawMoney | .OnGuildMemberDepositMoney =>
    .GuildScript
  | .OnHeal | .OnDamage | .ModifyPeriodicDamageAurasTick | .ModifyMeleeDamage
  | .ModifySpellDamageTaken => .UnitScript

/-- The broadcast operations with an accumulator (lines 527-583, 1255-1313, 1407-1445,
1495-1518), one line per function. `hook op script acc` is what the hook of `op` of the
script at an address makes of the accumulator (the script body). The result is `none` when
an `ASSERT` aborts the process. -/
def broadcast {α : Type} (hook : AccumulatorOp → ScriptPtr → α → α) (w : World)
    (op : AccumulatorOp) (assertsHold : Bool) (acc : α) : Option (List ScriptPtr × α) :=
  match op with
  | .OnMotdChange => some <| FOREACH_SCRIPT w .WorldScript (hook op) acc
  | .OnHonorCalculation => some <| FOREACH_SCRIPT w .FormulaScript (hook op) acc
  | .OnGrayLevelCalculation => some <| FOREACH_SCRIPT w .FormulaScript (hook op) acc
  | .OnColorCodeCalculation => some <| FOREACH_SCRIPT w .FormulaScript (hook op) acc
  | .OnZeroDifferenceCalculation => some <| FOREACH_SCRIPT w .FormulaScript (hook op) acc
  | .OnBaseGainCalculation => some <| FOREACH_SCRIPT w .FormulaScript (hook op) acc
  | .OnGainCalculation => ASSERT assertsHold <| some <|
      FOREACH_SCRIPT w .FormulaScript (hook op) acc
  | .OnGroupRateCalculation => some <| FOREACH_SCRIPT w .FormulaScript (hook op) acc
  | .OnPlayerMoneyChanged => some <| FOREACH_SCRIPT w .PlayerScript (hook op) acc
  | .OnGivePlayerXP => some <| FOREACH_SCRIPT w .PlayerScript (hook op) acc
  | .OnPlayerReputationChange => some <| FOREACH_SCRIPT w .PlayerScript (hook op) acc
  | .OnPlayerChat => some <| FOREACH_SCRIPT w .PlayerScript (hook op) acc
  | .OnPlayerChat_receiver => some <| FOREACH_SCRIPT w .PlayerScript (hook op) acc
  | .OnPlayerChat_group => some <| FOREACH_SCRIPT w .PlayerScript (hook op) acc
  | .OnPlayerChat_guild => some <| FOREACH_SCRIPT w .PlayerScript (hook op) acc
  | .OnPlayerChat_channel => some <| FOREACH_SCRIPT w .PlayerScript (hook op) acc
  | .OnGuildAddMember => some <| FOREACH_SCRIPT w .GuildScript (hook op) acc
  | .OnGuildMemberWitdrawMoney => some <| FOREACH_SCRIPT w .GuildScript (hook op) acc
  | .OnGuildMemberDepositMoney => some <| FOREACH_SCRIPT w .GuildScript (hook op) acc
  | .OnHeal => some <| FOREACH_SCRIPT w .UnitScript (hook op) acc
  | .OnDamage => some <| FOREACH_SCRIPT w .UnitScript (hook op) acc
  | .ModifyPeriodicDamageAurasTick => some <| FOREACH_SCRIPT w .UnitScript (hook op) acc
  | .ModifyMeleeDamage => some <| FOREACH_SCRIPT w .UnitScript (hook op) acc
  | .ModifySpellDamageTaken => some <| FOREACH_SCRIPT w .UnitScript (hook op) acc

/-! ## Region-scoped dispatch (`SCR_MAP_BGN`, `SCR_MAP_END`) -/

/-- A `MapEntry` as far as the dispatch engine reads it: the field `MapID` and the three
category predicates `IsWorldMap()`, `IsDungeon()`, `IsBattleground()`, which are defined
outside this file. -/
structure MapEntry where
  MapID : Nat
  IsWorldMap : Bool
  IsDungeon : Bool
  IsBattleground : Bool
  deriving DecidableEq, Repr

/-- A live `Map` as far as the dispatch engine reads it: `map->GetEntry()` (`none` for a
null pointer) and `map->GetId()`. -/
structure Map where
  GetEntry : Option MapEntry
  GetId : Nat
  deriving DecidableEq, Repr

/-- The operations of `ScriptMgr` written with `SCR_MAP_BGN` / `SCR_MAP_END`
(lines 602-725). -/
inductive MapOp
  | OnCreateMap
  | OnDestroyMap
  | OnLoadGridMap
  | OnUnloadGridMap
  | OnPlayerEnterMap
  | OnPlayerLeaveMap
  | OnMapUpdate
  deriving DecidableEq, Repr

/-- What a region-scoped operation does that its caller can observe. -/
inductive MapEffect
  /-- The call of the map hook of `op` (`OnCreate`, `OnDestroy`, `OnLoadGridMap`,
  `OnUnloadGridMap`, `OnPlayerEnter`, `OnPlayerLeave`, `OnUpdate`) on a script of the
  registry `kind`. -/
  | mapHook (op : MapOp) (kind : Kind) (script : ScriptPtr)
  /-- The call of `OnMapChanged(player)` on a player script. -/
  | OnMapChanged (script : ScriptPtr)
  deriving DecidableEq, Repr

/-- How control leaves a block of a function body: by a `return` statement, or by reaching
the end of the block, so that the statements after it run. Both carry what was done. -/
inductive BlockExit
  | returned (effects : List MapEffect)
  | fellThrough (effects : List MapEffect)
  deriving DecidableEq, Repr

/-- The loop between `SCR_MAP_BGN` and `SCR_MAP_END` (lines 588-599) over the entries of a
`ScriptPointerList` from `begin()`: a script whose `GetEntry()` is null is skipped; at the
first script whose entry has the `MapID` of the map the hook is called and the function
returns; when no entry is left the loop ends. `scriptEntry` is `MapScript::GetEntry()` of
the script at an address. -/
def scanMapScripts (scriptEntry : ScriptPtr → Option MapEntry) (V : Map)
    (hook : ScriptPtr → MapEffect) : ScriptMap → BlockExit
  | [] => .fellThrough []
  | itr :: rest =>
    match scriptEntry itr.2 with
    | none => scanMapScripts scriptEntry V hook rest
    | some C =>
      if C.MapID = V.GetId then .returned [hook itr.2]
      else scanMapScripts scriptEntry V hook rest

/-- The block `SCR_MAP_BGN(M, V, I, E, C, T); hook; SCR_MAP_END;` (lines 585-600): entered
when the map has an entry of category `T`; inside, `FOR_SCRIPTS` returns from the function
when the registry of `M` is empty, and the loop runs otherwise. -/
def SCR_MAP (scriptEntry : ScriptPtr → Option MapEntry) (w : World) (M : Kind) (V : Map)
    (T : MapEntry → Bool) (hook : ScriptPtr → MapEffect) : BlockExit :=
  match V.GetEntry with
  | none => .fellThrough []
  | some entry =>
    if T entry then
      if (w.reg M).ScriptPointerList.isEmpty then .returned []
      else scanMapScripts scriptEntry V hook (w.reg M).ScriptPointerList
    else .fellThrough []

/-- The statements after a block: they run only when the block was left at its end. -/
def BlockExit.andThen (first : BlockExit) (next : BlockExit) : BlockExit :=
  match first with
  | .returned effects => .returned effects
  | .fellThrough effects =>
    match next with
    | .returned more => .returned (effects ++ more)
    | .fellThrough more => .fellThrough (effects ++ more)

/-- What was done when the function is over, whichever way it was left. -/
def BlockExit.effects : BlockExit → List MapEffect
  | .returned effects => effects
  | .fellThrough effects => effects

/-- The three blocks shared by the region-scoped operations: world maps, then dungeons,
then battlegrounds, each calling the hook of `op` on a script of its own registry. -/
def mapBlocks (scriptEntry : ScriptPtr → Option MapEntry) (w : World) (op : MapOp)
    (map : Map) : BlockExit :=
  (SCR_MAP scriptEntry w .WorldMapScript map MapEntry.IsWorldMap
      (MapEffect.mapHook op .WorldMapScript)).andThen
    ((SCR_MAP scriptEntry w .InstanceMapScript map MapEntry.IsDungeon
        (MapEffect.mapHook op .InstanceMapScript)).andThen
      (SCR_MAP scriptEntry w .BattlegroundMapScript map MapEntry.IsBattleground
        (MapEffect.mapHook op .BattlegroundMapScript)))

/-- The function `ScriptMgr::OnCreateMap` (lines 602-617). -/
def OnCreateMap (scriptEntry : ScriptPtr → Option MapEntry) (w : World) (map : Map)
    (assertsHold : Bool) : Option (List MapEffect) :=
  ASSERT assertsHold <| some (mapBlocks scriptEntry w .OnCreateMap map).effects

/-- The function `ScriptMgr::OnDestroyMap` (lines 619-634). -/
def OnDestroyMap (scriptEntry : ScriptPtr → Option MapEntry) (w : World) (map : Map)
    (assertsHold : Bool) : Option (List MapEffect) :=
  ASSERT assertsHold <| some (mapBlocks scriptEntry w .OnDestroyMap map).effects

/-- The function `ScriptMgr::OnLoadGridMap` (lines 636-652). -/
def OnLoadGridMap (scriptEntry : ScriptPtr → Option MapEntry) (w : World) (map : Map)
    (assertsHold : Bool) : Option (List MapEffect) :=
  ASSERT assertsHold <| some (mapBlocks scriptEntry w .OnLoadGridMap map).effects

/-- The function `ScriptMgr::OnUnloadGridMap` (lines 654-670). -/
def OnUnloadGridMap (scriptEntry : ScriptPtr → Option MapEntry) (w : World) (map : Map)
    (assertsHold : Bool) : Option (List MapEffect) :=
  ASSERT assertsHold <| some (mapBlocks scriptEntry w .OnUnloadGridMap map).effects

/-- The function `ScriptMgr::OnPlayerEnterMap` (lines 672-690): the statement
`FOREACH_SCRIPT(PlayerScript)->OnMapChanged(player);` comes first, and its macro returns
from `OnPlayerEnterMap` when the registry of `PlayerScript` is empty; the three blocks
follow. -/
def OnPlayerEnterMap (scriptEntry : ScriptPtr → Option MapEntry) (w : World) (map : Map)
    (assertsHold : Bool) : Option (List MapEffect) :=
  ASSERT assertsHold <| some <|
    ((if (w.reg .PlayerScript).ScriptPointerList.isEmpty then BlockExit.returned []
      else BlockExit.fellThrough
        ((w.reg .PlayerScript).ScriptPointerList.map
          (fun itr => MapEffect.OnMapChanged itr.2))).andThen
      (mapBlocks scriptEntry w .OnPlayerEnterMap map)).effects

/-- The function `ScriptMgr::OnPlayerLeaveMap` (lines 692-708). -/
def OnPlayerLeaveMap (scriptEntry : ScriptPtr → Option MapEntry) (w : World) (map : Map)
    (assertsHold : Bool) : Option (List MapEffect) :=
  ASSERT assertsHold <| some (mapBlocks scriptEntry w .OnPlayerLeaveMap map).effects

/-- The function `ScriptMgr::OnMapUpdate` (lines 710-725). -/
def OnMapUpdate (scriptEntry : ScriptPtr → Option MapEntry) (w : World) (map : Map)
    (assertsHold : Bool) : Option (List MapEffect) :=
  ASSERT assertsHold <| some (mapBlocks scriptEntry w .OnMapUpdate map).effects

/-- The region-scoped operation named by `op`. -/
def mapDispatch (scriptEntry : ScriptPtr → Option MapEntry) (w : World) (op : MapOp)
    (map : Map) (assertsHold : Bool) : Option (List MapEffect) :=
  match op with
  | .OnCreateMap => OnCreateMap scriptEntry w map assertsHold
  | .OnDestroyMap => OnDestroyMap scriptEntry w map assertsHold
  | .OnLoadGridMap => OnLoadGridMap scriptEntry w map assertsHold
  | .OnUnloadGridMap => OnUnloadGridMap scriptEntry w map assertsHold
  | .OnPlayerEnterMap => OnPlayerEnterMap scriptEntry w map assertsHold
  | .OnPlayerLeaveMap => OnPlayerLeaveMap scriptEntry w map assertsHold
  | .OnMapUpdate => OnMapUpdate scriptEntry w map assertsHold

/-- The category of a map entry for which exactly one of `IsWorldMap()`, `IsDungeon()`,
`IsBattleground()` holds, as the script type of that category; `none` when none or several
hold. -/
def mapCategory (entry : MapEntry) : Option Kind :=
  match entry.IsWorldMap, entry.IsDungeon, entry.IsBattleground with
  | true, false, false => some .WorldMapScript
  | false, true, false => some .InstanceMapScript
  | false, false, true => some .BattlegroundMapScript
  | _, _, _ => none

/-- Whether the script at an address is bound to the region of the map: its entry is not
null and has the `MapID` of the map (lines 590-593). -/
def boundToMap (scriptEntry : ScriptPtr → Option MapEntry) (V : Map) (script : ScriptPtr) :
    Bool :=
  match scriptEntry script with
  | none => false
  | some C => C.MapID == V.GetId

/-! ## Teardown -/

/-- The script types in the order of the `SCR_CLEAR` lines of `ScriptMgr::Unload`
(lines 291-316). -/
def unloadOrder : List Kind :=
  [.SpellScriptLoader, .ServerScript, .WorldScript, .FormulaScript, .WorldMapScript,
    .InstanceMapScript, .BattlegroundMapScript, .ItemScript, .CreatureScript,
    .GameObjectScript, .AreaTriggerScript, .BattlegroundScript, .OutdoorPvPScript,
    .CommandScript, .WeatherScript, .AuctionHouseScript, .ConditionScript, .VehicleScript,
    .DynamicObjectScript, .TransportScript, .AchievementCriteriaScript, .PlayerScript,
    .AccountScript, .GuildScript, .GroupScript, .UnitScript]

/-- The script types in the order of the explicit instantiations of `ScriptRegistry`
(lines 1691-1716). -/
def instantiatedRegistries : List Kind :=
  [.SpellScriptLoader, .ServerScript, .WorldScript, .FormulaScript, .WorldMapScript,
    .InstanceMapScript, .BattlegroundMapScript, .ItemScript, .CreatureScript,
    .GameObjectScript, .AreaTriggerScript, .BattlegroundScript, .OutdoorPvPScript,
    .CommandScript, .WeatherScript, .AuctionHouseScript, .ConditionScript, .VehicleScript,
    .DynamicObjectScript, .TransportScript, .AchievementCriteriaScript, .PlayerScript,
    .GuildScript, .GroupScript, .UnitScript, .AccountScript]

/-- The script types in the order of the script constructors (lines 1520-1683), each of
which calls `AddScript` of the registry of its own type. -/
def constructedKinds : List Kind :=
  [.SpellScriptLoader, .ServerScript, .WorldScript, .FormulaScript, .UnitScript,
    .WorldMapScript, .InstanceMapScript, .BattlegroundMapScript, .ItemScript,
    .CreatureScript, .GameObjectScript, .AreaTriggerScript, .BattlegroundScript,
    .OutdoorPvPScript, .CommandScript, .WeatherScript, .AuctionHouseScript,
    .ConditionScript, .VehicleScript, .DynamicObjectScript, .TransportScript,
    .AchievementCriteriaScript, .PlayerScript, .AccountScript, .GuildScript, .GroupScript]

/-- The macro `SCR_CLEAR(T)` (lines 285-288): every element of `Scripts` is deleted, in
order, and `Scripts` is cleared; `ScriptPointerList` is not touched. The second component
lists the pointers deleted so far. -/
def SCR_CLEAR (st : World × List ScriptPtr) (T : Kind) : World × List ScriptPtr :=
  (st.1.setReg T { st.1.reg T with Scripts := [] }, st.2 ++ (st.1.reg T).Scripts)

/-- The function `ScriptMgr::Unload` (lines 283-322) on the registries: `SCR_CLEAR` for
every script type of `unloadOrder`. The result is the world after it and the pointers
passed to `delete`, in order. The two `delete[]` of the spell tables at its end do not
touch the registries. -/
def Unload (w : World) : World × List ScriptPtr :=
  unloadOrder.foldl SCR_CLEAR (w, [])

/-! ## Chat commands (`GetChatCommands`) -/

/-- A `ChatCommand` as far as `GetChatCommands` reads it: the field `Name`; the other
fields (security level, handler, help text, child commands) travel with it as `rest`. -/
structure ChatCommand where
  Name : String
  rest : Nat
  deriving DecidableEq, Repr

/-- The C function `strcmp`: negative, zero or positive as the first string is less than,
equal to or greater than the second, byte by byte. -/
def strcmp (a b : String) : Int :=
  if a.toList < b.toList then -1 else if b.toList < a.toList then 1 else 0

/-- The algorithm `std::sort(first, last, comp)`: the elements rearranged so that no
element is followed by one that `comp` puts before it. The order of equivalent elements is
left open by the standard; this is one sort that meets it (insertion into place). -/
def std_sort {α : Type} (comp : α → α → Bool) (l : List α) : List α :=
  l.insertionSort (fun a b => comp b a = false)

/-- The function `ScriptMgr::GetChatCommands` (lines 1024-1041): `FOR_SCRIPTS_RET` returns
the empty table when the registry of `CommandScript` is empty; otherwise the commands of
every script of `ScriptPointerList` are appended to the table, which is then sorted by
`strcmp` of the names. `GetCommands` is `CommandScript::GetCommands()` of the script at an
address. -/
def GetChatCommands (GetCommands : ScriptPtr → List ChatCommand) (w : World) :
    List ChatCommand :=
  if (w.reg .CommandScript).ScriptPointerList.isEmpty then []
  else
    std_sort (fun a b => decide (strcmp a.Name b.Name < 0))
      ((w.reg .CommandScript).ScriptPointerList.foldl
        (fun table itr => table ++ GetCommands itr.2) [])

/-! ## Spell script factories (`CreateSpellScripts`, `CreateAuraScripts`) -/

/-- The collaborators of the factory dispatch that live outside this file. -/
structure SpellEnv where
  /-- The range `sObjectMgr->GetSpellScriptsBounds(spellId)`: the pairs (spell ID, script
  ID of a loader) from `bounds.first` to `bounds.second`. -/
  GetSpellScriptsBounds : Nat → List (Nat × Nat)
  /-- The pointer `tmpscript->GetSpellScript()` returns (the loader body), `NULL` included.
  The second argument counts the factory calls made before this one in the process, so
  that a loader may hand out a new object each time it is asked, or the same one. -/
  GetSpellScript : ScriptPtr → Nat → ScriptPtr
  /-- The pointer `tmpscript->GetAuraScript()` returns, likewise. -/
  GetAuraScript : ScriptPtr → Nat → ScriptPtr

/-- What the factory dispatch does that its caller can observe. -/
inductive SpellEvent
  /-- The call `tmpscript->GetSpellScript()` on a loader. -/
  | GetSpellScript (loader : ScriptPtr)
  /-- The call `tmpscript->GetAuraScript()` on a loader. -/
  | GetAuraScript (loader : ScriptPtr)
  /-- The call `script->_Init(&tmpscript->GetName(), spellId)`. -/
  | Init (script : ScriptPtr) (scriptname : String) (spellId : Nat)
  deriving DecidableEq, Repr

/-- The state a factory call works on: the registries, the output list `scriptVector`
passed by reference, the number of factory calls made so far in the process, and the
calls made, in order. -/
structure SpellCall where
  world : World
  scriptVector : List ScriptPtr
  made : Nat
  events : List SpellEvent

/-- The body of the loop of `CreateSpellScripts` (lines 422-433) for one pair of the
range. -/
def CreateSpellScripts_step (env : Env) (senv : SpellEnv) (spellId : Nat) (st : SpellCall)
    (itr : Nat × Nat) : SpellCall :=
  let tmpscript := GetScriptById st.world .SpellScriptLoader itr.2
  if tmpscript = NULL then st
  else
    let script := senv.GetSpellScript tmpscript st.made
    let st1 := { st with
      made := st.made + 1
      events := st.events ++ [.GetSpellScript tmpscript] }
    if script = NULL then st1
    else { st1 with
      scriptVector := st1.scriptVector ++ [script]
      events := st1.events ++ [.Init script (env.GetName tmpscript) spellId] }

/-- The function `ScriptMgr::CreateSpellScripts(spellId, scriptVector)` (lines 416-435). -/
def CreateSpellScripts (env : Env) (senv : SpellEnv) (spellId : Nat) (st : SpellCall) :
    SpellCall :=
  (senv.GetSpellScriptsBounds spellId).foldl (CreateSpellScripts_step env senv spellId) st

/-- The body of the loop of `CreateAuraScripts` (lines 443-454) for one pair of the
range. -/
def CreateAuraScripts_step (env : Env) (senv : SpellEnv) (spellId : Nat) (st : SpellCall)
    (itr : Nat × Nat) : SpellCall :=
  let tmpscript := GetScriptById st.world .SpellScriptLoader itr.2
  if tmpscript = NULL then st
  else
    let script := senv.GetAuraScript tmpscript st.made
    let st1 := { st with
      made := st.made + 1
      events := st.events ++ [.GetAuraScript tmpscript] }
    if script = NULL then st1
    else { st1 with
      scriptVector := st1.scriptVector ++ [script]
      events := st1.events ++ [.Init script (env.GetName tmpscript) spellId] }

/-- The function `ScriptMgr::CreateAuraScripts(spellId, scriptVector)` (lines 437-456). -/
def CreateAuraScripts (env : Env) (senv : SpellEnv) (spellId : Nat) (st : SpellCall) :
    SpellCall :=
  (senv.GetSpellScriptsBounds spellId).foldl (CreateAuraScripts_step env senv spellId) st

/-- The function `ScriptMgr::CreateSpellScriptLoaders(spellId, scriptVector)`
(lines 458-471): every loader found is appended together with its position in the range
(the iterator). -/
def CreateSpellScriptLoaders (senv : SpellEnv) (w : World) (spellId : Nat)
    (scriptVector : List (ScriptPtr × Nat)) : List (ScriptPtr × Nat) :=
  (senv.GetSpellScriptsBounds spellId).enum.foldl
    (fun out itr =>
      let tmpscript := GetScriptById w .SpellScriptLoader itr.2.2
      if tmpscript = NULL then out else out ++ [(tmpscript, itr.1)])
    scriptVector

/-- The loaders that `GetScriptById` finds for the pairs of a range, in range order. -/
def foundLoaders (w : World) (range : List (Nat × Nat)) : List ScriptPtr :=
  (range.map (fun itr => GetScriptById w .SpellScriptLoader itr.2)).filter
    (fun loader => loader != NULL)

/-- What the loaders found hand out when each is asked once, in range order, the first of
them by the factory call number `made`: every loader with the pointer it returns. -/
def factoryResults (factory : ScriptPtr → Nat → ScriptPtr) (w : World)
    (range : List (Nat × Nat)) (made : Nat) : List (ScriptPtr × ScriptPtr) :=
  ((foundLoaders w range).enumFrom made).map (fun nl => (nl.2, factory nl.2 nl.1))

/-- The instances a factory call appends: the results that are not null, in range
order. -/
def appendedScripts (factory : ScriptPtr → Nat → ScriptPtr) (w : World)
    (range : List (Nat × Nat)) (made : Nat) : List ScriptPtr :=
  ((factoryResults factory w range made).map Prod.snd).filter (fun script => script != NULL)


/-- The common shape of the two factory loops: `factory` is the member function asked
(`GetSpellScript` or `GetAuraScript`) and `event` records the call. -/
def factoryStep (env : Env) (factory : ScriptPtr → Nat → ScriptPtr)
    (event : ScriptPtr → SpellEvent) (spellId : Nat) (st : SpellCall) (itr : Nat × Nat) :
    SpellCall :=
  let tmpscript := GetScriptById st.world .SpellScriptLoader itr.2
  if tmpscript = NULL then st
  else
    let script := factory tmpscript st.made
    let st1 := { st with
      made := st.made + 1
      events := st.events ++ [event tmpscript] }
    if script = NULL then st1
    else { st1 with
      scriptVector := st1.scriptVector ++ [script]
      events := st1.events ++ [.Init script (env.GetName tmpscript) spellId] }

/-- The calls a factory loop makes for a list of (loader, result) pairs: the factory call
on the loader, then `_Init` on the result when it is not null. -/
def factoryEvents (env : Env) (event : ScriptPtr → SpellEvent) (spellId : Nat)
    (results : List (ScriptPtr × ScriptPtr)) : List SpellEvent :=
  results.flatMap (fun r =>
    event r.1 :: (if r.2 = NULL then [] else [.Init r.2 (env.GetName r.1) spellId]))


/-- The loaders asked for a script by the calls of a list, in order. -/
def factoryCalls (events : List SpellEvent) : List ScriptPtr :=
  events.filterMap (fun e =>
    match e with
    | .GetSpellScript loader => some loader
    | .GetAuraScript loader => some loader
    | .Init _ _ _ => none)


/-! ## Start-up (`Initialize`) -/

/-- What `ScriptMgr::Initialize` does, step by step, as its surroundings see it. -/
inductive InitEvent
  /-- Line 260: `LoadDatabase()`. -/
  | LoadDatabase
  /-- Line 262: the line "Loading C++ scripts". -/
  | loadingScripts
  /-- Line 264: `FillSpellSummary()`. -/
  | FillSpellSummary
  /-- Line 266: `AddSC_SmartScripts()`. -/
  | AddSC_SmartScripts
  /-- Line 271: the call `_script_loader_callback()`. -/
  | script_loader_callback
  /-- Line 276: an error line of the report of the unused script names. -/
  | error (line : LogEvent)
  /-- Line 280: the line ">> Loaded %u C++ scripts in %u ms" (the numbers are left out). -/
  | loaded
  deriving DecidableEq, Repr

/-- The collaborators of `Initialize` that live outside this file. Both functions register
scripts, that is they run script constructors and so calls of `AddScript`, which may abort
the process. -/
structure InitEnv where
  /-- The function `AddSC_SmartScripts()`. -/
  AddSC_SmartScripts : World → Outcome World
  /-- The member `_script_loader_callback`: `none` is the `nullptr` the constructor sets
  (line 244), `some f` a callback that has been set. -/
  _script_loader_callback : Option (World → Outcome World)

/-- The function `ScriptMgr::Initialize()` (lines 256-281): the state it ends in and the
steps it made. `LoadDatabase` and `FillSpellSummary` do not touch the registries; the
`ASSERT` of line 268 aborts when the callback is null. -/
def Initialize (env : Env) (ienv : InitEnv) (w : World) : Outcome (World × List InitEvent) :=
  let steps : List InitEvent :=
    [.LoadDatabase, .loadingScripts, .FillSpellSummary, .AddSC_SmartScripts]
  match ienv.AddSC_SmartScripts w with
  | .aborted w1 => .aborted (w1, steps)
  | .returned w1 =>
    match ienv._script_loader_callback with
    | none => .aborted (w1, steps)
    | some callback =>
      match callback w1 with
      | .aborted w2 => .aborted (w2, steps ++ [.script_loader_callback])
      | .returned w2 =>
        .returned (w2, steps ++ [.script_loader_callback] ++
          (reportUnusedScriptNames env w2).map InitEvent.error ++ [.loaded])


/-! ## Spell summary (`FillSpellSummary`) -/

/-- The element type `TSpellSummary` of the array `SpellSummary` (lines 237-241): two
`uint8` bit sets. -/
structure TSpellSummary where
  Targets : Nat
  Effects : Nat
  deriving DecidableEq, Repr

/-- What `FillSpellSummary` reads of one entry `pTempSpell->Effects[j]`. -/
structure SpellEffectInfo where
  /-- The value `TargetA.GetTarget()`. -/
  TargetA : Nat
  Effect : Nat
  ApplyAuraName : Nat
  deriving DecidableEq, Repr

/-- What `FillSpellSummary` reads of a `SpellInfo`: the array `Effects`, by index. -/
structure SpellInfo where
  Effects : Nat → SpellEffectInfo

/-- The enumerators `FillSpellSummary` names; their values are set in headers outside this
file, so they are parameters here. -/
structure SpellConstants where
  MAX_SPELL_EFFECTS : Nat
  SELECT_TARGET_SELF : Nat
  SELECT_TARGET_SINGLE_ENEMY : Nat
  SELECT_TARGET_AOE_ENEMY : Nat
  SELECT_TARGET_ANY_ENEMY : Nat
  SELECT_TARGET_SINGLE_FRIEND : Nat
  SELECT_TARGET_AOE_FRIEND : Nat
  SELECT_TARGET_ANY_FRIEND : Nat
  SELECT_EFFECT_DAMAGE : Nat
  SELECT_EFFECT_HEALING : Nat
  SELECT_EFFECT_AURA : Nat
  TARGET_UNIT_CASTER : Nat
  TARGET_UNIT_TARGET_ENEMY : Nat
  TARGET_DEST_TARGET_ENEMY : Nat
  TARGET_UNIT_SRC_AREA_ENEMY : Nat
  TARGET_UNIT_DEST_AREA_ENEMY : Nat
  TARGET_SRC_CASTER : Nat
  TARGET_DEST_DYNOBJ_ENEMY : Nat
  TARGET_UNIT_TARGET_ALLY : Nat
  TARGET_UNIT_TARGET_PARTY : Nat
  TARGET_UNIT_CASTER_AREA_PARTY : Nat
  TARGET_UNIT_LASTTARGET_AREA_PARTY : Nat
  SPELL_EFFECT_SCHOOL_DAMAGE : Nat
  SPELL_EFFECT_INSTAKILL : Nat
  SPELL_EFFECT_ENVIRONMENTAL_DAMAGE : Nat
  SPELL_EFFECT_HEALTH_LEECH : Nat
  SPELL_EFFECT_HEAL : Nat
  SPELL_EFFECT_HEAL_MAX_HEALTH : Nat
  SPELL_EFFECT_HEAL_MECHANICAL : Nat
  SPELL_EFFECT_APPLY_AURA : Nat

/-- The statement `if (cond) x |= 1 << (c-1);` on a `uint8` field `x`: the result of the
bitwise or is cut to eight bits when it is stored. -/
def orIf (cond : Bool) (x c : Nat) : Nat :=
  if cond then (x ||| (1 <<< (c - 1))) % 2 ^ 8 else x

/-- The body of the inner loop of `FillSpellSummary` (lines 349-411) for one effect. -/
def summaryStep (K : SpellConstants) (s : TSpellSummary) (e : SpellEffectInfo) :
    TSpellSummary :=
  let tgt := e.TargetA
  let t := s.Targets
  let t := orIf (tgt == K.TARGET_UNIT_CASTER) t K.SELECT_TARGET_SELF
  let t := orIf (tgt == K.TARGET_UNIT_TARGET_ENEMY || tgt == K.TARGET_DEST_TARGET_ENEMY)
    t K.SELECT_TARGET_SINGLE_ENEMY
  let t := orIf (tgt == K.TARGET_UNIT_SRC_AREA_ENEMY || tgt == K.TARGET_UNIT_DEST_AREA_ENEMY ||
    tgt == K.TARGET_SRC_CASTER || tgt == K.TARGET_DEST_DYNOBJ_ENEMY)
    t K.SELECT_TARGET_AOE_ENEMY
  let t := orIf (tgt == K.TARGET_UNIT_TARGET_ENEMY || tgt == K.TARGET_DEST_TARGET_ENEMY ||
    tgt == K.TARGET_UNIT_SRC_AREA_ENEMY || tgt == K.TARGET_UNIT_DEST_AREA_ENEMY ||
    tgt == K.TARGET_SRC_CASTER || tgt == K.TARGET_DEST_DYNOBJ_ENEMY)
    t K.SELECT_TARGET_ANY_ENEMY
  let t := orIf (tgt == K.TARGET_UNIT_CASTER || tgt == K.TARGET_UNIT_TARGET_ALLY ||
    tgt == K.TARGET_UNIT_TARGET_PARTY)
    t K.SELECT_TARGET_SINGLE_FRIEND
  let t := orIf (tgt == K.TARGET_UNIT_CASTER_AREA_PARTY ||
    tgt == K.TARGET_UNIT_LASTTARGET_AREA_PARTY || tgt == K.TARGET_SRC_CASTER)
    t K.SELECT_TARGET_AOE_FRIEND
  let t := orIf (tgt == K.TARGET_UNIT_CASTER || tgt == K.TARGET_UNIT_TARGET_ALLY ||
    tgt == K.TARGET_UNIT_TARGET_PARTY || tgt == K.TARGET_UNIT_CASTER_AREA_PARTY ||
    tgt == K.TARGET_UNIT_LASTTARGET_AREA_PARTY || tgt == K.TARGET_SRC_CASTER)
    t K.SELECT_TARGET_ANY_FRIEND
  let f := s.Effects
  let f := orIf (e.Effect == K.SPELL_EFFECT_SCHOOL_DAMAGE ||
    e.Effect == K.SPELL_EFFECT_INSTAKILL || e.Effect == K.SPELL_EFFECT_ENVIRONMENTAL_DAMAGE ||
    e.Effect == K.SPELL_EFFECT_HEALTH_LEECH)
    f K.SELECT_EFFECT_DAMAGE
  let f := orIf (e.Effect == K.SPELL_EFFECT_HEAL || e.Effect == K.SPELL_EFFECT_HEAL_MAX_HEALTH ||
    e.Effect == K.SPELL_EFFECT_HEAL_MECHANICAL ||
    (e.Effect == K.SPELL_EFFECT_APPLY_AURA && e.ApplyAuraName == 8))
    f K.SELECT_EFFECT_HEALING
  let f := orIf (e.Effect == K.SPELL_EFFECT_APPLY_AURA) f K.SELECT_EFFECT_AURA
  ⟨t, f⟩

/-- The function `ScriptMgr::FillSpellSummary()` (lines 329-414): the array `SpellSummary`
it allocates and fills, one element for every index below the size of the spell store. -/
def FillSpellSummary (K : SpellConstants) (GetSpellInfoStoreSize : Nat)
    (GetSpellInfo : Nat → Option SpellInfo) : List TSpellSummary :=
  (List.range GetSpellInfoStoreSize).map (fun i =>
    match GetSpellInfo i with
    | none => ⟨0, 0⟩
    | some pTempSpell =>
      (List.range K.MAX_SPELL_EFFECTS).foldl
        (fun s j => summaryStep K s (pTempSpell.Effects j)) ⟨0, 0⟩)

/-- Whether the bit `1 << (c-1)` is set in `x`. -/
def hasBit (x c : Nat) : Bool := x.testBit (c - 1)

/-- The rules of the inner loop for the field `Targets`: the condition on the effect and
the enumerator whose bit is set, in the order of the source. -/
def targetRules (K : SpellConstants) : List ((SpellEffectInfo → Bool) × Nat) :=
  [(fun e => e.TargetA == K.TARGET_UNIT_CASTER, K.SELECT_TARGET_SELF),
   (fun e => e.TargetA == K.TARGET_UNIT_TARGET_ENEMY || e.TargetA == K.TARGET_DEST_TARGET_ENEMY,
     K.SELECT_TARGET_SINGLE_ENEMY),
   (fun e => e.TargetA == K.TARGET_UNIT_SRC_AREA_ENEMY ||
     e.TargetA == K.TARGET_UNIT_DEST_AREA_ENEMY || e.TargetA == K.TARGET_SRC_CASTER ||
     e.TargetA == K.TARGET_DEST_DYNOBJ_ENEMY, K.SELECT_TARGET_AOE_ENEMY),
   (fun e => e.TargetA == K.TARGET_UNIT_TARGET_ENEMY || e.TargetA == K.TARGET_DEST_TARGET_ENEMY ||
     e.TargetA == K.TARGET_UNIT_SRC_AREA_ENEMY || e.TargetA == K.TARGET_UNIT_DEST_AREA_ENEMY ||
     e.TargetA == K.TARGET_SRC_CASTER || e.TargetA == K.TARGET_DEST_DYNOBJ_ENEMY,
     K.SELECT_TARGET_ANY_ENEMY),
   (fun e => e.TargetA == K.TARGET_UNIT_CASTER || e.TargetA == K.TARGET_UNIT_TARGET_ALLY ||
     e.TargetA == K.TARGET_UNIT_TARGET_PARTY, K.SELECT_TARGET_SINGLE_FRIEND),
   (fun e => e.TargetA == K.TARGET_UNIT_CASTER_AREA_PARTY ||
     e.TargetA == K.TARGET_UNIT_LASTTARGET_AREA_PARTY || e.TargetA == K.TARGET_SRC_CASTER,
     K.SELECT_TARGET_AOE_FRIEND),
   (fun e => e.TargetA == K.TARGET_UNIT_CASTER || e.TargetA == K.TARGET_UNIT_TARGET_ALLY ||
     e.TargetA == K.TARGET_UNIT_TARGET_PARTY || e.TargetA == K.TARGET_UNIT_CASTER_AREA_PARTY ||
     e.TargetA == K.TARGET_UNIT_LASTTARGET_AREA_PARTY || e.TargetA == K.TARGET_SRC_CASTER,
     K.SELECT_TARGET_ANY_FRIEND)]

/-- The rules of the inner loop for the field `Effects`, likewise. -/
def effectRules (K : SpellConstants) : List ((SpellEffectInfo → Bool) × Nat) :=
  [(fun e => e.Effect == K.SPELL_EFFECT_SCHOOL_DAMAGE || e.Effect == K.SPELL_EFFECT_INSTAKILL ||
     e.Effect == K.SPELL_EFFECT_ENVIRONMENTAL_DAMAGE || e.Effect == K.SPELL_EFFECT_HEALTH_LEECH,
     K.SELECT_EFFECT_DAMAGE),
   (fun e => e.Effect == K.SPELL_EFFECT_HEAL || e.Effect == K.SPELL_EFFECT_HEAL_MAX_HEALTH ||
     e.Effect == K.SPELL_EFFECT_HEAL_MECHANICAL ||
     (e.Effect == K.SPELL_EFFECT_APPLY_AURA && e.ApplyAuraName == 8),
     K.SELECT_EFFECT_HEALING),
   (fun e => e.Effect == K.SPELL_EFFECT_APPLY_AURA, K.SELECT_EFFECT_AURA)]

/-- The bit positions the rules of a list set for an effect: position `k` is the bit
`1 << k`. -/
def ruleBits (rules : List ((SpellEffectInfo → Bool) × Nat)) (e : SpellEffectInfo)
    (k : Nat) : Bool :=
  rules.any (fun r => r.1 e && (k + 1 == r.2))

/-- The enumerators of `SelectTarget` that `FillSpellSummary` uses. -/
def selectTargets (K : SpellConstants) : List Nat :=
  [K.SELECT_TARGET_SELF, K.SELECT_TARGET_SINGLE_ENEMY, K.SELECT_TARGET_AOE_ENEMY,
    K.SELECT_TARGET_ANY_ENEMY, K.SELECT_TARGET_SINGLE_FRIEND, K.SELECT_TARGET_AOE_FRIEND,
    K.SELECT_TARGET_ANY_FRIEND]

/-- The enumerators of `SelectEffect` that `FillSpellSummary` uses. -/
def selectEffects (K : SpellConstants) : List Nat :=
  [K.SELECT_EFFECT_DAMAGE, K.SELECT_EFFECT_HEALING, K.SELECT_EFFECT_AURA]

/-! ## Sample inputs

Concrete collaborators on which the theorems below are instantiated. -/

/-- A sample resolver and heap: the database knows the names `npc_a` (ID 5) and `npc_b`
(ID 7); the objects at addresses 10 and 11 are both named `npc_a`, the one at 20 is named
`npc_b`, and every other object carries a name the database does not know. -/
def sampleEnv : Env :=
  { SCRIPTS := true
    GetScriptId := fun name => if name = "npc_a" then 5 else if name = "npc_b" then 7 else 0
    GetName := fun p =>
      if p = 10 then "npc_a" else if p = 11 then "npc_a" else if p = 20 then "npc_b"
      else "custom_script" }

/-- A resolver that gives two different names the same ID: every name resolves to 5. -/
def collidingEnv : Env :=
  { sampleEnv with GetScriptId := fun _ => 5 }

/-- The world reached from the initial one by registering the creature script at address 10
(named `npc_a`, ID 5) with the default `addToDeleteContainer`. -/
def sampleWorld : World :=
  (AddScript sampleEnv .CreatureScript (World.initial ["npc_a", "npc_b"]) 10 true).state

/-- Sample map scripts: the script at address 41 is bound to world map 5, the scripts at 42
and 43 to world map 7, the scripts at 10 and 20 to dungeon 7; no other address holds a map
script with an entry. -/
def sampleScriptEntry : ScriptPtr → Option MapEntry := fun p =>
  if p = 41 then some ⟨5, true, false, false⟩
  else if p = 42 ∨ p = 43 then some ⟨7, true, false, false⟩
  else if p = 10 ∨ p = 20 then some ⟨7, false, true, false⟩
  else none

/-- The live world map of region 7. -/
def sampleWorldMap : Map := ⟨some ⟨7, true, false, false⟩, 7⟩

/-- The live dungeon map of region 7. -/
def sampleDungeon : Map := ⟨some ⟨7, false, true, false⟩, 7⟩

/-- The world-map scripts at 41, 42, 43 (regions 5, 7, 7) in registration order. -/
def sampleMapRegistrations : List Registration :=
  [⟨.WorldMapScript, 41, true⟩, ⟨.WorldMapScript, 42, true⟩, ⟨.WorldMapScript, 43, true⟩]


/-- The world reached from the initial one by registering two spell script loaders: the
one at address 10 (named `npc_a`, ID 5) and the one at address 20 (named `npc_b`, ID 7). -/
def sampleSpellWorld : World :=
  (registerAll sampleEnv (World.initial ["npc_a", "npc_b"])
    [⟨.SpellScriptLoader, 10, true⟩, ⟨.SpellScriptLoader, 20, true⟩]).state

/-- Spell 133 has three pairs, with the loader IDs 5, 9 (not registered) and 7. The loader
at 10 makes a new spell script on every call and no aura script; the loader at 20 makes a
new aura script on every call and no spell script. -/
def sampleSpellEnv : SpellEnv :=
  { GetSpellScriptsBounds := fun spellId =>
      if spellId = 133 then [(133, 5), (133, 9), (133, 7)] else []
    GetSpellScript := fun loader n => if loader = 10 then 100 + n else NULL
    GetAuraScript := fun loader n => if loader = 20 then 200 + n else NULL }

/-- A factory call about to start in the sample world: nothing in the output list, no
factory call made before. -/
def sampleSpellCall : SpellCall := ⟨sampleSpellWorld, [], 0, []⟩


/-- A start-up in which `AddSC_SmartScripts` registers nothing and the callback registers
the creature script at address 10 (named `npc_a`). -/
def sampleInitEnv : InitEnv :=
  { AddSC_SmartScripts := fun w => .returned w
    _script_loader_callback :=
      some (fun w => registerAll sampleEnv w [⟨.CreatureScript, 10, true⟩]) }


/-- The values the enumerators have in the headers of the server: `SelectTarget` counts
from `SELECT_TARGET_SELF = 1`, `SelectEffect` from `SELECT_EFFECT_DAMAGE = 1`. -/
def sampleSpellConstants : SpellConstants :=
  { MAX_SPELL_EFFECTS := 3
    SELECT_TARGET_SELF := 1
    SELECT_TARGET_SINGLE_ENEMY := 2
    SELECT_TARGET_AOE_ENEMY := 3
    SELECT_TARGET_ANY_ENEMY := 4
    SELECT_TARGET_SINGLE_FRIEND := 5
    SELECT_TARGET_AOE_FRIEND := 6
    SELECT_TARGET_ANY_FRIEND := 7
    SELECT_EFFECT_DAMAGE := 1
    SELECT_EFFECT_HEALING := 2
    SELECT_EFFECT_AURA := 3
    TARGET_UNIT_CASTER := 1
    TARGET_UNIT_TARGET_ENEMY := 6
    TARGET_DEST_TARGET_ENEMY := 53
    TARGET_UNIT_SRC_AREA_ENEMY := 15
    TARGET_UNIT_DEST_AREA_ENEMY := 16
    TARGET_SRC_CASTER := 22
    TARGET_DEST_DYNOBJ_ENEMY := 28
    TARGET_UNIT_TARGET_ALLY := 21
    TARGET_UNIT_TARGET_PARTY := 35
    TARGET_UNIT_CASTER_AREA_PARTY := 20
    TARGET_UNIT_LASTTARGET_AREA_PARTY := 37
    SPELL_EFFECT_SCHOOL_DAMAGE := 2
    SPELL_EFFECT_INSTAKILL := 1
    SPELL_EFFECT_ENVIRONMENTAL_DAMAGE := 7
    SPELL_EFFECT_HEALTH_LEECH := 9
    SPELL_EFFECT_HEAL := 10
    SPELL_EFFECT_HEAL_MAX_HEALTH := 67
    SPELL_EFFECT_HEAL_MECHANICAL := 75
    SPELL_EFFECT_APPLY_AURA := 6 }

/-- A spell store of size 3: no spell at index 0; at index 1 a damage spell on a single
enemy that also puts an aura on the caster; at index 2 a heal around the caster. -/
def sampleGetSpellInfo : Nat → Option SpellInfo := fun i =>
  if i = 1 then
    some ⟨fun j => if j = 0 then ⟨6, 2, 0⟩ else if j = 1 then ⟨1, 6, 3⟩ else ⟨0, 0, 0⟩⟩
  else if i = 2 then
    some ⟨fun j => if j = 0 then ⟨22, 10, 0⟩ else ⟨0, 0, 0⟩⟩
  else none

/-! ## Association-list facts -/

theorem mapFind_mapAssign_same (m : ScriptMap) (id : Nat) (script : ScriptPtr) :
    mapFind (mapAssign m id script) id = some script := by
  induction m with
  | nil => simp [mapAssign, mapFind]
  | cons hd tl ih =>
    obtain ⟨k, v⟩ := hd
    by_cases h1 : id < k
    · simp [mapAssign, mapFind, h1]
    · by_cases h2 : id = k
      · subst h2; simp [mapAssign, mapFind]
      · have h3 : ¬ k = id := fun h => h2 h.symm
        simp [mapAssign, mapFind, h1, h2, h3, ih]

theorem mapFind_mapAssign_other (m : ScriptMap) (id j : Nat) (script : ScriptPtr)
    (hj : j ≠ id) : mapFind (mapAssign m id script) j = mapFind m j := by
  induction m with
  | nil =>
    have h : ¬ id = j := fun h => hj h.symm
    simp [mapAssign, mapFind, h]
  | cons hd tl ih =>
    obtain ⟨k, v⟩ := hd
    have h : ¬ id = j := fun h => hj h.symm
    by_cases h1 : id < k
    · simp [mapAssign, mapFind, h1, h]
    · by_cases h2 : id = k
      · subst h2; simp [mapAssign, mapFind, h]
      · by_cases h3 : k = j
        · subst h3; simp [mapAssign, mapFind, h1, h2]
        · simp [mapAssign, mapFind, h1, h2, h3, ih]

theorem mapAssign_append_of_lt (m : ScriptMap) (id : Nat) (script : ScriptPtr)
    (h : ∀ it ∈ m, it.1 < id) : mapAssign m id script = m ++ [(id, script)] := by
  induction m with
  | nil => simp [mapAssign]
  | cons hd tl ih =>
    obtain ⟨k, v⟩ := hd
    have hk : k < id := h (k, v) (List.mem_cons_self _ _)
    have h1 : ¬ id < k := by omega
    have h2 : ¬ id = k := by omega
    have ih1 := ih (fun it hit => h it (List.mem_cons_of_mem _ hit))
    simp [mapAssign, h1, h2, ih1]

theorem mapFind_enumFrom (l : List ScriptPtr) (n i : Nat) :
    mapFind (List.enumFrom n l) i = if i < n then none else l[i - n]? := by
  induction l generalizing n with
  | nil => simp [mapFind]
  | cons hd tl ih =>
    simp only [List.enumFrom_cons, mapFind, ih]
    by_cases h1 : n = i
    · subst h1; simp
    · by_cases h2 : i < n
      · have h3 : i < n + 1 := by omega
        simp [h1, h2, h3]
      · have h3 : ¬ i < n + 1 := by omega
        have h4 : i - n = (i - (n + 1)) + 1 := by omega
        simp [h1, h2, h3, h4]

/-! ## The branches of `AddScript` -/

/-- Whether the instance is a value of `ScriptPointerList`, as the loop of lines 117-126
finds out. -/
theorem find?_eq_none_iff_not_mem_values (m : ScriptMap) (script : ScriptPtr) :
    m.find? (fun it => it.2 == script) = none ↔ script ∉ m.map Prod.snd := by
  simp only [List.find?_eq_none, List.mem_map, beq_iff_eq]
  constructor
  · rintro h ⟨it, hit, rfl⟩
    exact h it hit rfl
  · intro h it hit heq
    exact h ⟨it, hit, heq⟩

theorem AddScript_null (env : Env) (T : Kind) (w : World) (flag : Bool) :
    AddScript env T w NULL flag = .aborted w := by
  simp [AddScript]

theorem AddScript_false_type_fresh (env : Env) (T : Kind) (w : World) (script : ScriptPtr)
    (flag : Bool) (hT : is_script_database_bound T = false) (hn : script ≠ NULL)
    (hfresh : script ∉ (w.reg T).ScriptPointerList.map Prod.snd) :
    AddScript env T w script flag = .returned
      { reg := Function.update w.reg T
          { ScriptPointerList :=
              mapAssign (w.reg T).ScriptPointerList (w.reg T)._scriptIdCounter script
            Scripts := if flag then (w.reg T).Scripts ++ [script] else (w.reg T).Scripts
            _scriptIdCounter := ((w.reg T)._scriptIdCounter + 1) % 2 ^ 32 }
        _scriptCount := w._scriptCount + 1
        UnusedScriptNames := w.UnusedScriptNames
        log := w.log } := by
  have hf := (find?_eq_none_iff_not_mem_values _ script).mpr hfresh
  cases flag <;>
    simp [AddScript, hn, hf, hT, AddScript_false_type, World.setReg, IncrementScriptCount]

theorem AddScript_registered (env : Env) (T : Kind) (w : World) (script : ScriptPtr)
    (flag : Bool) (hn : script ≠ NULL)
    (hreg : script ∈ (w.reg T).ScriptPointerList.map Prod.snd) :
    ∃ other, AddScript env T w script flag = .returned
      { w with log := w.log ++ [.sameMemoryPointer (env.GetName script) other] } := by
  cases hf : (w.reg T).ScriptPointerList.find? (fun it => it.2 == script) with
  | none => exact absurd hreg ((find?_eq_none_iff_not_mem_values _ script).mp hf)
  | some it => exact ⟨env.GetName it.2, by simp [AddScript, hn, hf]⟩

theorem AddScript_true_type_insert (env : Env) (T : Kind) (w : World) (script : ScriptPtr)
    (flag : Bool) (hT : is_script_database_bound T = true) (hn : script ≠ NULL)
    (hfresh : script ∉ (w.reg T).ScriptPointerList.map Prod.snd)
    (hid : env.GetScriptId (env.GetName script) ≠ 0)
    (hname : ∀ it ∈ (w.reg T).ScriptPointerList, env.GetName it.2 ≠ env.GetName script) :
    AddScript env T w script flag = .returned
      { reg := Function.update w.reg T
          { ScriptPointerList :=
              mapAssign (w.reg T).ScriptPointerList (env.GetScriptId (env.GetName script))
                script
            Scripts := if flag then (w.reg T).Scripts ++ [script] else (w.reg T).Scripts
            _scriptIdCounter := (w.reg T)._scriptIdCounter }
        _scriptCount := w._scriptCount + 1
        UnusedScriptNames :=
          if env.SCRIPTS = true ∧
              w.UnusedScriptNames[lower_bound w.UnusedScriptNames (env.GetName script)]? =
                some (env.GetName script) then
            w.UnusedScriptNames.eraseIdx
              (lower_bound w.UnusedScriptNames (env.GetName script))
          else w.UnusedScriptNames
        log := w.log } := by
  have hf := (find?_eq_none_iff_not_mem_values _ script).mpr hfresh
  have hex : (w.reg T).ScriptPointerList.any
      (fun it => env.GetName it.2 == env.GetName script) = false := by
    rw [Bool.eq_false_iff]
    intro h
    obtain ⟨it, hit, heq⟩ := List.any_eq_true.mp h
    exact hname it hit (by simpa using heq)
  by_cases hS : env.SCRIPTS = true
  · by_cases hlb : w.UnusedScriptNames[lower_bound w.UnusedScriptNames
        (env.GetName script)]? = some (env.GetName script)
    · cases flag <;>
        simp [AddScript, hn, hf, hT, AddScript_true_type, World.setReg, IncrementScriptCount,
          hid, hex, hS, hlb]
    · cases flag <;>
        simp [AddScript, hn, hf, hT, AddScript_true_type, World.setReg, IncrementScriptCount,
          hid, hex, hS, hlb]
  · cases flag <;>
      simp [AddScript, hn, hf, hT, AddScript_true_type, World.setReg, IncrementScriptCount,
        hid, hex, hS]

theorem AddScript_true_type_duplicate (env : Env) (T : Kind) (w : World)
    (script : ScriptPtr) (flag : Bool) (hT : is_script_database_bound T = true)
    (hn : script ≠ NULL) (hfresh : script ∉ (w.reg T).ScriptPointerList.map Prod.snd)
    (hid : env.GetScriptId (env.GetName script) ≠ 0)
    (hname : ∃ it ∈ (w.reg T).ScriptPointerList, env.GetName it.2 = env.GetName script) :
    AddScript env T w script flag = .aborted
      { w with log := w.log ++ [.alreadyAssigned (env.GetName script)] } := by
  have hf := (find?_eq_none_iff_not_mem_values _ script).mpr hfresh
  have hex : (w.reg T).ScriptPointerList.any
      (fun it => env.GetName it.2 == env.GetName script) = true := by
    obtain ⟨it, hit, heq⟩ := hname
    exact List.any_eq_true.mpr ⟨it, hit, by simpa using heq⟩
  simp [AddScript, hn, hf, hT, AddScript_true_type, hid, hex]

theorem AddScript_true_type_unresolved (env : Env) (T : Kind) (w : World)
    (script : ScriptPtr) (flag : Bool) (hT : is_script_database_bound T = true)
    (hn : script ≠ NULL) (hfresh : script ∉ (w.reg T).ScriptPointerList.map Prod.snd)
    (hid : env.GetScriptId (env.GetName script) = 0) :
    AddScript env T w script flag = .returned
      { reg := Function.update w.reg T
          { ScriptPointerList := (w.reg T).ScriptPointerList
            Scripts := if flag then (w.reg T).Scripts ++ [script] else (w.reg T).Scripts
            _scriptIdCounter := (w.reg T)._scriptIdCounter }
        _scriptCount := w._scriptCount
        UnusedScriptNames := w.UnusedScriptNames
        log := w.log ++ [.noScriptNameAssigned (env.GetName script)] } := by
  have hf := (find?_eq_none_iff_not_mem_values _ script).mpr hfresh
  cases flag <;>
    simp [AddScript, hn, hf, hT, AddScript_true_type, World.setReg, hid]

theorem mem_mapAssign_self (m : ScriptMap) (id : Nat) (script : ScriptPtr) :
    (id, script) ∈ mapAssign m id script := by
  induction m with
  | nil => simp [mapAssign]
  | cons hd tl ih =>
    obtain ⟨k, v⟩ := hd
    by_cases h1 : id < k
    · simp [mapAssign, h1]
    · by_cases h2 : id = k
      · subst h2; simp [mapAssign]
      · simp [mapAssign, h1, h2, ih]

theorem mem_mapAssign (m : ScriptMap) (id : Nat) (script : ScriptPtr) (it : Nat × ScriptPtr)
    (h : it ∈ mapAssign m id script) : it = (id, script) ∨ it ∈ m := by
  induction m with
  | nil => simpa [mapAssign] using h
  | cons hd tl ih =>
    obtain ⟨k, v⟩ := hd
    by_cases h1 : id < k
    · simp only [mapAssign, h1, if_true, List.mem_cons] at h
      rcases h with h | h | h
      · exact Or.inl h
      · exact Or.inr (by simp [h])
      · exact Or.inr (by simp [h])
    · by_cases h2 : id = k
      · subst h2
        simp only [mapAssign, lt_self_iff_false, if_false, if_true, List.mem_cons] at h
        rcases h with h | h
        · exact Or.inl h
        · exact Or.inr (by simp [h])
      · simp only [mapAssign, h1, h2, if_false, List.mem_cons] at h
        rcases h with h | h
        · exact Or.inr (by simp [h])
        · rcases ih h with h3 | h3
          · exact Or.inl h3
          · exact Or.inr (by simp [h3])

/-! ## Sequential registration -/

/-- The invariant of sequential registration: when the map holds the scripts `done` under
the keys `0 .. done.length - 1` and the counter is `done.length`, registering further
distinct instances extends both. -/
theorem registerAll_sequential_enum (env : Env) (T : Kind)
    (hT : is_script_database_bound T = false) (regs : List Registration) :
    ∀ (done : List ScriptPtr) (w : World),
      (∀ r ∈ regs, r.kind = T) →
      (w.reg T).ScriptPointerList = done.enum →
      (w.reg T)._scriptIdCounter = done.length →
      (done ++ regs.map (fun r => r.script)).Nodup →
      (∀ r ∈ regs, r.script ≠ NULL) →
      done.length + regs.length < 2 ^ 32 →
      ∃ w1, registerAll env w regs = .returned w1 ∧
        (w1.reg T).ScriptPointerList = (done ++ regs.map (fun r => r.script)).enum ∧
        (w1.reg T)._scriptIdCounter = done.length + regs.length := by
  induction regs with
  | nil =>
    intro done w _ hm hc _ _ _
    exact ⟨w, rfl, by simpa using hm, by simpa using hc⟩
  | cons r rest ih =>
    intro done w hk hm hc hnodup hnn hN
    have hkr : r.kind = T := hk r (List.mem_cons_self _ _)
    have hnr : r.script ≠ NULL := hnn r (List.mem_cons_self _ _)
    simp only [List.map_cons, List.length_cons] at hnodup hN
    have hfresh : r.script ∉ (w.reg T).ScriptPointerList.map Prod.snd := by
      rw [hm, List.enum_map_snd]
      intro hmem
      have := (List.nodup_append.mp hnodup).2.2
      exact this hmem (List.mem_cons_self _ _)
    have hlt : ∀ it ∈ done.enum, it.1 < done.length := by
      intro it hit
      have hmem : (it.1, it.2) ∈ List.enumFrom 0 done := hit
      have := List.mem_enumFrom hmem
      omega
    have hstep := AddScript_false_type_fresh env T w r.script r.addToDeleteContainer hT hnr
      hfresh
    have hmod : (done.length + 1) % 2 ^ 32 = done.length + 1 := Nat.mod_eq_of_lt (by omega)
    rw [hm, hc, mapAssign_append_of_lt _ _ _ hlt, hmod] at hstep
    obtain ⟨wm, hwm, hmm, hcm⟩ : ∃ wm,
        AddScript env T w r.script r.addToDeleteContainer = .returned wm ∧
        (wm.reg T).ScriptPointerList = done.enum ++ [(done.length, r.script)] ∧
        (wm.reg T)._scriptIdCounter = done.length + 1 := ⟨_, hstep, by simp, by simp⟩
    obtain ⟨w1, hrun, hm1, hc1⟩ := ih (done ++ [r.script]) wm
      (fun x hx => hk x (List.mem_cons_of_mem _ hx))
      (by simp [hmm, List.enum_append, List.enumFrom_singleton])
      (by simp [hcm])
      (by simpa using hnodup)
      (fun x hx => hnn x (List.mem_cons_of_mem _ hx))
      (by simp; omega)
    refine ⟨w1, ?_, ?_, ?_⟩
    · simp only [registerAll, hkr, hwm]
      exact hrun
    · simpa using hm1
    · simp only [List.length_cons]
      simp at hc1
      omega

/-- C1: for a kind without an `is_script_database_bound` specialisation, starting from an
empty registry and registering `N < 2^32` pairwise distinct instances with `AddScript`,
every call returns, `GetScriptById i` is the `(i+1)`-th registered instance for `i < N` and
`NULL` for `i ≥ N`, and `_scriptIdCounter` is `N`. -/
theorem sequential_ids_follow_registration_order (env : Env) (T : Kind) (w : World)
    (regs : List Registration)
    (hT : is_script_database_bound T = false)
    (hempty : w.reg T = Registry.empty)
    (hkind : ∀ r ∈ regs, r.kind = T)
    (hnn : ∀ r ∈ regs, r.script ≠ NULL)
    (hdistinct : (regs.map (fun r => r.script)).Nodup)
    (hN : regs.length < 2 ^ 32) :
    ∃ w1, registerAll env w regs = .returned w1 ∧
      (∀ (i : Nat) (h : i < regs.length), GetScriptById w1 T i = regs[i].script) ∧
      (∀ i, regs.length ≤ i → GetScriptById w1 T i = NULL) ∧
      (w1.reg T)._scriptIdCounter = regs.length := by
  obtain ⟨w1, hrun, hm, hc⟩ := registerAll_sequential_enum env T hT regs [] w hkind
    (by simp [hempty, Registry.empty]) (by simp [hempty, Registry.empty])
    (by simpa using hdistinct) hnn (by simpa using hN)
  refine ⟨w1, hrun, ?_, ?_, ?_⟩
  · intro i h
    have h1 : ¬ i < 0 := by omega
    simp [GetScriptById, hm, List.enum, mapFind_enumFrom, h]
  · intro i h
    have h2 : (List.map (fun r => r.script) regs)[i]? = none := by
      simp [List.getElem?_eq_none_iff, h]
    simp [GetScriptById, hm, List.enum, mapFind_enumFrom, h2]
  · simpa using hc

theorem sequential_ids_follow_registration_order_witness :
    ∃ w1, registerAll sampleEnv (World.initial ["npc_a", "npc_b"])
        [⟨.WorldScript, 30, true⟩, ⟨.WorldScript, 31, true⟩] = .returned w1 ∧
      GetScriptById w1 .WorldScript 0 = 30 ∧ GetScriptById w1 .WorldScript 1 = 31 ∧
      GetScriptById w1 .WorldScript 2 = NULL ∧
      (w1.reg .WorldScript)._scriptIdCounter = 2 := by
  obtain ⟨w1, hrun, hlt, hge, hc⟩ := sequential_ids_follow_registration_order sampleEnv
    .WorldScript (World.initial ["npc_a", "npc_b"])
    [⟨.WorldScript, 30, true⟩, ⟨.WorldScript, 31, true⟩]
    (by decide) rfl (by decide) (by decide) (by decide) (by decide)
  exact ⟨w1, hrun, hlt 0 (by decide), hlt 1 (by decide), hge 2 (by decide), hc⟩

/-! ## Name-bound registration -/

/-- The insertion branch of the database bound `AddScript`, field by field. -/
theorem AddScript_true_type_insert_fields (env : Env) (T : Kind) (w : World)
    (script : ScriptPtr) (flag : Bool) (hT : is_script_database_bound T = true)
    (hn : script ≠ NULL) (hfresh : script ∉ (w.reg T).ScriptPointerList.map Prod.snd)
    (hid : env.GetScriptId (env.GetName script) ≠ 0)
    (hname : ∀ it ∈ (w.reg T).ScriptPointerList, env.GetName it.2 ≠ env.GetName script) :
    ∃ w1, AddScript env T w script flag = .returned w1 ∧
      (w1.reg T).ScriptPointerList =
        mapAssign (w.reg T).ScriptPointerList (env.GetScriptId (env.GetName script)) script ∧
      (w1.reg T).Scripts =
        (if flag then (w.reg T).Scripts ++ [script] else (w.reg T).Scripts) ∧
      (w1.reg T)._scriptIdCounter = (w.reg T)._scriptIdCounter ∧
      (∀ K, K ≠ T → w1.reg K = w.reg K) ∧
      w1._scriptCount = w._scriptCount + 1 ∧
      w1.UnusedScriptNames =
        (if env.SCRIPTS = true ∧
            w.UnusedScriptNames[lower_bound w.UnusedScriptNames (env.GetName script)]? =
              some (env.GetName script) then
          w.UnusedScriptNames.eraseIdx (lower_bound w.UnusedScriptNames (env.GetName script))
        else w.UnusedScriptNames) ∧
      w1.log = w.log := by
  refine ⟨_, AddScript_true_type_insert env T w script flag hT hn hfresh hid hname, ?_, ?_, ?_,
    ?_, rfl, rfl, rfl⟩
  · simp
  · simp
  · simp
  · intro K hK
    simp [Function.update_noteq hK]

/-- C2: for a database bound kind and every resolver, in a registry that holds no script of
that name yet (the empty registry is one), registering two distinct instances whose names
are equal and resolve to a non-zero ID makes the first `AddScript` call return and the
second one abort the process. -/
theorem duplicate_name_aborts_on_second_call (env : Env) (T : Kind) (w : World)
    (first second : ScriptPtr) (flag1 flag2 : Bool)
    (hT : is_script_database_bound T = true)
    (hfirst : first ≠ NULL) (hsecond : second ≠ NULL) (hne : second ≠ first)
    (hnames : env.GetName second = env.GetName first)
    (hid : env.GetScriptId (env.GetName first) ≠ 0)
    (hw : ∀ it ∈ (w.reg T).ScriptPointerList, env.GetName it.2 ≠ env.GetName first) :
    ∃ w1, AddScript env T w first flag1 = .returned w1 ∧
      (AddScript env T w1 second flag2).isAborted = true := by
  have hfresh1 : first ∉ (w.reg T).ScriptPointerList.map Prod.snd := by
    intro hmem
    obtain ⟨it, hit, heq⟩ := List.mem_map.mp hmem
    exact hw it hit (by rw [heq])
  obtain ⟨w1, hstep, hm, -⟩ :=
    AddScript_true_type_insert_fields env T w first flag1 hT hfirst hfresh1 hid hw
  refine ⟨w1, hstep, ?_⟩
  have hfresh2 : second ∉ (w1.reg T).ScriptPointerList.map Prod.snd := by
    rw [hm]
    intro hmem
    obtain ⟨it, hit, heq⟩ := List.mem_map.mp hmem
    rcases mem_mapAssign _ _ _ _ hit with h | h
    · exact hne (by rw [← heq, h])
    · exact hw it h (by rw [heq, hnames])
  rw [AddScript_true_type_duplicate env T w1 second flag2 hT hsecond hfresh2
    (by rw [hnames]; exact hid)
    ⟨(env.GetScriptId (env.GetName first), first), by
      rw [hm]; exact mem_mapAssign_self _ _ _, hnames.symm⟩]
  rfl

theorem duplicate_name_aborts_on_second_call_witness :
    ∃ w1, AddScript sampleEnv .CreatureScript (World.initial ["npc_a", "npc_b"]) 10 true
        = .returned w1 ∧
      (AddScript sampleEnv .CreatureScript w1 11 true).isAborted = true :=
  duplicate_name_aborts_on_second_call sampleEnv .CreatureScript
    (World.initial ["npc_a", "npc_b"]) 10 11 true true
    (by decide) (by decide) (by decide) (by decide) (by decide) (by decide) (by decide)

theorem mem_of_mapFind (m : ScriptMap) (id : Nat) (script : ScriptPtr)
    (h : mapFind m id = some script) : (id, script) ∈ m := by
  induction m with
  | nil => simp [mapFind] at h
  | cons hd tl ih =>
    obtain ⟨k, v⟩ := hd
    by_cases hk : k = id
    · subst hk
      simp [mapFind] at h
      simp [h]
    · simp [mapFind, hk] at h
      exact List.mem_cons_of_mem _ (ih h)

/-- The claim C3 as stated fails twice over. From the initial world the creature script at
address 10 (`npc_a`, ID 5) is registered. (1) Registering the same instance again finds its
ID 5 among the keys, yet the call returns. (2) With a resolver that also maps `npc_b` to 5,
registering the instance at 20 (`npc_b`) finds ID 5 among the keys, yet the call returns and
the entry stored at 5 is replaced. -/
theorem id_already_key_without_abort :
    (mapFind (sampleWorld.reg .CreatureScript).ScriptPointerList
        (sampleEnv.GetScriptId (sampleEnv.GetName 10)) = some 10 ∧
      (AddScript sampleEnv .CreatureScript sampleWorld 10 true).isAborted = false) ∧
    (mapFind (sampleWorld.reg .CreatureScript).ScriptPointerList
        (collidingEnv.GetScriptId (collidingEnv.GetName 20)) = some 10 ∧
      (AddScript collidingEnv .CreatureScript sampleWorld 20 true).isAborted = false ∧
      mapFind ((AddScript collidingEnv .CreatureScript sampleWorld 20 true).state.reg
        .CreatureScript).ScriptPointerList
        (collidingEnv.GetScriptId (collidingEnv.GetName 20)) = some 20) := by
  decide

/-- C3 (amended): for a database bound kind, every registry state and every resolver: if
the non-zero ID the resolver returns for the new script's name is already a key of
`ScriptPointerList`, the script stored there has the same name as the new script, and the
new instance is not itself a value of `ScriptPointerList`, then `AddScript` aborts the
process and leaves every registry as it was, the entry stored at that ID included. -/
theorem duplicate_name_at_resolved_id_aborts (env : Env) (T : Kind) (w : World)
    (script stored : ScriptPtr) (flag : Bool)
    (hT : is_script_database_bound T = true)
    (hn : script ≠ NULL)
    (hid : env.GetScriptId (env.GetName script) ≠ 0)
    (hkey : mapFind (w.reg T).ScriptPointerList (env.GetScriptId (env.GetName script)) =
      some stored)
    (hname : env.GetName stored = env.GetName script)
    (hfresh : script ∉ (w.reg T).ScriptPointerList.map Prod.snd) :
    (AddScript env T w script flag).isAborted = true ∧
      (AddScript env T w script flag).state.reg = w.reg ∧
      mapFind ((AddScript env T w script flag).state.reg T).ScriptPointerList
        (env.GetScriptId (env.GetName script)) = some stored := by
  have hdup := AddScript_true_type_duplicate env T w script flag hT hn hfresh hid
    ⟨_, mem_of_mapFind _ _ _ hkey, hname⟩
  rw [hdup]
  exact ⟨rfl, rfl, hkey⟩

theorem duplicate_name_at_resolved_id_aborts_witness :
    (AddScript sampleEnv .CreatureScript sampleWorld 11 true).isAborted = true ∧
      (AddScript sampleEnv .CreatureScript sampleWorld 11 true).state.reg = sampleWorld.reg ∧
      mapFind ((AddScript sampleEnv .CreatureScript sampleWorld 11 true).state.reg
        .CreatureScript).ScriptPointerList (sampleEnv.GetScriptId (sampleEnv.GetName 11)) =
        some 10 :=
  duplicate_name_at_resolved_id_aborts sampleEnv .CreatureScript sampleWorld 11 10 true
    (by decide) (by decide) (by decide) (by decide) (by decide) (by decide)

/-- C4 (the code at the failing input): the creature script at address 30 carries a name
the database does not know. Registering that one instance twice with the default
`addToDeleteContainer`, from the initial world, makes both calls return, indexes the
instance under no ID, and leaves it twice in the owned sequence `Scripts`: the scan of
lines 117-126 looks only at `ScriptPointerList`, where an unresolved script never is. -/
theorem unresolved_instance_registered_twice_is_owned_twice :
    (AddScript sampleEnv .CreatureScript (World.initial ["npc_a", "npc_b"]) 30 true).isAborted
        = false ∧
    (AddScript sampleEnv .CreatureScript
      (AddScript sampleEnv .CreatureScript (World.initial ["npc_a", "npc_b"]) 30 true).state
      30 true).isAborted = false ∧
    ((AddScript sampleEnv .CreatureScript
      (AddScript sampleEnv .CreatureScript (World.initial ["npc_a", "npc_b"]) 30 true).state
      30 true).state.reg .CreatureScript).Scripts = [30, 30] ∧
    ((AddScript sampleEnv .CreatureScript
      (AddScript sampleEnv .CreatureScript (World.initial ["npc_a", "npc_b"]) 30 true).state
      30 true).state.reg .CreatureScript).ScriptPointerList = [] := by
  decide

/-- C5: for every kind, when the instance passed to `AddScript` is already a value of
`ScriptPointerList`, the call returns and every registry (its `ScriptPointerList`, `Scripts`
and `_scriptIdCounter`), the script count and `UnusedScriptNames` are as before the call. -/
theorem registered_instance_is_dropped (env : Env) (T : Kind) (w : World)
    (script : ScriptPtr) (flag : Bool)
    (hn : script ≠ NULL)
    (hreg : script ∈ (w.reg T).ScriptPointerList.map Prod.snd) :
    ∃ w1, AddScript env T w script flag = .returned w1 ∧
      w1.reg = w.reg ∧
      w1._scriptCount = w._scriptCount ∧
      w1.UnusedScriptNames = w.UnusedScriptNames := by
  obtain ⟨other, h⟩ := AddScript_registered env T w script flag hn hreg
  exact ⟨_, h, rfl, rfl, rfl⟩

theorem registered_instance_is_dropped_witness :
    ∃ w1, AddScript sampleEnv .CreatureScript sampleWorld 10 true = .returned w1 ∧
      w1.reg = sampleWorld.reg ∧
      w1._scriptCount = sampleWorld._scriptCount ∧
      w1.UnusedScriptNames = sampleWorld.UnusedScriptNames :=
  registered_instance_is_dropped sampleEnv .CreatureScript sampleWorld 10 true
    (by decide) (by decide)

/-- The lookup returns a value of the map or `NULL`. -/
theorem GetScriptById_mem_or_null (w : World) (T : Kind) (id : Nat) :
    GetScriptById w T id = NULL ∨
      GetScriptById w T id ∈ (w.reg T).ScriptPointerList.map Prod.snd := by
  unfold GetScriptById
  cases h : mapFind (w.reg T).ScriptPointerList id with
  | none => exact Or.inl rfl
  | some v => exact Or.inr (List.mem_map.mpr ⟨(id, v), mem_of_mapFind _ _ _ h, rfl⟩)

/-- C6: for a database bound kind, when the resolver returns no ID (0) for the script's
name and the instance is not already in `ScriptPointerList`, `AddScript` (default
`addToDeleteContainer`) returns, leaves `ScriptPointerList`, the script count and
`UnusedScriptNames` unchanged, and appends the instance once to `Scripts`; no
`GetScriptById` returns it. -/
theorem unresolved_name_is_owned_but_not_indexed (env : Env) (T : Kind) (w : World)
    (script : ScriptPtr)
    (hT : is_script_database_bound T = true)
    (hn : script ≠ NULL)
    (hid : env.GetScriptId (env.GetName script) = 0)
    (hfresh : script ∉ (w.reg T).ScriptPointerList.map Prod.snd) :
    ∃ w1, AddScript env T w script true = .returned w1 ∧
      (w1.reg T).ScriptPointerList = (w.reg T).ScriptPointerList ∧
      w1._scriptCount = w._scriptCount ∧
      w1.UnusedScriptNames = w.UnusedScriptNames ∧
      (w1.reg T).Scripts = (w.reg T).Scripts ++ [script] ∧
      ∀ id, GetScriptById w1 T id ≠ script := by
  refine ⟨_, AddScript_true_type_unresolved env T w script true hT hn hfresh hid, ?_, rfl,
    rfl, ?_, ?_⟩
  · simp
  · simp
  · intro id heq
    rcases GetScriptById_mem_or_null _ T id with h | h
    · exact hn (by rw [← heq, h])
    · rw [heq] at h
      simp only [Function.update_same] at h
      exact hfresh h

theorem unresolved_name_is_owned_but_not_indexed_witness :
    ∃ w1, AddScript sampleEnv .CreatureScript sampleWorld 30 true = .returned w1 ∧
      (w1.reg .CreatureScript).ScriptPointerList =
        (sampleWorld.reg .CreatureScript).ScriptPointerList ∧
      w1._scriptCount = sampleWorld._scriptCount ∧
      w1.UnusedScriptNames = sampleWorld.UnusedScriptNames ∧
      (w1.reg .CreatureScript).Scripts = (sampleWorld.reg .CreatureScript).Scripts ++ [30] ∧
      ∀ id, GetScriptById w1 .CreatureScript id ≠ 30 :=
  unresolved_name_is_owned_but_not_indexed sampleEnv .CreatureScript sampleWorld 30
    (by decide) (by decide) (by decide) (by decide)

/-- C7: for a database bound kind, when the resolver returns the ID `k` (non-zero) for the
script's name, the instance is not already registered and no registered script has the
same name, `AddScript` (default `addToDeleteContainer`) returns, `GetScriptById k` is the
new instance, the script count is one more, the instance is appended to `Scripts`, and
`GetScriptById j` is unchanged for every `j ≠ k`. -/
theorem resolved_name_is_indexed_at_its_id (env : Env) (T : Kind) (w : World)
    (script : ScriptPtr) (k : Nat)
    (hT : is_script_database_bound T = true)
    (hn : script ≠ NULL)
    (hk : env.GetScriptId (env.GetName script) = k) (hk0 : k ≠ 0)
    (hfresh : script ∉ (w.reg T).ScriptPointerList.map Prod.snd)
    (hname : ∀ it ∈ (w.reg T).ScriptPointerList, env.GetName it.2 ≠ env.GetName script) :
    ∃ w1, AddScript env T w script true = .returned w1 ∧
      GetScriptById w1 T k = script ∧
      w1._scriptCount = w._scriptCount + 1 ∧
      (w1.reg T).Scripts = (w.reg T).Scripts ++ [script] ∧
      ∀ j, j ≠ k → GetScriptById w1 T j = GetScriptById w T j := by
  obtain ⟨w1, hstep, hm, hs, -, -, hc, -, -⟩ :=
    AddScript_true_type_insert_fields env T w script true hT hn hfresh (by rw [hk]; exact hk0)
      hname
  refine ⟨w1, hstep, ?_, hc, by simpa using hs, ?_⟩
  · simp [GetScriptById, hm, hk, mapFind_mapAssign_same]
  · intro j hj
    simp [GetScriptById, hm, hk, mapFind_mapAssign_other _ _ _ _ hj]

theorem resolved_name_is_indexed_at_its_id_witness :
    ∃ w1, AddScript sampleEnv .CreatureScript sampleWorld 20 true = .returned w1 ∧
      GetScriptById w1 .CreatureScript 7 = 20 ∧
      w1._scriptCount = sampleWorld._scriptCount + 1 ∧
      (w1.reg .CreatureScript).Scripts = (sampleWorld.reg .CreatureScript).Scripts ++ [20] ∧
      ∀ j, j ≠ 7 → GetScriptById w1 .CreatureScript j = GetScriptById sampleWorld
        .CreatureScript j :=
  resolved_name_is_indexed_at_its_id sampleEnv .CreatureScript sampleWorld 20 7
    (by decide) (by decide) (by decide) (by decide) (by decide) (by decide)

/-! ## The unused script names -/

theorem stringLess_iff (a b : String) : stringLess a b = true ↔ a.toList < b.toList := by
  simp [stringLess]

theorem stringLess_ne (a b : String) (h : stringLess a b = true) : a ≠ b := by
  intro heq
  subst heq
  exact lt_irrefl _ ((stringLess_iff _ _).mp h)

/-- On a strictly ascending list, erasing the element found by `lower_bound` when it equals
`name` (lines 173-175) removes exactly the name. -/
theorem erase_at_lower_bound_eq_filter (l : List String) (name : String)
    (hsorted : l.Pairwise (fun a b => stringLess a b = true)) :
    (if l[lower_bound l name]? = some name then l.eraseIdx (lower_bound l name) else l) =
      l.filter (fun x => x != name) := by
  induction l with
  | nil => simp [lower_bound]
  | cons x xs ih =>
    have hx : ∀ y ∈ xs, stringLess x y = true := (List.pairwise_cons.mp hsorted).1
    have ih1 := ih (List.pairwise_cons.mp hsorted).2
    by_cases hlt : stringLess x name = true
    · have hne : x ≠ name := stringLess_ne _ _ hlt
      have hlb : lower_bound (x :: xs) name = lower_bound xs name + 1 := by
        simp [lower_bound, List.takeWhile_cons, hlt]
      rw [hlb]
      simp only [List.getElem?_cons_succ, List.eraseIdx_cons_succ]
      rw [List.filter_cons_of_pos (by simpa using hne)]
      rw [← ih1]
      split <;> rfl
    · have hlb : lower_bound (x :: xs) name = 0 := by
        simp [lower_bound, List.takeWhile_cons, hlt]
      have hxs : ∀ y ∈ xs, y ≠ name := by
        intro y hy heq
        subst heq
        exact hlt (hx y hy)
      have hfil : xs.filter (fun y => y != name) = xs :=
        List.filter_eq_self.mpr (fun y hy => by simpa using hxs y hy)
      rw [hlb]
      by_cases hxn : x = name
      · subst hxn
        simp [hfil]
      · have hxn1 : (x != name) = true := by simpa using hxn
        simp [hxn, hfil, List.filter_cons_of_pos hxn1]

/-- One returning call of `AddScript` in a build with `SCRIPTS`: the unused names lose the
name of the script when the call inserted it into a database bound map, and nothing
otherwise. -/
theorem AddScript_unused_names (env : Env) (T : Kind) (w : World) (script : ScriptPtr)
    (flag : Bool) (hS : env.SCRIPTS = true)
    (hsorted : w.UnusedScriptNames.Pairwise (fun a b => stringLess a b = true))
    (hret : (AddScript env T w script flag).isAborted = false) :
    (AddScript env T w script flag).state.UnusedScriptNames =
      w.UnusedScriptNames.filter (fun n =>
        !(if insertsIntoById env w ⟨T, script, flag⟩ then [env.GetName script]
          else []).contains n) := by
  by_cases hn : script = NULL
  · subst hn
    simp [AddScript_null, Outcome.isAborted] at hret
  by_cases hreg : script ∈ (w.reg T).ScriptPointerList.map Prod.snd
  · obtain ⟨other, h⟩ := AddScript_registered env T w script flag hn hreg
    have hc : ((w.reg T).ScriptPointerList.map Prod.snd).contains script = true := by
      simpa using hreg
    have hins : insertsIntoById env w ⟨T, script, flag⟩ = false := by
      simp only [insertsIntoById, hc]
      simp
    simp [h, hins, Outcome.state]
  have hc : ((w.reg T).ScriptPointerList.map Prod.snd).contains script = false := by
    rw [Bool.eq_false_iff]
    simpa using hreg
  by_cases hT : is_script_database_bound T = true
  · by_cases hid : env.GetScriptId (env.GetName script) = 0
    · have h := AddScript_true_type_unresolved env T w script flag hT hn hreg hid
      have hins : insertsIntoById env w ⟨T, script, flag⟩ = false := by
        simp only [insertsIntoById, h, Outcome.state, Function.update_same, hc]
        simp
      simp [h, hins, Outcome.state]
    · by_cases hname : ∃ it ∈ (w.reg T).ScriptPointerList,
          env.GetName it.2 = env.GetName script
      · simp [AddScript_true_type_duplicate env T w script flag hT hn hreg hid hname,
          Outcome.isAborted] at hret
      · have hname1 : ∀ it ∈ (w.reg T).ScriptPointerList,
            env.GetName it.2 ≠ env.GetName script :=
          fun it hit heq => hname ⟨it, hit, heq⟩
        have h := AddScript_true_type_insert env T w script flag hT hn hreg hid hname1
        have hmem : ((mapAssign (w.reg T).ScriptPointerList
            (env.GetScriptId (env.GetName script)) script).map Prod.snd).contains script
              = true := by
          have : script ∈ (mapAssign (w.reg T).ScriptPointerList
              (env.GetScriptId (env.GetName script)) script).map Prod.snd :=
            List.mem_map.mpr ⟨_, mem_mapAssign_self _ _ _, rfl⟩
          simpa using this
        have hins : insertsIntoById env w ⟨T, script, flag⟩ = true := by
          simp only [insertsIntoById, h, Outcome.state, Function.update_same, hc, hmem, hT]
          simp
        have herase := erase_at_lower_bound_eq_filter w.UnusedScriptNames
          (env.GetName script) hsorted
        simp only [h, hins, Outcome.state, hS, true_and, if_true]
        rw [herase]
        apply List.filter_congr
        intro x _
        by_cases hx : x = env.GetName script <;> simp [hx]
  · have hT1 : is_script_database_bound T = false := by simpa using hT
    have h := AddScript_false_type_fresh env T w script flag hT1 hn hreg
    have hins : insertsIntoById env w ⟨T, script, flag⟩ = false := by
      simp [insertsIntoById, hT1]
    simp [h, hins, Outcome.state]

theorem registerAll_unused_names (env : Env) (hS : env.SCRIPTS = true)
    (regs : List Registration) :
    ∀ w : World, w.UnusedScriptNames.Pairwise (fun a b => stringLess a b = true) →
      (registerAll env w regs).isAborted = false →
      (registerAll env w regs).state.UnusedScriptNames =
        w.UnusedScriptNames.filter (fun n => !(claimedNames env w regs).contains n) := by
  induction regs with
  | nil =>
    intro w _ _
    simp [registerAll, claimedNames, Outcome.state]
  | cons r rest ih =>
    intro w hsorted hrun
    cases hstep : AddScript env r.kind w r.script r.addToDeleteContainer with
    | aborted wm => simp [registerAll, hstep, Outcome.isAborted] at hrun
    | returned wm =>
      have hone := AddScript_unused_names env r.kind w r.script r.addToDeleteContainer hS
        hsorted (by simp [hstep, Outcome.isAborted])
      simp only [hstep, Outcome.state] at hone
      have hrun1 : (registerAll env wm rest).isAborted = false := by
        simpa [registerAll, hstep] using hrun
      have hsorted1 : wm.UnusedScriptNames.Pairwise (fun a b => stringLess a b = true) := by
        rw [hone]
        exact List.Pairwise.filter _ hsorted
      have hrest := ih wm hsorted1 hrun1
      have hreg : registerAll env w (r :: rest) = registerAll env wm rest := by
        simp [registerAll, hstep]
      have hcl : claimedNames env w (r :: rest) =
          (if insertsIntoById env w r then [env.GetName r.script] else []) ++
            claimedNames env wm rest := by
        simp [claimedNames, hstep, Outcome.state]
      rw [hreg, hrest, hone, hcl, List.filter_filter]
      apply List.filter_congr
      intro n _
      by_cases h1 : n ∈ claimedNames env wm rest <;>
        by_cases h2 : n ∈ (if insertsIntoById env w r then [env.GetName r.script] else []) <;>
        simp [h1, h2]

/-- C8: in a build with `SCRIPTS`, given that `UnusedScriptNames` is initially sorted and
free of duplicates (strictly ascending), after every sequence of registrations that does
not abort it is exactly the initial list without the names of the database bound scripts
that were inserted into a `ScriptPointerList`: each such name is absent, and each initial
name never claimed that way still occurs exactly once, and is reported exactly once by the
loop of `Initialize`. -/
theorem unused_names_are_initial_minus_claimed (env : Env) (w : World)
    (regs : List Registration)
    (hS : env.SCRIPTS = true)
    (hsorted : w.UnusedScriptNames.Pairwise (fun a b => stringLess a b = true))
    (hrun : (registerAll env w regs).isAborted = false) :
    (registerAll env w regs).state.UnusedScriptNames =
        w.UnusedScriptNames.filter (fun n => !(claimedNames env w regs).contains n) ∧
      (∀ n ∈ claimedNames env w regs,
        n ∉ (registerAll env w regs).state.UnusedScriptNames) ∧
      (∀ n ∈ w.UnusedScriptNames, n ∉ claimedNames env w regs →
        (registerAll env w regs).state.UnusedScriptNames.count n = 1 ∧
        (reportUnusedScriptNames env (registerAll env w regs).state).count
          (.noCoreScriptFound n) = 1) := by
  have heq := registerAll_unused_names env hS regs w hsorted hrun
  have hnodup : (registerAll env w regs).state.UnusedScriptNames.Nodup := by
    rw [heq]
    exact List.Nodup.filter _ (hsorted.imp (fun h => stringLess_ne _ _ h))
  refine ⟨heq, ?_, ?_⟩
  · intro n hn hmem
    rw [heq, List.mem_filter] at hmem
    simp [hn] at hmem
  · intro n hn hcl
    have hmem : n ∈ (registerAll env w regs).state.UnusedScriptNames := by
      rw [heq, List.mem_filter]
      exact ⟨hn, by simp [hcl]⟩
    have hcount := List.count_eq_one_of_mem hnodup hmem
    refine ⟨hcount, ?_⟩
    simp only [reportUnusedScriptNames, hS, if_true]
    rw [List.count_map_of_injective _ _ (fun a b h => by injection h)]
    exact hcount

theorem unused_names_are_initial_minus_claimed_witness :
    (registerAll sampleEnv (World.initial ["npc_a", "npc_b"])
        [⟨.CreatureScript, 10, true⟩, ⟨.WorldScript, 30, true⟩,
          ⟨.ItemScript, 31, true⟩]).state.UnusedScriptNames = ["npc_b"] ∧
      (reportUnusedScriptNames sampleEnv (registerAll sampleEnv
        (World.initial ["npc_a", "npc_b"])
        [⟨.CreatureScript, 10, true⟩, ⟨.WorldScript, 30, true⟩,
          ⟨.ItemScript, 31, true⟩]).state).count (.noCoreScriptFound "npc_b") = 1 := by
  obtain ⟨h1, -, h3⟩ := unused_names_are_initial_minus_claimed sampleEnv
    (World.initial ["npc_a", "npc_b"])
    [⟨.CreatureScript, 10, true⟩, ⟨.WorldScript, 30, true⟩, ⟨.ItemScript, 31, true⟩]
    (by decide) (by decide) (by decide)
  refine ⟨?_, (h3 "npc_b" (by decide) (by decide)).2⟩
  rw [h1]
  decide

/-! ## Point-lookup dispatch -/

/-- C9 (the code at the failing input): the vehicle script at address 10 is constructed
under the name `npc_a`, which the resolver maps to ID 5. `VehicleScript` has no
`is_script_database_bound` specialisation, so the script is stored under the counter value
0 and not under 5: `OnInstall` for a vehicle whose base creature has script ID 5 finds no
script and invokes no hook. A creature script constructed under the same name is stored
under 5. -/
theorem vehicle_script_is_not_stored_at_resolved_id :
    sampleEnv.GetScriptId (sampleEnv.GetName 10) = 5 ∧
    (registerAll sampleEnv (World.initial ["npc_a", "npc_b"])
      (constructorCalls .VehicleScript 10 true)).isAborted = false ∧
    GetScriptById (registerAll sampleEnv (World.initial ["npc_a", "npc_b"])
      (constructorCalls .VehicleScript 10 true)).state .VehicleScript 5 = NULL ∧
    GetScriptById (registerAll sampleEnv (World.initial ["npc_a", "npc_b"])
      (constructorCalls .VehicleScript 10 true)).state .VehicleScript 0 = 10 ∧
    dispatch sampleDispatchEnv (registerAll sampleEnv (World.initial ["npc_a", "npc_b"])
      (constructorCalls .VehicleScript 10 true)).state .OnInstall ⟨true, 5⟩
        = some ([], .void) ∧
    GetScriptById (registerAll sampleEnv (World.initial ["npc_a", "npc_b"])
      (constructorCalls .CreatureScript 10 true)).state .CreatureScript 5 = 10 := by
  decide

/-- C10: for every point-lookup operation whose `ASSERT`s hold, when `GetScriptById` finds
no script of the operation's type for the entity's script ID, the operation invokes no hook,
does not clear the gossip menus nor anything else, and returns its declared default. -/
theorem point_lookup_without_script_returns_default (denv : DispatchEnv) (w : World)
    (op : PointOp) (args : DispatchArgs)
    (hassert : args.assertsHold = true)
    (hnone : GetScriptById w op.kind args.scriptId = NULL) :
    dispatch denv w op args = some ([], declaredDefault denv op) := by
  cases op <;>
    simp only [PointOp.kind] at hnone <;>
    simp [dispatch, ASSERT, GET_SCRIPT, GET_SCRIPT_RET, declaredDefault, hassert, hnone]

/-- When a script is found, the hook of the operation is called on it, after the gossip
menus are cleared in the operations that clear them, and its result is returned. -/
theorem point_lookup_with_script_calls_hook (denv : DispatchEnv) (w : World)
    (op : PointOp) (args : DispatchArgs)
    (hassert : args.assertsHold = true)
    (hsome : GetScriptById w op.kind args.scriptId ≠ NULL) :
    dispatch denv w op args = some ([.hook op (GetScriptById w op.kind args.scriptId)],
        denv.hookResult op (GetScriptById w op.kind args.scriptId)) ∨
      dispatch denv w op args =
        some ([.ClearMenus, .hook op (GetScriptById w op.kind args.scriptId)],
          denv.hookResult op (GetScriptById w op.kind args.scriptId)) := by
  cases op <;>
    simp only [PointOp.kind] at hsome <;>
    simp [dispatch, ASSERT, GET_SCRIPT, GET_SCRIPT_RET, PointOp.kind, callHook,
      clearMenusThenCallHook, hassert, hsome]

theorem point_lookup_without_script_returns_default_witness :
    dispatch sampleDispatchEnv sampleWorld .OnGossipHello_Creature ⟨true, 7⟩ =
      some ([], declaredDefault sampleDispatchEnv .OnGossipHello_Creature) :=
  point_lookup_without_script_returns_default sampleDispatchEnv sampleWorld
    .OnGossipHello_Creature ⟨true, 7⟩ (by decide) (by decide)

/-! ## Registries of other kinds, and the sequential invariant -/

/-- A call of `AddScript` for the kind `K` leaves the registry of every other kind as it
was. -/
theorem AddScript_reg_of_ne (env : Env) (K T : Kind) (w : World) (script : ScriptPtr)
    (flag : Bool) (hne : T ≠ K) :
    (AddScript env K w script flag).state.reg T = w.reg T := by
  by_cases hn : script = NULL
  · subst hn
    simp [AddScript_null, Outcome.state]
  by_cases hreg : script ∈ (w.reg K).ScriptPointerList.map Prod.snd
  · obtain ⟨other, h⟩ := AddScript_registered env K w script flag hn hreg
    simp [h, Outcome.state]
  by_cases hK : is_script_database_bound K = true
  · by_cases hid : env.GetScriptId (env.GetName script) = 0
    · simp [AddScript_true_type_unresolved env K w script flag hK hn hreg hid, Outcome.state,
        Function.update_noteq hne]
    · by_cases hname : ∃ it ∈ (w.reg K).ScriptPointerList,
          env.GetName it.2 = env.GetName script
      · simp [AddScript_true_type_duplicate env K w script flag hK hn hreg hid hname,
          Outcome.state]
      · have hname1 : ∀ it ∈ (w.reg K).ScriptPointerList,
            env.GetName it.2 ≠ env.GetName script :=
          fun it hit heq => hname ⟨it, hit, heq⟩
        simp [AddScript_true_type_insert env K w script flag hK hn hreg hid hname1,
          Outcome.state, Function.update_noteq hne]
  · have hK1 : is_script_database_bound K = false := by simpa using hK
    simp [AddScript_false_type_fresh env K w script flag hK1 hn hreg, Outcome.state,
      Function.update_noteq hne]

/-- The state of a sequential registry in which the counter never wrapped: the map holds
the elements of `Scripts` under the keys `0, 1, 2, ...`, the counter is their number, and no
instance occurs twice. -/
theorem AddScript_sequential_invariant (env : Env) (K T : Kind) (w w1 : World)
    (script : ScriptPtr) (flag : Bool)
    (hT : is_script_database_bound T = false)
    (hflag : K = T → flag = true)
    (hm : (w.reg T).ScriptPointerList = (w.reg T).Scripts.enum)
    (hc : (w.reg T)._scriptIdCounter = (w.reg T).Scripts.length)
    (hnodup : (w.reg T).Scripts.Nodup)
    (hN : (w.reg T).Scripts.length + 1 < 2 ^ 32)
    (hstep : AddScript env K w script flag = .returned w1) :
    (w1.reg T).ScriptPointerList = (w1.reg T).Scripts.enum ∧
      (w1.reg T)._scriptIdCounter = (w1.reg T).Scripts.length ∧
      (w1.reg T).Scripts.Nodup ∧
      (w1.reg T).Scripts.length ≤ (w.reg T).Scripts.length + 1 := by
  by_cases hKT : K = T
  · subst hKT
    have hfl : flag = true := hflag rfl
    subst hfl
    by_cases hn : script = NULL
    · subst hn
      simp [AddScript_null] at hstep
    by_cases hreg : script ∈ (w.reg K).ScriptPointerList.map Prod.snd
    · obtain ⟨other, h⟩ := AddScript_registered env K w script true hn hreg
      rw [h] at hstep
      injection hstep with hw
      subst hw
      exact ⟨hm, hc, hnodup, Nat.le_succ _⟩
    · have h := AddScript_false_type_fresh env K w script true hT hn hreg
      rw [h] at hstep
      injection hstep with hw
      subst hw
      have hlt : ∀ it ∈ (w.reg K).Scripts.enum, it.1 < (w.reg K).Scripts.length := by
        intro it hit
        have hmem : (it.1, it.2) ∈ List.enumFrom 0 (w.reg K).Scripts := hit
        have := List.mem_enumFrom hmem
        omega
      have hfresh : script ∉ (w.reg K).Scripts := by
        rw [hm, List.enum_map_snd] at hreg
        exact hreg
      have hmod : ((w.reg K).Scripts.length + 1) % 2 ^ 32 = (w.reg K).Scripts.length + 1 :=
        Nat.mod_eq_of_lt hN
      simp only [Function.update_same, if_true]
      refine ⟨?_, ?_, ?_, ?_⟩
      · rw [hm, hc, mapAssign_append_of_lt _ _ _ hlt, List.enum_append,
          List.enumFrom_singleton]
      · rw [hc, hmod]
        simp
      · exact List.nodup_append.mpr ⟨hnodup, List.nodup_singleton _, by
          intro a ha hb
          rw [List.mem_singleton] at hb
          subst hb
          exact hfresh ha⟩
      · simp
  · have hne : T ≠ K := fun h => hKT h.symm
    have hsame := AddScript_reg_of_ne env K T w script flag hne
    rw [hstep] at hsame
    simp only [Outcome.state] at hsame
    rw [hsame]
    exact ⟨hm, hc, hnodup, Nat.le_succ _⟩

/-- The sequential invariant after a sequence of registrations that does not abort and in
which no call for the kind `T` opts out of `Scripts`. -/
theorem registerAll_sequential_invariant (env : Env) (T : Kind)
    (hT : is_script_database_bound T = false) (regs : List Registration) :
    ∀ w : World,
      (∀ r ∈ regs, r.kind = T → r.addToDeleteContainer = true) →
      (w.reg T).ScriptPointerList = (w.reg T).Scripts.enum →
      (w.reg T)._scriptIdCounter = (w.reg T).Scripts.length →
      (w.reg T).Scripts.Nodup →
      (w.reg T).Scripts.length + regs.length < 2 ^ 32 →
      (registerAll env w regs).isAborted = false →
      (((registerAll env w regs).state.reg T).ScriptPointerList =
          ((registerAll env w regs).state.reg T).Scripts.enum ∧
        ((registerAll env w regs).state.reg T)._scriptIdCounter =
          ((registerAll env w regs).state.reg T).Scripts.length ∧
        ((registerAll env w regs).state.reg T).Scripts.Nodup) := by
  induction regs with
  | nil =>
    intro w _ hm hc hnodup _ _
    exact ⟨hm, hc, hnodup⟩
  | cons r rest ih =>
    intro w hflag hm hc hnodup hN hrun
    simp only [List.length_cons] at hN
    cases hstep : AddScript env r.kind w r.script r.addToDeleteContainer with
    | aborted wm => simp [registerAll, hstep, Outcome.isAborted] at hrun
    | returned wm =>
      obtain ⟨hm1, hc1, hnodup1, hlen1⟩ := AddScript_sequential_invariant env r.kind T w wm
        r.script r.addToDeleteContainer hT (hflag r (List.mem_cons_self _ _)) hm hc hnodup
        (by omega) hstep
      have hreg : registerAll env w (r :: rest) = registerAll env wm rest := by
        simp [registerAll, hstep]
      rw [hreg] at hrun ⊢
      exact ih wm (fun x hx => hflag x (List.mem_cons_of_mem _ hx)) hm1 hc1 hnodup1
        (by omega) hrun

/-! ## Broadcast dispatch -/

theorem foldl_calls_and_accumulator {α : Type} (hook : ScriptPtr → α → α) (m : ScriptMap) :
    ∀ (called : List ScriptPtr) (acc : α),
      m.foldl (fun st itr => (st.1 ++ [itr.2], hook itr.2 st.2)) (called, acc) =
        (called ++ m.map Prod.snd, (m.map Prod.snd).foldl (fun a s => hook s a) acc) := by
  induction m with
  | nil => intro called acc; simp
  | cons hd tl ih =>
    intro called acc
    simp only [List.foldl_cons, List.map_cons, ih]
    simp

/-- The macro `FOREACH_SCRIPT` calls the hook on the values of `ScriptPointerList`, in key
order, each call receiving the accumulator as the call before left it. -/
theorem FOREACH_SCRIPT_eq {α : Type} (w : World) (T : Kind) (hook : ScriptPtr → α → α)
    (acc : α) :
    FOREACH_SCRIPT w T hook acc =
      ((w.reg T).ScriptPointerList.map Prod.snd,
        ((w.reg T).ScriptPointerList.map Prod.snd).foldl (fun a s => hook s a) acc) := by
  unfold FOREACH_SCRIPT
  by_cases h : (w.reg T).ScriptPointerList = []
  · simp [h]
  · have h1 : (w.reg T).ScriptPointerList.isEmpty = false := by
      cases hl : (w.reg T).ScriptPointerList with
      | nil => exact absurd hl h
      | cons _ _ => rfl
    rw [h1]
    simp [foldl_calls_and_accumulator]

/-- A broadcast with an accumulator, in terms of the registry it walks. -/
theorem broadcast_eq {α : Type} (hook : AccumulatorOp → ScriptPtr → α → α) (w : World)
    (op : AccumulatorOp) (acc : α) :
    broadcast hook w op true acc =
      some ((w.reg op.kind).ScriptPointerList.map Prod.snd,
        ((w.reg op.kind).ScriptPointerList.map Prod.snd).foldl
          (fun a s => hook op s a) acc) := by
  cases op <;> simp [broadcast, ASSERT, AccumulatorOp.kind, FOREACH_SCRIPT_eq]

/-- C11: for a kind without `is_script_database_bound` specialisation whose registry was
populated from empty by fewer than `2^32` registrations (the `uint32` counter of C1) that do
not abort and do not opt out of `Scripts`, a broadcast with an accumulator calls the hook
exactly once on each object of `Scripts`, in insertion order, each call receiving the
accumulator as the call before left it: the calls are the list `Scripts`, which has no
duplicate, and the final value is the left fold of the hooks over `Scripts`. When the
registry is empty no hook runs and the accumulator is unchanged. -/
theorem accumulator_broadcast_folds_over_scripts {α : Type} (env : Env)
    (hook : AccumulatorOp → ScriptPtr → α → α) (op : AccumulatorOp) (w : World)
    (regs : List Registration) (acc : α)
    (hempty : w.reg op.kind = Registry.empty)
    (hflag : ∀ r ∈ regs, r.kind = op.kind → r.addToDeleteContainer = true)
    (hN : regs.length < 2 ^ 32)
    (hrun : (registerAll env w regs).isAborted = false) :
    is_script_database_bound op.kind = false ∧
      broadcast hook (registerAll env w regs).state op true acc =
        some (((registerAll env w regs).state.reg op.kind).Scripts,
          ((registerAll env w regs).state.reg op.kind).Scripts.foldl
            (fun a s => hook op s a) acc) ∧
      ((registerAll env w regs).state.reg op.kind).Scripts.Nodup ∧
      (∀ w0 : World, (w0.reg op.kind).ScriptPointerList = [] →
        broadcast hook w0 op true acc = some ([], acc)) := by
  have hseq : is_script_database_bound op.kind = false := by cases op <;> rfl
  obtain ⟨hm, -, hnodup⟩ := registerAll_sequential_invariant env op.kind hseq regs w hflag
    (by simp [hempty, Registry.empty]) (by simp [hempty, Registry.empty])
    (by simp [hempty, Registry.empty]) (by simpa [hempty, Registry.empty] using hN) hrun
  refine ⟨hseq, ?_, hnodup, ?_⟩
  · rw [broadcast_eq, hm, List.enum_map_snd]
  · intro w0 h0
    rw [broadcast_eq, h0]
    rfl

theorem accumulator_broadcast_folds_over_scripts_witness :
    broadcast (fun _ script acc => acc * 10 + script)
        (registerAll sampleEnv (World.initial ["npc_a", "npc_b"])
          (constructorCalls .PlayerScript 3 true ++ constructorCalls .PlayerScript 4 true)).state
        .OnGivePlayerXP true 7 = some ([3, 4], 734) := by
  obtain ⟨-, h, -, -⟩ := accumulator_broadcast_folds_over_scripts sampleEnv
    (fun _ script acc => acc * 10 + script) .OnGivePlayerXP (World.initial ["npc_a", "npc_b"])
    (constructorCalls .PlayerScript 3 true ++ constructorCalls .PlayerScript 4 true) 7
    rfl (by decide) (by decide) (by decide)
  rw [h]
  decide

/-- Sequential registration of distinct instances, with either value of
`addToDeleteContainer`: the map holds all of them in registration order, `Scripts` only
those that did not opt out. -/
theorem registerAll_sequential_scripts (env : Env) (T : Kind)
    (hT : is_script_database_bound T = false) (regs : List Registration) :
    ∀ (done : List ScriptPtr) (w : World),
      (∀ r ∈ regs, r.kind = T) →
      (w.reg T).ScriptPointerList = done.enum →
      (w.reg T)._scriptIdCounter = done.length →
      (done ++ regs.map (fun r => r.script)).Nodup →
      (∀ r ∈ regs, r.script ≠ NULL) →
      done.length + regs.length < 2 ^ 32 →
      ∃ w1, registerAll env w regs = .returned w1 ∧
        (w1.reg T).ScriptPointerList = (done ++ regs.map (fun r => r.script)).enum ∧
        (w1.reg T).Scripts = (w.reg T).Scripts ++
          (regs.filter (fun r => r.addToDeleteContainer)).map (fun r => r.script) := by
  induction regs with
  | nil =>
    intro done w _ hm _ _ _ _
    exact ⟨w, rfl, by simpa using hm, by simp⟩
  | cons r rest ih =>
    intro done w hk hm hc hnodup hnn hN
    have hkr : r.kind = T := hk r (List.mem_cons_self _ _)
    have hnr : r.script ≠ NULL := hnn r (List.mem_cons_self _ _)
    simp only [List.map_cons, List.length_cons] at hnodup hN
    have hfresh : r.script ∉ (w.reg T).ScriptPointerList.map Prod.snd := by
      rw [hm, List.enum_map_snd]
      intro hmem
      exact (List.nodup_append.mp hnodup).2.2 hmem (List.mem_cons_self _ _)
    have hlt : ∀ it ∈ done.enum, it.1 < done.length := by
      intro it hit
      have hmem : (it.1, it.2) ∈ List.enumFrom 0 done := hit
      have := List.mem_enumFrom hmem
      omega
    have hstep := AddScript_false_type_fresh env T w r.script r.addToDeleteContainer hT hnr
      hfresh
    have hmod : (done.length + 1) % 2 ^ 32 = done.length + 1 := Nat.mod_eq_of_lt (by omega)
    rw [hm, hc, mapAssign_append_of_lt _ _ _ hlt, hmod] at hstep
    obtain ⟨wm, hwm, hmm, hcm, hsm⟩ : ∃ wm,
        AddScript env T w r.script r.addToDeleteContainer = .returned wm ∧
        (wm.reg T).ScriptPointerList = done.enum ++ [(done.length, r.script)] ∧
        (wm.reg T)._scriptIdCounter = done.length + 1 ∧
        (wm.reg T).Scripts =
          (if r.addToDeleteContainer then (w.reg T).Scripts ++ [r.script]
            else (w.reg T).Scripts) :=
      ⟨_, hstep, by simp, by simp, by simp⟩
    obtain ⟨w1, hrun, hm1, hs1⟩ := ih (done ++ [r.script]) wm
      (fun x hx => hk x (List.mem_cons_of_mem _ hx))
      (by simp [hmm, List.enum_append, List.enumFrom_singleton])
      (by simp [hcm])
      (by simpa using hnodup)
      (fun x hx => hnn x (List.mem_cons_of_mem _ hx))
      (by simp; omega)
    refine ⟨w1, ?_, ?_, ?_⟩
    · simp only [registerAll, hkr, hwm]
      exact hrun
    · simpa using hm1
    · rw [hs1, hsm]
      cases hflag : r.addToDeleteContainer <;> simp [List.filter_cons, hflag]

/-- The claim C12 as stated fails: a creature script is constructed at address 10. Its
base constructor `UnitScript(name, false)` puts it into the `ScriptPointerList` of
`UnitScript` and not into `Scripts`, which stays empty; the broadcast `OnHeal` walks
`ScriptPointerList` and calls the hook on the object, which is no object of `Scripts`. -/
theorem unit_broadcast_calls_creature_script :
    ((registerAll sampleEnv (World.initial ["npc_a", "npc_b"])
        (constructorCalls .CreatureScript 10 true)).state.reg .UnitScript).Scripts = [] ∧
      broadcast (fun _ script acc => acc * 10 + script)
        (registerAll sampleEnv (World.initial ["npc_a", "npc_b"])
          (constructorCalls .CreatureScript 10 true)).state .OnHeal true 7
        = some ([10], 80) := by
  decide

/-- C12 (amended): for the `UnitScript` kind, populated from empty by registering fewer than
`2^32` pairwise distinct instances, some of which opt out of `Scripts` (as the
`CreatureScript` and `PlayerScript` constructors do), a broadcast (`OnHeal`, `OnDamage`,
`ModifyMeleeDamage`, ...) calls the hook on exactly the values of `ScriptPointerList`:
every registered instance, in registration order, whether it is in `Scripts` or not;
`Scripts` holds only the instances that did not opt out. -/
theorem unit_broadcast_walks_script_pointer_list {α : Type} (env : Env)
    (hook : AccumulatorOp → ScriptPtr → α → α) (op : AccumulatorOp) (w : World)
    (regs : List Registration) (acc : α)
    (hop : op.kind = .UnitScript)
    (hempty : w.reg .UnitScript = Registry.empty)
    (hkind : ∀ r ∈ regs, r.kind = .UnitScript)
    (hnn : ∀ r ∈ regs, r.script ≠ NULL)
    (hdistinct : (regs.map (fun r => r.script)).Nodup)
    (hN : regs.length < 2 ^ 32) :
    ∃ w1, registerAll env w regs = .returned w1 ∧
      broadcast hook w1 op true acc =
        some (regs.map (fun r => r.script),
          (regs.map (fun r => r.script)).foldl (fun a s => hook op s a) acc) ∧
      (w1.reg .UnitScript).Scripts =
        (regs.filter (fun r => r.addToDeleteContainer)).map (fun r => r.script) := by
  obtain ⟨w1, hrun, hm, hs⟩ := registerAll_sequential_scripts env .UnitScript rfl regs [] w
    hkind (by simp [hempty, Registry.empty]) (by simp [hempty, Registry.empty])
    (by simpa using hdistinct) hnn (by simpa using hN)
  refine ⟨w1, hrun, ?_, ?_⟩
  · rw [broadcast_eq, hop, hm]
    simp [List.enum_map_snd]
  · rw [hs, hempty]
    simp [Registry.empty]

theorem unit_broadcast_walks_script_pointer_list_witness :
    ∃ w1, registerAll sampleEnv (World.initial ["npc_a", "npc_b"])
        [⟨.UnitScript, 10, false⟩, ⟨.UnitScript, 30, true⟩, ⟨.UnitScript, 3, false⟩]
        = .returned w1 ∧
      broadcast (fun _ script acc => acc * 100 + script) w1 .OnDamage true 7 =
        some ([10, 30, 3], 7103003) ∧
      (w1.reg .UnitScript).Scripts = [30] := by
  obtain ⟨w1, hrun, hb, hs⟩ := unit_broadcast_walks_script_pointer_list sampleEnv
    (fun _ script acc => acc * 100 + script) .OnDamage (World.initial ["npc_a", "npc_b"])
    [⟨.UnitScript, 10, false⟩, ⟨.UnitScript, 30, true⟩, ⟨.UnitScript, 3, false⟩] 7
    rfl rfl (by decide) (by decide) (by decide) (by decide)
  exact ⟨w1, hrun, hb, hs⟩

/-! ## Region-scoped dispatch -/

theorem boundToMap_iff (scriptEntry : ScriptPtr → Option MapEntry) (V : Map)
    (script : ScriptPtr) :
    boundToMap scriptEntry V script = true ↔
      ∃ C, scriptEntry script = some C ∧ C.MapID = V.GetId := by
  unfold boundToMap
  cases h : scriptEntry script with
  | none => simp
  | some C => simp

/-- The loop of a block stops at the first script, in key order, that is bound to the
region of the map. -/
theorem scanMapScripts_eq (scriptEntry : ScriptPtr → Option MapEntry) (V : Map)
    (hook : ScriptPtr → MapEffect) (m : ScriptMap) :
    scanMapScripts scriptEntry V hook m =
      match (m.map Prod.snd).find? (boundToMap scriptEntry V) with
      | some script => .returned [hook script]
      | none => .fellThrough [] := by
  induction m with
  | nil => simp [scanMapScripts]
  | cons hd tl ih =>
    simp only [scanMapScripts, List.map_cons, List.find?_cons]
    cases h : scriptEntry hd.2 with
    | none =>
      have hb : boundToMap scriptEntry V hd.2 = false := by simp [boundToMap, h]
      simp only [hb]
      exact ih
    | some C =>
      by_cases hC : C.MapID = V.GetId
      · have hb : boundToMap scriptEntry V hd.2 = true := by simp [boundToMap, h, hC]
        simp only [hb, hC, if_true]
      · have hb : boundToMap scriptEntry V hd.2 = false := by simp [boundToMap, h, hC]
        simp only [hb, hC, if_false]
        exact ih

/-- The effects of the three blocks on a map of exactly one category: the hook of the first
script of that category's registry, in key order, that is bound to the region of the map,
and nothing when there is none. -/
theorem mapBlocks_effects_of_category (scriptEntry : ScriptPtr → Option MapEntry) (w : World)
    (op : MapOp) (map : Map) (entry : MapEntry) (T : Kind)
    (hentry : map.GetEntry = some entry) (hcat : mapCategory entry = some T) :
    (mapBlocks scriptEntry w op map).effects =
      match ((w.reg T).ScriptPointerList.map Prod.snd).find? (boundToMap scriptEntry map) with
      | some script => [MapEffect.mapHook op T script]
      | none => [] := by
  obtain ⟨id, isWorld, isDungeon, isBg⟩ := entry
  cases isWorld <;> cases isDungeon <;> cases isBg <;> simp [mapCategory] at hcat <;>
    subst hcat <;>
    simp only [mapBlocks, SCR_MAP, hentry, BlockExit.andThen, if_true, if_false,
      Bool.false_eq_true, scanMapScripts_eq]
  · cases hl : (w.reg Kind.BattlegroundMapScript).ScriptPointerList with
    | nil => simp [BlockExit.effects]
    | cons hd tl =>
      simp only [List.isEmpty_cons, Bool.false_eq_true, if_false]
      cases hf : (List.map Prod.snd (hd :: tl)).find? (boundToMap scriptEntry map) <;>
        simp [BlockExit.effects]
  · cases hl : (w.reg Kind.InstanceMapScript).ScriptPointerList with
    | nil => simp [BlockExit.effects, BlockExit.andThen]
    | cons hd tl =>
      simp only [List.isEmpty_cons, Bool.false_eq_true, if_false]
      cases hf : (List.map Prod.snd (hd :: tl)).find? (boundToMap scriptEntry map) <;>
        simp [BlockExit.effects, BlockExit.andThen]
  · cases hl : (w.reg Kind.WorldMapScript).ScriptPointerList with
    | nil => simp [BlockExit.effects, BlockExit.andThen]
    | cons hd tl =>
      simp only [List.isEmpty_cons, Bool.false_eq_true, if_false]
      cases hf : (List.map Prod.snd (hd :: tl)).find? (boundToMap scriptEntry map) <;>
        simp [BlockExit.effects, BlockExit.andThen]

theorem scanMapScripts_cases (scriptEntry : ScriptPtr → Option MapEntry) (V : Map)
    (hook : ScriptPtr → MapEffect) (m : ScriptMap) :
    scanMapScripts scriptEntry V hook m = .fellThrough [] ∨
      ∃ script, scanMapScripts scriptEntry V hook m = .returned [hook script] := by
  rw [scanMapScripts_eq]
  cases (m.map Prod.snd).find? (boundToMap scriptEntry V) with
  | none => exact Or.inl rfl
  | some script => exact Or.inr ⟨script, rfl⟩

theorem SCR_MAP_cases (scriptEntry : ScriptPtr → Option MapEntry) (w : World) (M : Kind)
    (V : Map) (T : MapEntry → Bool) (hook : ScriptPtr → MapEffect) :
    SCR_MAP scriptEntry w M V T hook = .fellThrough [] ∨
      SCR_MAP scriptEntry w M V T hook = .returned [] ∨
      ∃ script, SCR_MAP scriptEntry w M V T hook = .returned [hook script] := by
  cases hV : V.GetEntry with
  | none => exact Or.inl (by simp [SCR_MAP, hV])
  | some entry =>
    cases hT : T entry with
    | false => exact Or.inl (by simp [SCR_MAP, hV, hT])
    | true =>
      cases hE : (w.reg M).ScriptPointerList.isEmpty with
      | true => exact Or.inr (Or.inl (by simp [SCR_MAP, hV, hT, hE]))
      | false =>
        rcases scanMapScripts_cases scriptEntry V hook (w.reg M).ScriptPointerList with h | h
        · exact Or.inl (by simp [SCR_MAP, hV, hT, hE, h])
        · obtain ⟨script, h⟩ := h
          exact Or.inr (Or.inr ⟨script, by simp [SCR_MAP, hV, hT, hE, h]⟩)

/-- Whatever the map and the registries, the three blocks call at most one hook. -/
theorem mapBlocks_effects_length_le_one (scriptEntry : ScriptPtr → Option MapEntry)
    (w : World) (op : MapOp) (map : Map) :
    (mapBlocks scriptEntry w op map).effects.length ≤ 1 := by
  unfold mapBlocks
  rcases SCR_MAP_cases scriptEntry w .WorldMapScript map MapEntry.IsWorldMap
      (MapEffect.mapHook op .WorldMapScript) with h1 | h1 | ⟨s1, h1⟩ <;>
    rcases SCR_MAP_cases scriptEntry w .InstanceMapScript map MapEntry.IsDungeon
      (MapEffect.mapHook op .InstanceMapScript) with h2 | h2 | ⟨s2, h2⟩ <;>
    rcases SCR_MAP_cases scriptEntry w .BattlegroundMapScript map MapEntry.IsBattleground
      (MapEffect.mapHook op .BattlegroundMapScript) with h3 | h3 | ⟨s3, h3⟩ <;>
    simp [h1, h2, h3, BlockExit.andThen, BlockExit.effects]

/-- Every region-scoped operation but `OnPlayerEnterMap` is its `ASSERT`s followed by the
three blocks. -/
theorem mapDispatch_eq_mapBlocks (scriptEntry : ScriptPtr → Option MapEntry) (w : World)
    (op : MapOp) (map : Map) (hop : op ≠ .OnPlayerEnterMap) :
    mapDispatch scriptEntry w op map true = some (mapBlocks scriptEntry w op map).effects := by
  cases op <;>
    simp [mapDispatch, OnCreateMap, OnDestroyMap, OnLoadGridMap, OnUnloadGridMap,
      OnPlayerLeaveMap, OnMapUpdate, ASSERT] at hop ⊢

/-- C13: for every map and every state of the registries, a region-scoped dispatch
(`OnCreateMap`, `OnDestroyMap`, `OnLoadGridMap`, `OnUnloadGridMap`, `OnPlayerLeaveMap`,
`OnMapUpdate`) whose `ASSERT`s hold returns having called at most one map-script hook; when
exactly one of `IsWorldMap`, `IsDungeon`, `IsBattleground` holds for the entry of the map,
a hook that is called is the hook of a script of that category's registry whose entry is
not null and has the `MapID` of the map, and when that registry holds no such script no
hook is called. -/
theorem region_dispatch_calls_at_most_one_hook (scriptEntry : ScriptPtr → Option MapEntry)
    (w : World) (op : MapOp) (map : Map) (hop : op ≠ .OnPlayerEnterMap) :
    ∃ effects, mapDispatch scriptEntry w op map true = some effects ∧
      effects.length ≤ 1 ∧
      ∀ entry T, map.GetEntry = some entry → mapCategory entry = some T →
        (∀ eff ∈ effects, ∃ script C, eff = MapEffect.mapHook op T script ∧
          script ∈ (w.reg T).ScriptPointerList.map Prod.snd ∧
          scriptEntry script = some C ∧ C.MapID = map.GetId) ∧
        ((∀ script ∈ (w.reg T).ScriptPointerList.map Prod.snd, ∀ C,
            scriptEntry script = some C → C.MapID ≠ map.GetId) → effects = []) := by
  refine ⟨_, mapDispatch_eq_mapBlocks scriptEntry w op map hop,
    mapBlocks_effects_length_le_one scriptEntry w op map, ?_⟩
  intro entry T hentry hcat
  rw [mapBlocks_effects_of_category scriptEntry w op map entry T hentry hcat]
  cases hf : ((w.reg T).ScriptPointerList.map Prod.snd).find? (boundToMap scriptEntry map) with
  | none => simp
  | some script =>
    have hmem := List.mem_of_find?_eq_some hf
    have hb := List.find?_some hf
    obtain ⟨C, hC, hid⟩ := (boundToMap_iff scriptEntry map script).mp hb
    refine ⟨?_, ?_⟩
    · intro eff heff
      simp only [List.mem_singleton] at heff
      exact ⟨script, C, heff, hmem, hC, hid⟩
    · intro hnone
      exact absurd hid (hnone script hmem C hC)

theorem region_dispatch_calls_at_most_one_hook_witness :
    ∃ effects, mapDispatch sampleScriptEntry
        (registerAll sampleEnv (World.initial []) sampleMapRegistrations).state
        .OnPlayerLeaveMap sampleWorldMap true = some effects ∧ effects.length ≤ 1 := by
  obtain ⟨effects, h1, h2, -⟩ := region_dispatch_calls_at_most_one_hook sampleScriptEntry
    (registerAll sampleEnv (World.initial []) sampleMapRegistrations).state
    .OnPlayerLeaveMap sampleWorldMap (by decide)
  exact ⟨effects, h1, h2⟩

/-- C14: for the `WorldMapScript` and `BattlegroundMapScript` kinds, populated from empty by
registering fewer than `2^32` pairwise distinct instances (the `uint32` counter of C1), a
region-scoped dispatch whose `ASSERT`s hold, on a map of that category, calls the hook of
the first-registered of the scripts bound to the region of the map and of no other script,
and no hook when no registered script is bound to it. -/
theorem region_first_registered_wins (env : Env) (scriptEntry : ScriptPtr → Option MapEntry)
    (T : Kind) (w : World) (regs : List Registration) (op : MapOp) (map : Map)
    (entry : MapEntry)
    (hT : T = .WorldMapScript ∨ T = .BattlegroundMapScript)
    (hempty : w.reg T = Registry.empty)
    (hkind : ∀ r ∈ regs, r.kind = T)
    (hnn : ∀ r ∈ regs, r.script ≠ NULL)
    (hdistinct : (regs.map (fun r => r.script)).Nodup)
    (hN : regs.length < 2 ^ 32)
    (hop : op ≠ .OnPlayerEnterMap)
    (hentry : map.GetEntry = some entry) (hcat : mapCategory entry = some T) :
    ∃ w1, registerAll env w regs = .returned w1 ∧
      mapDispatch scriptEntry w1 op map true =
        some (match (regs.map (fun r => r.script)).find? (boundToMap scriptEntry map) with
          | some first => [MapEffect.mapHook op T first]
          | none => []) := by
  have hseq : is_script_database_bound T = false := by
    rcases hT with h | h <;> subst h <;> rfl
  obtain ⟨w1, hrun, hm, -⟩ := registerAll_sequential_enum env T hseq regs [] w hkind
    (by simp [hempty, Registry.empty]) (by simp [hempty, Registry.empty])
    (by simpa using hdistinct) hnn (by simpa using hN)
  refine ⟨w1, hrun, ?_⟩
  rw [mapDispatch_eq_mapBlocks scriptEntry w1 op map hop,
    mapBlocks_effects_of_category scriptEntry w1 op map entry T hentry hcat, hm]
  simp [List.enum_map_snd]

theorem region_first_registered_wins_witness :
    ∃ w1, registerAll sampleEnv (World.initial []) sampleMapRegistrations = .returned w1 ∧
      mapDispatch sampleScriptEntry w1 .OnCreateMap sampleWorldMap true =
        some [MapEffect.mapHook .OnCreateMap .WorldMapScript 42] := by
  obtain ⟨w1, hrun, h⟩ := region_first_registered_wins sampleEnv sampleScriptEntry
    .WorldMapScript (World.initial []) sampleMapRegistrations .OnCreateMap sampleWorldMap
    ⟨7, true, false, false⟩ (by decide) rfl (by decide) (by decide) (by decide) (by decide)
    (by decide) rfl (by decide)
  exact ⟨w1, hrun, h⟩

/-! ## What one call of `AddScript` does to the registry of its kind -/

/-- The registry of the kind `K` after a call of `AddScript` for `K`, whether the call
returned or aborted: it is unchanged (null pointer, instance already in the map, or
duplicate name), or the instance was only appended to `Scripts` (name without ID), or it
was inserted under the ID of its name, or under the counter. -/
theorem AddScript_reg_cases (env : Env) (K : Kind) (w : World) (script : ScriptPtr)
    (flag : Bool) :
    (AddScript env K w script flag).state.reg K = w.reg K ∨
    (is_script_database_bound K = true ∧ env.GetScriptId (env.GetName script) = 0 ∧
      script ∉ (w.reg K).ScriptPointerList.map Prod.snd ∧
      (AddScript env K w script flag).state.reg K =
        { ScriptPointerList := (w.reg K).ScriptPointerList
          Scripts := if flag then (w.reg K).Scripts ++ [script] else (w.reg K).Scripts
          _scriptIdCounter := (w.reg K)._scriptIdCounter }) ∨
    (is_script_database_bound K = true ∧ env.GetScriptId (env.GetName script) ≠ 0 ∧
      script ∉ (w.reg K).ScriptPointerList.map Prod.snd ∧
      (∀ it ∈ (w.reg K).ScriptPointerList, env.GetName it.2 ≠ env.GetName script) ∧
      (AddScript env K w script flag).state.reg K =
        { ScriptPointerList :=
            mapAssign (w.reg K).ScriptPointerList (env.GetScriptId (env.GetName script))
              script
          Scripts := if flag then (w.reg K).Scripts ++ [script] else (w.reg K).Scripts
          _scriptIdCounter := (w.reg K)._scriptIdCounter }) ∨
    (is_script_database_bound K = false ∧
      script ∉ (w.reg K).ScriptPointerList.map Prod.snd ∧
      (AddScript env K w script flag).state.reg K =
        { ScriptPointerList :=
            mapAssign (w.reg K).ScriptPointerList (w.reg K)._scriptIdCounter script
          Scripts := if flag then (w.reg K).Scripts ++ [script] else (w.reg K).Scripts
          _scriptIdCounter := ((w.reg K)._scriptIdCounter + 1) % 2 ^ 32 }) := by
  by_cases hn : script = NULL
  · subst hn
    exact Or.inl (by simp [AddScript_null, Outcome.state])
  by_cases hreg : script ∈ (w.reg K).ScriptPointerList.map Prod.snd
  · obtain ⟨other, h⟩ := AddScript_registered env K w script flag hn hreg
    exact Or.inl (by simp [h, Outcome.state])
  by_cases hK : is_script_database_bound K = true
  · by_cases hid : env.GetScriptId (env.GetName script) = 0
    · exact Or.inr (Or.inl ⟨hK, hid, hreg, by
        simp [AddScript_true_type_unresolved env K w script flag hK hn hreg hid,
          Outcome.state]⟩)
    · by_cases hname : ∃ it ∈ (w.reg K).ScriptPointerList,
          env.GetName it.2 = env.GetName script
      · exact Or.inl (by
          simp [AddScript_true_type_duplicate env K w script flag hK hn hreg hid hname,
            Outcome.state])
      · have hname1 : ∀ it ∈ (w.reg K).ScriptPointerList,
            env.GetName it.2 ≠ env.GetName script :=
          fun it hit heq => hname ⟨it, hit, heq⟩
        exact Or.inr (Or.inr (Or.inl ⟨hK, hid, hreg, hname1, by
          simp [AddScript_true_type_insert env K w script flag hK hn hreg hid hname1,
            Outcome.state]⟩))
  · have hK1 : is_script_database_bound K = false := by simpa using hK
    exact Or.inr (Or.inr (Or.inr ⟨hK1, hreg, by
      simp [AddScript_false_type_fresh env K w script flag hK1 hn hreg, Outcome.state]⟩))

theorem mapAssign_sorted (m : ScriptMap) (id : Nat) (script : ScriptPtr)
    (h : m.Pairwise (fun a b => a.1 < b.1)) :
    (mapAssign m id script).Pairwise (fun a b => a.1 < b.1) := by
  induction m with
  | nil => simp [mapAssign]
  | cons hd tl ih =>
    obtain ⟨k, v⟩ := hd
    obtain ⟨hhd, htl⟩ := List.pairwise_cons.mp h
    by_cases h1 : id < k
    · simp only [mapAssign, h1, if_true]
      refine List.pairwise_cons.mpr ⟨?_, h⟩
      intro b hb
      rcases List.mem_cons.mp hb with hb | hb
      · subst hb; exact h1
      · exact Nat.lt_trans h1 (hhd b hb)
    · by_cases h2 : id = k
      · subst h2
        simp only [mapAssign, lt_self_iff_false, if_false, if_true]
        exact List.pairwise_cons.mpr ⟨hhd, htl⟩
      · simp only [mapAssign, h1, h2, if_false]
        refine List.pairwise_cons.mpr ⟨?_, ih htl⟩
        intro b hb
        rcases mem_mapAssign _ _ _ _ hb with hb | hb
        · subst hb
          show k < id
          omega
        · exact hhd b hb

/-- The keys of every `ScriptPointerList` stay strictly ascending. -/
theorem AddScript_sorted (env : Env) (K T : Kind) (w : World) (script : ScriptPtr)
    (flag : Bool) (h : (w.reg T).ScriptPointerList.Pairwise (fun a b => a.1 < b.1)) :
    ((AddScript env K w script flag).state.reg T).ScriptPointerList.Pairwise
      (fun a b => a.1 < b.1) := by
  by_cases hKT : T = K
  · subst hKT
    rcases AddScript_reg_cases env T w script flag with h1 | ⟨-, -, -, h1⟩ |
      ⟨-, -, -, -, h1⟩ | ⟨-, -, h1⟩ <;> rw [h1]
    · exact h
    · exact h
    · exact mapAssign_sorted _ _ _ h
    · exact mapAssign_sorted _ _ _ h
  · rw [AddScript_reg_of_ne env K T w script flag hKT]
    exact h

theorem registerAll_sorted (env : Env) (T : Kind) (regs : List Registration) :
    ∀ w : World, (w.reg T).ScriptPointerList.Pairwise (fun a b => a.1 < b.1) →
      ((registerAll env w regs).state.reg T).ScriptPointerList.Pairwise
        (fun a b => a.1 < b.1) := by
  induction regs with
  | nil => intro w h; exact h
  | cons r rest ih =>
    intro w h
    have hstep := AddScript_sorted env r.kind T w r.script r.addToDeleteContainer h
    cases hres : AddScript env r.kind w r.script r.addToDeleteContainer with
    | aborted wm =>
      rw [hres] at hstep
      simpa [registerAll, hres, Outcome.state] using hstep
    | returned wm =>
      rw [hres] at hstep
      have := ih wm hstep
      simpa [registerAll, hres] using this

/-- In a map with ascending keys, the first value that satisfies `p` is the one stored
under the smallest key among those that do. -/
theorem find?_smallest_key (p : ScriptPtr → Bool) (m : ScriptMap) (k : Nat)
    (script : ScriptPtr)
    (hsorted : m.Pairwise (fun a b => a.1 < b.1))
    (hmem : (k, script) ∈ m) (hp : p script = true)
    (hmin : ∀ it ∈ m, p it.2 = true → k ≤ it.1) :
    (m.map Prod.snd).find? p = some script := by
  induction m with
  | nil => simp at hmem
  | cons hd tl ih =>
    obtain ⟨hhd, htl⟩ := List.pairwise_cons.mp hsorted
    simp only [List.map_cons, List.find?_cons]
    cases hphd : p hd.2 with
    | true =>
      rcases List.mem_cons.mp hmem with h | h
      · rw [← h]
      · have h1 := hhd _ h
        have h2 := hmin hd (List.mem_cons_self _ _) hphd
        simp only at h1
        omega
    | false =>
      rcases List.mem_cons.mp hmem with h | h
      · rw [← h] at hphd
        simp only at hphd
        rw [hp] at hphd
        exact absurd hphd (by decide)
      · exact ih htl h (fun it hit => hmin it (List.mem_cons_of_mem _ hit))

/-- In the registry of a database bound kind populated from empty, every script is stored
under the ID the resolver gives its name. -/
theorem registerAll_keys_are_ids (env : Env) (T : Kind)
    (hT : is_script_database_bound T = true) (regs : List Registration) :
    ∀ w : World,
      (∀ it ∈ (w.reg T).ScriptPointerList, env.GetScriptId (env.GetName it.2) = it.1) →
      ∀ it ∈ ((registerAll env w regs).state.reg T).ScriptPointerList,
        env.GetScriptId (env.GetName it.2) = it.1 := by
  induction regs with
  | nil => intro w h; exact h
  | cons r rest ih =>
    intro w h
    have hstep : ∀ it ∈ ((AddScript env r.kind w r.script
        r.addToDeleteContainer).state.reg T).ScriptPointerList,
        env.GetScriptId (env.GetName it.2) = it.1 := by
      by_cases hKT : T = r.kind
      · subst hKT
        rcases AddScript_reg_cases env r.kind w r.script r.addToDeleteContainer with
          h1 | ⟨-, -, -, h1⟩ | ⟨-, -, -, -, h1⟩ | ⟨hseq, -, -⟩
        · rw [h1]; exact h
        · rw [h1]; exact h
        · rw [h1]
          intro it hit
          rcases mem_mapAssign _ _ _ _ hit with h2 | h2
          · rw [h2]
          · exact h it h2
        · rw [hT] at hseq
          exact absurd hseq (by decide)
      · rw [AddScript_reg_of_ne env r.kind T w r.script r.addToDeleteContainer hKT]
        exact h
    cases hres : AddScript env r.kind w r.script r.addToDeleteContainer with
    | aborted wm =>
      rw [hres] at hstep
      simpa [registerAll, hres, Outcome.state] using hstep
    | returned wm =>
      rw [hres] at hstep
      have := ih wm hstep
      simpa [registerAll, hres] using this

/-- The claim C15 as stated fails: the instance-map script at address 20 (`npc_b`, ID 7)
is registered first, the one at address 10 (`npc_a`, ID 5) second; both are bound to
dungeon 7. `OnCreateMap` on the dungeon map of region 7 calls the hook of the script
registered second, which is stored under the smaller ID. -/
theorem instance_region_second_registered_wins :
    (registerAll sampleEnv (World.initial ["npc_a", "npc_b"])
        [⟨.InstanceMapScript, 20, true⟩, ⟨.InstanceMapScript, 10, true⟩]).isAborted = false ∧
      boundToMap sampleScriptEntry sampleDungeon 20 = true ∧
      boundToMap sampleScriptEntry sampleDungeon 10 = true ∧
      mapDispatch sampleScriptEntry
        (registerAll sampleEnv (World.initial ["npc_a", "npc_b"])
          [⟨.InstanceMapScript, 20, true⟩, ⟨.InstanceMapScript, 10, true⟩]).state
        .OnCreateMap sampleDungeon true =
        some [MapEffect.mapHook .OnCreateMap .InstanceMapScript 10] := by
  decide

/-- C15 (amended): for the `InstanceMapScript` kind and every resolver, in the state
reached by registrations from an empty registry, a region-scoped dispatch on a dungeon map
calls the hook of the script that is stored under the smallest key of
`ScriptPointerList` among the scripts bound to the region of the map, and of no other;
that key is the ID the resolver gives the name of the script, whatever the order of
registration. -/
theorem instance_region_smallest_id_wins (env : Env)
    (scriptEntry : ScriptPtr → Option MapEntry) (w : World) (regs : List Registration)
    (op : MapOp) (map : Map) (entry : MapEntry) (k : Nat) (script : ScriptPtr)
    (hempty : w.reg .InstanceMapScript = Registry.empty)
    (hop : op ≠ .OnPlayerEnterMap)
    (hentry : map.GetEntry = some entry)
    (hcat : mapCategory entry = some .InstanceMapScript)
    (hmem : (k, script) ∈
      ((registerAll env w regs).state.reg .InstanceMapScript).ScriptPointerList)
    (hbound : boundToMap scriptEntry map script = true)
    (hmin : ∀ it ∈ ((registerAll env w regs).state.reg .InstanceMapScript).ScriptPointerList,
      boundToMap scriptEntry map it.2 = true → k ≤ it.1) :
    mapDispatch scriptEntry (registerAll env w regs).state op map true =
        some [MapEffect.mapHook op .InstanceMapScript script] ∧
      env.GetScriptId (env.GetName script) = k := by
  have hsorted := registerAll_sorted env .InstanceMapScript regs w
    (by simp [hempty, Registry.empty])
  have hids := registerAll_keys_are_ids env .InstanceMapScript rfl regs w
    (by simp [hempty, Registry.empty])
  refine ⟨?_, hids (k, script) hmem⟩
  rw [mapDispatch_eq_mapBlocks scriptEntry _ op map hop,
    mapBlocks_effects_of_category scriptEntry _ op map entry _ hentry hcat,
    find?_smallest_key _ _ k script hsorted hmem hbound hmin]

theorem instance_region_smallest_id_wins_witness :
    mapDispatch sampleScriptEntry
        (registerAll sampleEnv (World.initial ["npc_a", "npc_b"])
          [⟨.InstanceMapScript, 20, true⟩, ⟨.InstanceMapScript, 10, true⟩]).state
        .OnMapUpdate sampleDungeon true =
        some [MapEffect.mapHook .OnMapUpdate .InstanceMapScript 10] ∧
      sampleEnv.GetScriptId (sampleEnv.GetName 10) = 5 :=
  instance_region_smallest_id_wins sampleEnv sampleScriptEntry
    (World.initial ["npc_a", "npc_b"])
    [⟨.InstanceMapScript, 20, true⟩, ⟨.InstanceMapScript, 10, true⟩]
    .OnMapUpdate sampleDungeon ⟨7, false, true, false⟩ 5 10
    rfl (by decide) rfl (by decide) (by decide) (by decide) (by decide)

/-- C16 (the code at the failing input): the world-map scripts at 41, 42, 43 (regions 5,
7, 7) are registered and no player script is. `OnPlayerEnterMap` on the world map of
region 7 returns from the `FOREACH_SCRIPT(PlayerScript)` statement, whose macro returns
from the enclosing function when the registry is empty, and calls no hook at all.
`OnPlayerLeaveMap`, which has no such statement, calls the hook of the script at 42 in the
same state, and so does `OnPlayerEnterMap` once a player script (at address 3) is
registered. -/
theorem player_enter_map_returns_early_without_player_scripts :
    ((registerAll sampleEnv (World.initial []) sampleMapRegistrations).state.reg
        .PlayerScript).ScriptPointerList = [] ∧
      mapDispatch sampleScriptEntry
        (registerAll sampleEnv (World.initial []) sampleMapRegistrations).state
        .OnPlayerEnterMap sampleWorldMap true = some [] ∧
      mapDispatch sampleScriptEntry
        (registerAll sampleEnv (World.initial []) sampleMapRegistrations).state
        .OnPlayerLeaveMap sampleWorldMap true =
          some [MapEffect.mapHook .OnPlayerLeaveMap .WorldMapScript 42] ∧
      mapDispatch sampleScriptEntry
        (registerAll sampleEnv (World.initial [])
          (sampleMapRegistrations ++ constructorCalls .PlayerScript 3 true)).state
        .OnPlayerEnterMap sampleWorldMap true =
          some [MapEffect.OnMapChanged 3,
            MapEffect.mapHook .OnPlayerEnterMap .WorldMapScript 42] := by
  decide

/-! ## Teardown -/

theorem SCR_CLEAR_reg (st : World × List ScriptPtr) (K T : Kind) :
    (SCR_CLEAR st K).1.reg T =
      if T = K then { st.1.reg T with Scripts := [] } else st.1.reg T := by
  by_cases h : T = K
  · subst h
    simp [SCR_CLEAR, World.setReg]
  · simp [SCR_CLEAR, World.setReg, Function.update_noteq h, h]

/-- After `SCR_CLEAR` for the kinds of a list, the registries of those kinds have lost
their `Scripts` and nothing else; the other registries are as before. -/
theorem foldl_SCR_CLEAR_reg (l : List Kind) :
    ∀ (st : World × List ScriptPtr) (T : Kind),
      (l.foldl SCR_CLEAR st).1.reg T =
        if T ∈ l then { st.1.reg T with Scripts := [] } else st.1.reg T := by
  induction l with
  | nil => intro st T; simp
  | cons K tl ih =>
    intro st T
    simp only [List.foldl_cons, ih, SCR_CLEAR_reg, List.mem_cons]
    by_cases h1 : T = K <;> by_cases h2 : T ∈ tl <;> simp [h1, h2]

/-- The pointers deleted by `SCR_CLEAR` for the kinds of a duplicate-free list: the
`Scripts` of each kind, kind after kind. -/
theorem foldl_SCR_CLEAR_deleted (l : List Kind) (w : World) :
    ∀ st : World × List ScriptPtr, l.Nodup → (∀ K ∈ l, st.1.reg K = w.reg K) →
      (l.foldl SCR_CLEAR st).2 = st.2 ++ l.flatMap (fun K => (w.reg K).Scripts) := by
  induction l with
  | nil => intro st _ _; simp
  | cons T tl ih =>
    intro st hnodup hreg
    obtain ⟨hT, htl⟩ := List.nodup_cons.mp hnodup
    simp only [List.foldl_cons, List.flatMap_cons]
    rw [ih (SCR_CLEAR st T) htl]
    · simp [SCR_CLEAR, hreg T (List.mem_cons_self _ _)]
    · intro K hK
      have hne : K ≠ T := fun h => hT (h ▸ hK)
      rw [SCR_CLEAR_reg]
      simp [hne, hreg K (List.mem_cons_of_mem _ hK)]

theorem mem_unloadOrder (T : Kind) : T ∈ unloadOrder := by
  cases T <;> decide

/-- The claim C17 as stated fails: the creature script at address 10 is registered under
ID 5; after `Unload` the `ScriptPointerList` of `CreatureScript` still holds the entry and
`GetScriptById 5` still returns the (deleted) instance. -/
theorem unload_keeps_script_pointer_list :
    GetScriptById sampleWorld .CreatureScript 5 = 10 ∧
      (Unload sampleWorld).2 = [10] ∧
      ((Unload sampleWorld).1.reg .CreatureScript).ScriptPointerList = [(5, 10)] ∧
      GetScriptById (Unload sampleWorld).1 .CreatureScript 5 = 10 := by
  decide

/-- C17 (amended): after `ScriptMgr::Unload`, for every kind, the owned sequence `Scripts` is
empty, while `ScriptPointerList` and `_scriptIdCounter` are what they were before, so that
`GetScriptById` returns for every ID what it returned before `Unload`. -/
theorem unload_clears_scripts_only (w : World) (T : Kind) :
    ((Unload w).1.reg T).Scripts = [] ∧
      ((Unload w).1.reg T).ScriptPointerList = (w.reg T).ScriptPointerList ∧
      ((Unload w).1.reg T)._scriptIdCounter = (w.reg T)._scriptIdCounter ∧
      ∀ id, GetScriptById (Unload w).1 T id = GetScriptById w T id := by
  have h : (Unload w).1.reg T = { w.reg T with Scripts := [] } := by
    unfold Unload
    rw [foldl_SCR_CLEAR_reg]
    simp [mem_unloadOrder T]
  refine ⟨by rw [h], by rw [h], by rw [h], ?_⟩
  intro id
  simp [GetScriptById, h]

/-- C18 (the code at the failing input): an item script whose name the database does not
know is constructed twice at the same address 30. Both registrations return, `Scripts` of
`ItemScript` holds the instance twice, and `Unload` passes it to `delete` twice. This is
the defect of C4: the scan of lines 117-126 looks only at `ScriptPointerList`. -/
theorem unload_deletes_unresolved_instance_twice :
    (registerAll sampleEnv (World.initial ["npc_a", "npc_b"])
        (constructorCalls .ItemScript 30 true ++
          constructorCalls .ItemScript 30 true)).isAborted = false ∧
      ((registerAll sampleEnv (World.initial ["npc_a", "npc_b"])
        (constructorCalls .ItemScript 30 true ++
          constructorCalls .ItemScript 30 true)).state.reg .ItemScript).Scripts = [30, 30] ∧
      (Unload (registerAll sampleEnv (World.initial ["npc_a", "npc_b"])
        (constructorCalls .ItemScript 30 true ++
          constructorCalls .ItemScript 30 true)).state).2.count 30 = 2 := by
  decide

/-- C19: the kinds cleared by `ScriptMgr::Unload` are exactly the 26 kinds for which
`ScriptRegistry` is instantiated, which are exactly the 26 kinds a script constructor
registers into; no kind is cleared twice and none is left out: `Unload` deletes the
`Scripts` of every kind, kind after kind, and leaves every `Scripts` empty. -/
theorem unload_covers_every_registry :
    unloadOrder.length = 26 ∧ unloadOrder.Nodup ∧
      instantiatedRegistries.length = 26 ∧ constructedKinds.length = 26 ∧
      (∀ T : Kind, T ∈ unloadOrder ∧ T ∈ instantiatedRegistries ∧ T ∈ constructedKinds ∧
        unloadOrder.count T = 1) ∧
      (∀ w : World, (Unload w).2 = unloadOrder.flatMap (fun T => (w.reg T).Scripts) ∧
        ∀ T : Kind, ((Unload w).1.reg T).Scripts = []) := by
  refine ⟨by decide, by decide, by decide, by decide, ?_, ?_⟩
  · intro T
    cases T <;> decide
  · intro w
    refine ⟨?_, ?_⟩
    · unfold Unload
      rw [foldl_SCR_CLEAR_deleted unloadOrder w (w, []) (by decide) (fun _ _ => rfl)]
      simp
    · intro T
      unfold Unload
      rw [foldl_SCR_CLEAR_reg]
      simp [mem_unloadOrder T]

/-! ## Every indexed object is owned once -/

theorem mem_mapAssign_of_ne (m : ScriptMap) (id : Nat) (script : ScriptPtr)
    (it : Nat × ScriptPtr) (hmem : it ∈ m) (hne : it.1 ≠ id) :
    it ∈ mapAssign m id script := by
  induction m with
  | nil => simp at hmem
  | cons hd tl ih =>
    obtain ⟨k, v⟩ := hd
    by_cases h1 : id < k
    · simp only [mapAssign, h1, if_true]
      exact List.mem_cons_of_mem _ hmem
    · by_cases h2 : id = k
      · subst h2
        simp only [mapAssign, lt_self_iff_false, if_false, if_true]
        rcases List.mem_cons.mp hmem with h | h
        · rw [h] at hne
          exact absurd rfl hne
        · exact List.mem_cons_of_mem _ h
      · simp only [mapAssign, h1, h2, if_false]
        rcases List.mem_cons.mp hmem with h | h
        · rw [h]; exact List.mem_cons_self _ _
        · exact List.mem_cons_of_mem _ (ih h)

/-- One call of `AddScript` keeps the invariant of a database bound registry, under a
resolver that gives different names different IDs: every script is stored under the ID of
its name, every value of the map occurs exactly once in `Scripts`, and an element of
`Scripts` that is not in the map has a name without ID. -/
theorem AddScript_bound_invariant (env : Env) (K T : Kind) (w : World) (script : ScriptPtr)
    (flag : Bool)
    (hT : is_script_database_bound T = true)
    (hinj : ∀ a b, env.GetScriptId a = env.GetScriptId b → env.GetScriptId a ≠ 0 → a = b)
    (hflag : K = T → flag = true)
    (hids : ∀ it ∈ (w.reg T).ScriptPointerList, env.GetScriptId (env.GetName it.2) = it.1)
    (honce : ∀ v ∈ (w.reg T).ScriptPointerList.map Prod.snd, (w.reg T).Scripts.count v = 1)
    (hrest : ∀ s ∈ (w.reg T).Scripts, s ∈ (w.reg T).ScriptPointerList.map Prod.snd ∨
      env.GetScriptId (env.GetName s) = 0) :
    (∀ it ∈ ((AddScript env K w script flag).state.reg T).ScriptPointerList,
        env.GetScriptId (env.GetName it.2) = it.1) ∧
      (∀ v ∈ ((AddScript env K w script flag).state.reg T).ScriptPointerList.map Prod.snd,
        ((AddScript env K w script flag).state.reg T).Scripts.count v = 1) ∧
      (∀ s ∈ ((AddScript env K w script flag).state.reg T).Scripts,
        s ∈ ((AddScript env K w script flag).state.reg T).ScriptPointerList.map Prod.snd ∨
          env.GetScriptId (env.GetName s) = 0) := by
  by_cases hKT : T = K
  · subst hKT
    have hfl : flag = true := hflag rfl
    subst hfl
    rcases AddScript_reg_cases env T w script true with h1 | ⟨-, hid, hfresh, h1⟩ |
      ⟨-, hid, hfresh, hname, h1⟩ | ⟨hseq, -, -⟩
    · rw [h1]; exact ⟨hids, honce, hrest⟩
    · rw [h1]
      simp only [if_true]
      refine ⟨hids, ?_, ?_⟩
      · intro v hv
        have hne : v ∉ [script] := by
          rw [List.mem_singleton]
          exact fun h => hfresh (h ▸ hv)
        rw [List.count_append, honce v hv, List.count_eq_zero_of_not_mem hne]
      · intro s hs
        rcases List.mem_append.mp hs with h | h
        · exact hrest s h
        · rw [List.mem_singleton] at h
          subst h
          exact Or.inr hid
    · rw [h1]
      simp only [if_true]
      have hkey : ∀ it ∈ (w.reg T).ScriptPointerList,
          it.1 ≠ env.GetScriptId (env.GetName script) := by
        intro it hit heq
        have h2 := hids it hit
        rw [heq] at h2
        exact hname it hit (hinj _ _ h2 (by rw [h2]; exact hid))
      have hnot : script ∉ (w.reg T).Scripts := by
        intro hs
        rcases hrest script hs with h | h
        · exact hfresh h
        · exact hid h
      refine ⟨?_, ?_, ?_⟩
      · intro it hit
        rcases mem_mapAssign _ _ _ _ hit with h | h
        · rw [h]
        · exact hids it h
      · intro v hv
        obtain ⟨it, hit, hv1⟩ := List.mem_map.mp hv
        rcases mem_mapAssign _ _ _ _ hit with h | h
        · rw [h] at hv1
          simp only at hv1
          subst hv1
          rw [List.count_append, List.count_eq_zero_of_not_mem hnot]
          simp
        · have hv2 : v ∈ (w.reg T).ScriptPointerList.map Prod.snd :=
            List.mem_map.mpr ⟨it, h, hv1⟩
          have hne : v ∉ [script] := by
            rw [List.mem_singleton]
            exact fun h3 => hfresh (h3 ▸ hv2)
          rw [List.count_append, honce v hv2, List.count_eq_zero_of_not_mem hne]
      · intro s hs
        rcases List.mem_append.mp hs with h | h
        · rcases hrest s h with h2 | h2
          · obtain ⟨it, hit, hs1⟩ := List.mem_map.mp h2
            exact Or.inl (List.mem_map.mpr
              ⟨it, mem_mapAssign_of_ne _ _ _ it hit (hkey it hit), hs1⟩)
          · exact Or.inr h2
        · rw [List.mem_singleton] at h
          subst h
          exact Or.inl (List.mem_map.mpr ⟨_, mem_mapAssign_self _ _ _, rfl⟩)
    · rw [hT] at hseq
      exact absurd hseq (by decide)
  · rw [AddScript_reg_of_ne env K T w script flag hKT]
    exact ⟨hids, honce, hrest⟩

theorem registerAll_bound_invariant (env : Env) (T : Kind)
    (hT : is_script_database_bound T = true)
    (hinj : ∀ a b, env.GetScriptId a = env.GetScriptId b → env.GetScriptId a ≠ 0 → a = b)
    (regs : List Registration) :
    ∀ w : World,
      (∀ r ∈ regs, r.kind = T → r.addToDeleteContainer = true) →
      (∀ it ∈ (w.reg T).ScriptPointerList, env.GetScriptId (env.GetName it.2) = it.1) →
      (∀ v ∈ (w.reg T).ScriptPointerList.map Prod.snd, (w.reg T).Scripts.count v = 1) →
      (∀ s ∈ (w.reg T).Scripts, s ∈ (w.reg T).ScriptPointerList.map Prod.snd ∨
        env.GetScriptId (env.GetName s) = 0) →
      ∀ v ∈ ((registerAll env w regs).state.reg T).ScriptPointerList.map Prod.snd,
        ((registerAll env w regs).state.reg T).Scripts.count v = 1 := by
  induction regs with
  | nil => intro w _ _ honce _; exact honce
  | cons r rest ih =>
    intro w hflag hids honce hrest
    obtain ⟨hids1, honce1, hrest1⟩ := AddScript_bound_invariant env r.kind T w r.script
      r.addToDeleteContainer hT hinj (hflag r (List.mem_cons_self _ _)) hids honce hrest
    cases hres : AddScript env r.kind w r.script r.addToDeleteContainer with
    | aborted wm =>
      rw [hres] at honce1
      simpa [registerAll, hres, Outcome.state] using honce1
    | returned wm =>
      rw [hres] at hids1 honce1 hrest1
      have := ih wm (fun x hx => hflag x (List.mem_cons_of_mem _ hx)) hids1 honce1 hrest1
      simpa [registerAll, hres] using this

/-- The claim C20 as stated fails under a resolver that gives two names the same ID (here
every name resolves to 5): the creature scripts at 10 (`npc_a`), at 20 (`npc_b`) and at 10
again are registered with the default `addToDeleteContainer`. No call aborts; the second
replaces the entry of the first, so the third is not recognised as registered: in the end
the object at 10 is a value of `ScriptPointerList` and occurs twice in `Scripts`. -/
theorem colliding_ids_leave_indexed_object_owned_twice :
    (registerAll collidingEnv (World.initial ["npc_a", "npc_b"])
        [⟨.CreatureScript, 10, true⟩, ⟨.CreatureScript, 20, true⟩,
          ⟨.CreatureScript, 10, true⟩]).isAborted = false ∧
      ((registerAll collidingEnv (World.initial ["npc_a", "npc_b"])
        [⟨.CreatureScript, 10, true⟩, ⟨.CreatureScript, 20, true⟩,
          ⟨.CreatureScript, 10, true⟩]).state.reg .CreatureScript).ScriptPointerList
        = [(5, 10)] ∧
      ((registerAll collidingEnv (World.initial ["npc_a", "npc_b"])
        [⟨.CreatureScript, 10, true⟩, ⟨.CreatureScript, 20, true⟩,
          ⟨.CreatureScript, 10, true⟩]).state.reg .CreatureScript).Scripts.count 10 = 2 := by
  decide

/-- C20 (amended): under a resolver that gives different names different IDs, for every
state reached from an empty registry by fewer than `2^32` `AddScript` calls (the `uint32`
counter of C1) that do not abort and do not opt out of `Scripts`, whatever the kind: every
object that is a value of `ScriptPointerList` occurs exactly once in `Scripts`; for a kind
without `is_script_database_bound` specialisation the values of `ScriptPointerList`, in
key order, are the list `Scripts`. -/
theorem indexed_objects_are_owned_once (env : Env) (T : Kind) (w : World)
    (regs : List Registration)
    (hinj : ∀ a b, env.GetScriptId a = env.GetScriptId b → env.GetScriptId a ≠ 0 → a = b)
    (hempty : w.reg T = Registry.empty)
    (hflag : ∀ r ∈ regs, r.kind = T → r.addToDeleteContainer = true)
    (hN : regs.length < 2 ^ 32)
    (hrun : (registerAll env w regs).isAborted = false) :
    (∀ v ∈ ((registerAll env w regs).state.reg T).ScriptPointerList.map Prod.snd,
        ((registerAll env w regs).state.reg T).Scripts.count v = 1) ∧
      (is_script_database_bound T = false →
        ((registerAll env w regs).state.reg T).ScriptPointerList.map Prod.snd =
          ((registerAll env w regs).state.reg T).Scripts) := by
  by_cases hT : is_script_database_bound T = true
  · refine ⟨?_, fun h => absurd h (by simp [hT])⟩
    exact registerAll_bound_invariant env T hT hinj regs w hflag
      (by simp [hempty, Registry.empty]) (by simp [hempty, Registry.empty])
      (by simp [hempty, Registry.empty])
  · have hseq : is_script_database_bound T = false := by simpa using hT
    obtain ⟨hm, -, hnodup⟩ := registerAll_sequential_invariant env T hseq regs w hflag
      (by simp [hempty, Registry.empty]) (by simp [hempty, Registry.empty])
      (by simp [hempty, Registry.empty]) (by simpa [hempty, Registry.empty] using hN) hrun
    have hvals : ((registerAll env w regs).state.reg T).ScriptPointerList.map Prod.snd =
        ((registerAll env w regs).state.reg T).Scripts := by
      rw [hm, List.enum_map_snd]
    refine ⟨?_, fun _ => hvals⟩
    intro v hv
    rw [hvals] at hv
    exact List.count_eq_one_of_mem hnodup hv

/-- The sample resolver gives different names different IDs. -/
theorem sampleEnv_resolver_injective (a b : String)
    (h : sampleEnv.GetScriptId a = sampleEnv.GetScriptId b)
    (hne : sampleEnv.GetScriptId a ≠ 0) : a = b := by
  simp only [sampleEnv] at h hne
  by_cases ha1 : a = "npc_a"
  · by_cases hb1 : b = "npc_a"
    · rw [ha1, hb1]
    · by_cases hb2 : b = "npc_b" <;> simp [ha1, hb1, hb2] at h
  · by_cases ha2 : a = "npc_b"
    · by_cases hb1 : b = "npc_a"
      · simp [ha1, ha2, hb1] at h
      · by_cases hb2 : b = "npc_b"
        · rw [ha2, hb2]
        · simp [ha1, ha2, hb1, hb2] at h
    · simp [ha1, ha2] at hne

theorem indexed_objects_are_owned_once_witness :
    (∀ v ∈ ((registerAll sampleEnv (World.initial ["npc_a", "npc_b"])
        [⟨.CreatureScript, 10, true⟩, ⟨.CreatureScript, 30, true⟩,
          ⟨.CreatureScript, 10, true⟩, ⟨.CreatureScript, 20, true⟩]).state.reg
          .CreatureScript).ScriptPointerList.map Prod.snd,
        ((registerAll sampleEnv (World.initial ["npc_a", "npc_b"])
          [⟨.CreatureScript, 10, true⟩, ⟨.CreatureScript, 30, true⟩,
            ⟨.CreatureScript, 10, true⟩, ⟨.CreatureScript, 20, true⟩]).state.reg
            .CreatureScript).Scripts.count v = 1) ∧
      (is_script_database_bound .CreatureScript = false →
        ((registerAll sampleEnv (World.initial ["npc_a", "npc_b"])
          [⟨.CreatureScript, 10, true⟩, ⟨.CreatureScript, 30, true⟩,
            ⟨.CreatureScript, 10, true⟩, ⟨.CreatureScript, 20, true⟩]).state.reg
            .CreatureScript).ScriptPointerList.map Prod.snd =
          ((registerAll sampleEnv (World.initial ["npc_a", "npc_b"])
            [⟨.CreatureScript, 10, true⟩, ⟨.CreatureScript, 30, true⟩,
              ⟨.CreatureScript, 10, true⟩, ⟨.CreatureScript, 20, true⟩]).state.reg
              .CreatureScript).Scripts) :=
  indexed_objects_are_owned_once sampleEnv .CreatureScript (World.initial ["npc_a", "npc_b"])
    [⟨.CreatureScript, 10, true⟩, ⟨.CreatureScript, 30, true⟩,
      ⟨.CreatureScript, 10, true⟩, ⟨.CreatureScript, 20, true⟩]
    sampleEnv_resolver_injective rfl (by decide) (by decide) (by decide)

/-! ## No instance is stored under two IDs -/

theorem mapAssign_values_nodup (m : ScriptMap) (id : Nat) (script : ScriptPtr)
    (hnodup : (m.map Prod.snd).Nodup) (hfresh : script ∉ m.map Prod.snd) :
    ((mapAssign m id script).map Prod.snd).Nodup := by
  induction m with
  | nil => simp [mapAssign]
  | cons hd tl ih =>
    obtain ⟨k, v⟩ := hd
    simp only [List.map_cons, List.nodup_cons, List.mem_cons, not_or] at hnodup hfresh
    obtain ⟨hv, htl⟩ := hnodup
    obtain ⟨hsv, hstl⟩ := hfresh
    by_cases h1 : id < k
    · simp only [mapAssign, h1, if_true, List.map_cons, List.nodup_cons, List.mem_cons, not_or]
      exact ⟨⟨hsv, hstl⟩, hv, htl⟩
    · by_cases h2 : id = k
      · subst h2
        simp only [mapAssign, lt_self_iff_false, if_false, if_true, List.map_cons,
          List.nodup_cons]
        exact ⟨hstl, htl⟩
      · simp only [mapAssign, h1, h2, if_false, List.map_cons, List.nodup_cons]
        refine ⟨?_, ih htl hstl⟩
        intro hmem
        obtain ⟨it, hit, hv1⟩ := List.mem_map.mp hmem
        rcases mem_mapAssign _ _ _ _ hit with h | h
        · rw [h] at hv1
          exact hsv hv1
        · exact hv (List.mem_map.mpr ⟨it, h, hv1⟩)

/-- One call of `AddScript`, for whatever kind and whether it returns or aborts, keeps the
values of a `ScriptPointerList` free of duplicates. -/
theorem AddScript_values_nodup (env : Env) (K T : Kind) (w : World) (script : ScriptPtr)
    (flag : Bool) (h : ((w.reg T).ScriptPointerList.map Prod.snd).Nodup) :
    (((AddScript env K w script flag).state.reg T).ScriptPointerList.map Prod.snd).Nodup := by
  by_cases hKT : T = K
  · subst hKT
    rcases AddScript_reg_cases env T w script flag with h1 | ⟨-, -, -, h1⟩ |
      ⟨-, -, hfresh, -, h1⟩ | ⟨-, hfresh, h1⟩ <;> rw [h1]
    · exact h
    · exact h
    · exact mapAssign_values_nodup _ _ _ h hfresh
    · exact mapAssign_values_nodup _ _ _ h hfresh
  · rw [AddScript_reg_of_ne env K T w script flag hKT]
    exact h

theorem registerAll_values_nodup (env : Env) (T : Kind) (regs : List Registration) :
    ∀ w : World, ((w.reg T).ScriptPointerList.map Prod.snd).Nodup →
      (((registerAll env w regs).state.reg T).ScriptPointerList.map Prod.snd).Nodup := by
  induction regs with
  | nil => intro w h; exact h
  | cons r rest ih =>
    intro w h
    have hstep := AddScript_values_nodup env r.kind T w r.script r.addToDeleteContainer h
    cases hres : AddScript env r.kind w r.script r.addToDeleteContainer with
    | aborted wm =>
      rw [hres] at hstep
      simpa [registerAll, hres, Outcome.state] using hstep
    | returned wm =>
      rw [hres] at hstep
      have := ih wm hstep
      simpa [registerAll, hres] using this

/-- C21: in every state of the registry of a kind reached from empty by `AddScript` calls
(of any kinds, with any flags, under any resolver), `ScriptPointerList` does not hold the
identical instance under two different IDs: two entries with the same instance have the
same key, and two lookups that return the same instance were made with the same ID. -/
theorem no_instance_under_two_ids (env : Env) (T : Kind) (w : World)
    (regs : List Registration) (hempty : w.reg T = Registry.empty) :
    (∀ i j script, (i, script) ∈ ((registerAll env w regs).state.reg T).ScriptPointerList →
        (j, script) ∈ ((registerAll env w regs).state.reg T).ScriptPointerList → i = j) ∧
      (∀ i j, GetScriptById (registerAll env w regs).state T i ≠ NULL →
        GetScriptById (registerAll env w regs).state T i =
          GetScriptById (registerAll env w regs).state T j → i = j) := by
  have hnodup := registerAll_values_nodup env T regs w (by simp [hempty, Registry.empty])
  have hent : ∀ i j script,
      (i, script) ∈ ((registerAll env w regs).state.reg T).ScriptPointerList →
      (j, script) ∈ ((registerAll env w regs).state.reg T).ScriptPointerList → i = j := by
    intro i j script hi hj
    have := List.inj_on_of_nodup_map hnodup hi hj rfl
    exact (Prod.mk.inj this).1
  refine ⟨hent, ?_⟩
  intro i j hne heq
  unfold GetScriptById at hne heq
  cases hi : mapFind ((registerAll env w regs).state.reg T).ScriptPointerList i with
  | none => simp [hi] at hne
  | some p =>
    cases hj : mapFind ((registerAll env w regs).state.reg T).ScriptPointerList j with
    | none =>
      simp only [hi, hj] at heq hne
      exact absurd heq hne
    | some q =>
      simp only [hi, hj] at heq
      subst heq
      exact hent i j p (mem_of_mapFind _ _ _ hi) (mem_of_mapFind _ _ _ hj)

theorem no_instance_under_two_ids_witness :
    (∀ i j script,
        (i, script) ∈ ((registerAll collidingEnv (World.initial ["npc_a", "npc_b"])
          [⟨.CreatureScript, 10, true⟩, ⟨.CreatureScript, 20, true⟩,
            ⟨.CreatureScript, 10, false⟩]).state.reg .CreatureScript).ScriptPointerList →
        (j, script) ∈ ((registerAll collidingEnv (World.initial ["npc_a", "npc_b"])
          [⟨.CreatureScript, 10, true⟩, ⟨.CreatureScript, 20, true⟩,
            ⟨.CreatureScript, 10, false⟩]).state.reg .CreatureScript).ScriptPointerList →
        i = j) ∧
      (∀ i j, GetScriptById (registerAll collidingEnv (World.initial ["npc_a", "npc_b"])
          [⟨.CreatureScript, 10, true⟩, ⟨.CreatureScript, 20, true⟩,
            ⟨.CreatureScript, 10, false⟩]).state .CreatureScript i ≠ NULL →
        GetScriptById (registerAll collidingEnv (World.initial ["npc_a", "npc_b"])
          [⟨.CreatureScript, 10, true⟩, ⟨.CreatureScript, 20, true⟩,
            ⟨.CreatureScript, 10, false⟩]).state .CreatureScript i =
          GetScriptById (registerAll collidingEnv (World.initial ["npc_a", "npc_b"])
            [⟨.CreatureScript, 10, true⟩, ⟨.CreatureScript, 20, true⟩,
              ⟨.CreatureScript, 10, false⟩]).state .CreatureScript j → i = j) :=
  no_instance_under_two_ids collidingEnv .CreatureScript (World.initial ["npc_a", "npc_b"])
    [⟨.CreatureScript, 10, true⟩, ⟨.CreatureScript, 20, true⟩, ⟨.CreatureScript, 10, false⟩]
    rfl

/-! ## Chat commands -/

theorem strcmp_neg_iff (a b : String) : strcmp a b < 0 ↔ a.toList < b.toList := by
  unfold strcmp
  by_cases h1 : a.toList < b.toList
  · rw [if_pos h1]
    exact ⟨fun _ => h1, fun _ => by decide⟩
  · rw [if_neg h1]
    by_cases h2 : b.toList < a.toList
    · rw [if_pos h2]
      exact ⟨fun h => absurd h (by decide), fun h => absurd h h1⟩
    · rw [if_neg h2]
      exact ⟨fun h => absurd h (by decide), fun h => absurd h h1⟩

theorem strcmp_nonpos_iff (a b : String) : strcmp a b ≤ 0 ↔ ¬ b.toList < a.toList := by
  unfold strcmp
  by_cases h1 : a.toList < b.toList
  · rw [if_pos h1]
    exact ⟨fun _ => lt_asymm h1, fun _ => by decide⟩
  · rw [if_neg h1]
    by_cases h2 : b.toList < a.toList
    · rw [if_pos h2]
      exact ⟨fun h => absurd h (by decide), fun h => absurd h2 h⟩
    · rw [if_neg h2]
      exact ⟨fun _ => h2, fun _ => le_refl _⟩

theorem foldl_append_commands (GetCommands : ScriptPtr → List ChatCommand) (m : ScriptMap) :
    ∀ table : List ChatCommand,
      m.foldl (fun table itr => table ++ GetCommands itr.2) table =
        table ++ (m.map Prod.snd).flatMap GetCommands := by
  induction m with
  | nil => intro table; simp
  | cons hd tl ih =>
    intro table
    simp only [List.foldl_cons, List.map_cons, List.flatMap_cons, ih, List.append_assoc]

/-- The sort of `GetChatCommands` rearranges the table and leaves it in non-decreasing
`strcmp` order of the names. -/
theorem std_sort_by_name (l : List ChatCommand) :
    List.Perm (std_sort (fun a b => decide (strcmp a.Name b.Name < 0)) l) l ∧
      (std_sort (fun a b => decide (strcmp a.Name b.Name < 0)) l).Pairwise
        (fun a b => strcmp a.Name b.Name ≤ 0) := by
  have hiff : ∀ a b : ChatCommand,
      (decide (strcmp b.Name a.Name < 0) = false) ↔ a.Name.toList ≤ b.Name.toList := by
    intro a b
    rw [decide_eq_false_iff_not, strcmp_neg_iff, not_lt]
  haveI : IsTotal ChatCommand (fun a b => decide (strcmp b.Name a.Name < 0) = false) :=
    ⟨fun a b => by
      rcases le_total a.Name.toList b.Name.toList with h | h
      · exact Or.inl ((hiff a b).mpr h)
      · exact Or.inr ((hiff b a).mpr h)⟩
  haveI : IsTrans ChatCommand (fun a b => decide (strcmp b.Name a.Name < 0) = false) :=
    ⟨fun a b c hab hbc => (hiff a c).mpr (le_trans ((hiff a b).mp hab) ((hiff b c).mp hbc))⟩
  refine ⟨List.perm_insertionSort _ l, ?_⟩
  have hsorted := List.sorted_insertionSort
    (fun a b : ChatCommand => decide (strcmp b.Name a.Name < 0) = false) l
  refine List.Pairwise.imp ?_ hsorted
  intro a b hab
  rw [strcmp_nonpos_iff]
  exact not_lt.mpr ((hiff a b).mp hab)

/-- C26: `ScriptMgr::GetChatCommands` returns a permutation of the concatenation of
`GetCommands()` of every command script of `ScriptPointerList`, sorted in non-decreasing
`strcmp` order of the command names; it returns the empty list when no command script is
registered. -/
theorem chat_commands_sorted_permutation (GetCommands : ScriptPtr → List ChatCommand)
    (w : World) :
    List.Perm (GetChatCommands GetCommands w)
        (((w.reg .CommandScript).ScriptPointerList.map Prod.snd).flatMap GetCommands) ∧
      (GetChatCommands GetCommands w).Pairwise (fun a b => strcmp a.Name b.Name ≤ 0) ∧
      ((w.reg .CommandScript).ScriptPointerList = [] → GetChatCommands GetCommands w = []) := by
  unfold GetChatCommands
  cases hm : (w.reg .CommandScript).ScriptPointerList with
  | nil => simp
  | cons hd tl =>
    simp only [List.isEmpty_cons, Bool.false_eq_true, if_false, foldl_append_commands,
      List.nil_append]
    exact ⟨(std_sort_by_name _).1, (std_sort_by_name _).2, fun h => by simp at h⟩


/-! ## Spell script factories -/

theorem CreateSpellScripts_step_eq (env : Env) (senv : SpellEnv) (spellId : Nat) :
    CreateSpellScripts_step env senv spellId =
      factoryStep env senv.GetSpellScript SpellEvent.GetSpellScript spellId := rfl

theorem CreateAuraScripts_step_eq (env : Env) (senv : SpellEnv) (spellId : Nat) :
    CreateAuraScripts_step env senv spellId =
      factoryStep env senv.GetAuraScript SpellEvent.GetAuraScript spellId := rfl

theorem foundLoaders_cons_null (w : World) (itr : Nat × Nat) (range : List (Nat × Nat))
    (h : GetScriptById w .SpellScriptLoader itr.2 = NULL) :
    foundLoaders w (itr :: range) = foundLoaders w range := by
  simp [foundLoaders, h]

theorem foundLoaders_cons_found (w : World) (itr : Nat × Nat) (range : List (Nat × Nat))
    (h : GetScriptById w .SpellScriptLoader itr.2 ≠ NULL) :
    foundLoaders w (itr :: range) =
      GetScriptById w .SpellScriptLoader itr.2 :: foundLoaders w range := by
  simp [foundLoaders, h]

/-- The whole effect of a factory loop over a range, from any state. -/
theorem foldl_factoryStep (env : Env) (factory : ScriptPtr → Nat → ScriptPtr)
    (event : ScriptPtr → SpellEvent) (spellId : Nat) (range : List (Nat × Nat)) :
    ∀ st : SpellCall,
      (range.foldl (factoryStep env factory event spellId) st).world = st.world ∧
      (range.foldl (factoryStep env factory event spellId) st).scriptVector =
        st.scriptVector ++ appendedScripts factory st.world range st.made ∧
      (range.foldl (factoryStep env factory event spellId) st).made =
        st.made + (foundLoaders st.world range).length ∧
      (range.foldl (factoryStep env factory event spellId) st).events =
        st.events ++
          factoryEvents env event spellId (factoryResults factory st.world range st.made) := by
  induction range with
  | nil =>
    intro st
    simp [appendedScripts, factoryResults, foundLoaders, factoryEvents]
  | cons itr range ih =>
    intro st
    rw [List.foldl_cons]
    by_cases hnull : GetScriptById st.world .SpellScriptLoader itr.2 = NULL
    · have hstep : factoryStep env factory event spellId st itr = st := by
        simp [factoryStep, hnull]
      rw [hstep]
      simp only [appendedScripts, factoryResults, foundLoaders_cons_null _ _ _ hnull]
      simpa [appendedScripts, factoryResults] using ih st
    · by_cases hs : factory (GetScriptById st.world .SpellScriptLoader itr.2) st.made = NULL
      · obtain ⟨h1, h2, h3, h4⟩ := ih (factoryStep env factory event spellId st itr)
        have hw : (factoryStep env factory event spellId st itr).world = st.world := by
          simp [factoryStep, hnull, hs]
        have hv : (factoryStep env factory event spellId st itr).scriptVector =
            st.scriptVector := by
          simp [factoryStep, hnull, hs]
        have hm : (factoryStep env factory event spellId st itr).made = st.made + 1 := by
          simp [factoryStep, hnull, hs]
        have he : (factoryStep env factory event spellId st itr).events =
            st.events ++ [event (GetScriptById st.world .SpellScriptLoader itr.2)] := by
          simp [factoryStep, hnull, hs]
        rw [hw] at h1 h2 h3 h4
        rw [hm] at h2 h3 h4
        rw [hv] at h2
        rw [he] at h4
        refine ⟨h1, ?_, ?_, ?_⟩
        · rw [h2]
          simp [appendedScripts, factoryResults, foundLoaders_cons_found _ _ _ hnull,
            List.enumFrom_cons, hs]
        · rw [h3]
          simp [foundLoaders_cons_found _ _ _ hnull]
          omega
        · rw [h4]
          simp [factoryEvents, factoryResults, foundLoaders_cons_found _ _ _ hnull,
            List.enumFrom_cons, hs]
      · obtain ⟨h1, h2, h3, h4⟩ := ih (factoryStep env factory event spellId st itr)
        have hw : (factoryStep env factory event spellId st itr).world = st.world := by
          simp [factoryStep, hnull, hs]
        have hv : (factoryStep env factory event spellId st itr).scriptVector =
            st.scriptVector ++
              [factory (GetScriptById st.world .SpellScriptLoader itr.2) st.made] := by
          simp [factoryStep, hnull, hs]
        have hm : (factoryStep env factory event spellId st itr).made = st.made + 1 := by
          simp [factoryStep, hnull, hs]
        have he : (factoryStep env factory event spellId st itr).events =
            st.events ++ [event (GetScriptById st.world .SpellScriptLoader itr.2),
              .Init (factory (GetScriptById st.world .SpellScriptLoader itr.2) st.made)
                (env.GetName (GetScriptById st.world .SpellScriptLoader itr.2)) spellId] := by
          simp [factoryStep, hnull, hs]
        rw [hw] at h1 h2 h3 h4
        rw [hm] at h2 h3 h4
        rw [hv] at h2
        rw [he] at h4
        refine ⟨h1, ?_, ?_, ?_⟩
        · rw [h2]
          simp [appendedScripts, factoryResults, foundLoaders_cons_found _ _ _ hnull,
            List.enumFrom_cons, hs]
        · rw [h3]
          simp [foundLoaders_cons_found _ _ _ hnull]
          omega
        · rw [h4]
          simp [factoryEvents, factoryResults, foundLoaders_cons_found _ _ _ hnull,
            List.enumFrom_cons, hs]


theorem CreateSpellScripts_spec (env : Env) (senv : SpellEnv) (spellId : Nat)
    (st : SpellCall) :
    (CreateSpellScripts env senv spellId st).world = st.world ∧
    (CreateSpellScripts env senv spellId st).scriptVector =
      st.scriptVector ++
        appendedScripts senv.GetSpellScript st.world (senv.GetSpellScriptsBounds spellId)
          st.made ∧
    (CreateSpellScripts env senv spellId st).made =
      st.made + (foundLoaders st.world (senv.GetSpellScriptsBounds spellId)).length ∧
    (CreateSpellScripts env senv spellId st).events =
      st.events ++
        factoryEvents env SpellEvent.GetSpellScript spellId
          (factoryResults senv.GetSpellScript st.world (senv.GetSpellScriptsBounds spellId)
            st.made) := by
  unfold CreateSpellScripts
  rw [CreateSpellScripts_step_eq]
  exact foldl_factoryStep env senv.GetSpellScript SpellEvent.GetSpellScript spellId _ st

theorem CreateAuraScripts_spec (env : Env) (senv : SpellEnv) (spellId : Nat)
    (st : SpellCall) :
    (CreateAuraScripts env senv spellId st).world = st.world ∧
    (CreateAuraScripts env senv spellId st).scriptVector =
      st.scriptVector ++
        appendedScripts senv.GetAuraScript st.world (senv.GetSpellScriptsBounds spellId)
          st.made ∧
    (CreateAuraScripts env senv spellId st).made =
      st.made + (foundLoaders st.world (senv.GetSpellScriptsBounds spellId)).length ∧
    (CreateAuraScripts env senv spellId st).events =
      st.events ++
        factoryEvents env SpellEvent.GetAuraScript spellId
          (factoryResults senv.GetAuraScript st.world (senv.GetSpellScriptsBounds spellId)
            st.made) := by
  unfold CreateAuraScripts
  rw [CreateAuraScripts_step_eq]
  exact foldl_factoryStep env senv.GetAuraScript SpellEvent.GetAuraScript spellId _ st

theorem foundLoaders_length_le (w : World) (range : List (Nat × Nat)) :
    (foundLoaders w range).length ≤ range.length := by
  unfold foundLoaders
  exact (List.length_filter_le _ _).trans (by simp)

theorem appendedScripts_length_le (factory : ScriptPtr → Nat → ScriptPtr) (w : World)
    (range : List (Nat × Nat)) (made : Nat) :
    (appendedScripts factory w range made).length ≤ (foundLoaders w range).length := by
  unfold appendedScripts factoryResults
  exact (List.length_filter_le _ _).trans (by simp)

theorem not_null_of_mem_appendedScripts (factory : ScriptPtr → Nat → ScriptPtr) (w : World)
    (range : List (Nat × Nat)) (made : Nat) (script : ScriptPtr)
    (h : script ∈ appendedScripts factory w range made) : script ≠ NULL := by
  unfold appendedScripts at h
  simpa using (List.mem_filter.1 h).2

/-- Every appended script is the non-null result of a loader found, at some call number of
this factory call. -/
theorem mem_appendedScripts (factory : ScriptPtr → Nat → ScriptPtr) (w : World)
    (range : List (Nat × Nat)) (made : Nat) (script : ScriptPtr)
    (h : script ∈ appendedScripts factory w range made) :
    ∃ loader n, (loader, script) ∈ factoryResults factory w range made ∧
      loader ∈ foundLoaders w range ∧ made ≤ n ∧
      n < made + (foundLoaders w range).length ∧ script = factory loader n := by
  unfold appendedScripts at h
  obtain ⟨hmem, -⟩ := List.mem_filter.1 h
  obtain ⟨⟨loader, s⟩, hr, hs⟩ := List.mem_map.1 hmem
  simp only at hs
  subst hs
  refine ⟨loader, ?_⟩
  have hr2 := hr
  unfold factoryResults at hr2
  obtain ⟨⟨n, l⟩, hnl, heq⟩ := List.mem_map.1 hr2
  simp only [Prod.mk.injEq] at heq
  obtain ⟨h1, h2⟩ := heq
  subst h1
  have hb := List.mem_enumFrom hnl
  exact ⟨n, hr, hb.2.2 ▸ List.getElem_mem _, hb.1, hb.2.1, h2.symm⟩

theorem init_mem_factoryEvents (env : Env) (event : ScriptPtr → SpellEvent) (spellId : Nat)
    (results : List (ScriptPtr × ScriptPtr)) (loader script : ScriptPtr)
    (h : (loader, script) ∈ results) (hs : script ≠ NULL) :
    SpellEvent.Init script (env.GetName loader) spellId ∈
      factoryEvents env event spellId results := by
  unfold factoryEvents
  refine List.mem_flatMap.2 ⟨(loader, script), h, ?_⟩
  simp [hs]


theorem foldl_CreateSpellScriptLoaders (w : World) (range : List (Nat × Nat)) :
    ∀ (n : Nat) (out : List (ScriptPtr × Nat)),
      ((range.enumFrom n).foldl
        (fun out itr =>
          let tmpscript := GetScriptById w .SpellScriptLoader itr.2.2
          if tmpscript = NULL then out else out ++ [(tmpscript, itr.1)])
        out).map Prod.fst = out.map Prod.fst ++ foundLoaders w range := by
  induction range with
  | nil => intro n out; simp [foundLoaders]
  | cons itr range ih =>
    intro n out
    rw [List.enumFrom_cons, List.foldl_cons]
    by_cases hnull : GetScriptById w .SpellScriptLoader itr.2 = NULL
    · simp only [hnull, if_true]
      rw [ih, foundLoaders_cons_null _ _ _ hnull]
    · simp only [hnull, if_false]
      rw [ih, foundLoaders_cons_found _ _ _ hnull]
      simp

/-- C25: `CreateSpellScripts(spellId, out)` keeps what is already in `out` as a prefix and
appends, in range order, exactly the non-null results of `GetSpellScript` of the loaders
that `GetScriptById` finds (the loaders `CreateSpellScriptLoaders` lists); no null is
appended, every appended script got `_Init` with the name of the loader that returned it
and `spellId`, and at most one script is appended per pair of the range. -/
theorem CreateSpellScripts_appends_non_null_results (env : Env) (senv : SpellEnv)
    (spellId : Nat) (st : SpellCall) :
    (CreateSpellScripts env senv spellId st).scriptVector =
      st.scriptVector ++
        ((((foundLoaders st.world (senv.GetSpellScriptsBounds spellId)).enumFrom st.made).map
          (fun nl => senv.GetSpellScript nl.2 nl.1)).filter (fun script => script != NULL)) ∧
    (CreateSpellScriptLoaders senv st.world spellId []).map Prod.fst =
      foundLoaders st.world (senv.GetSpellScriptsBounds spellId) ∧
    (∀ script, script ∈ (CreateSpellScripts env senv spellId st).scriptVector →
      script ∈ st.scriptVector ∨
        (script ≠ NULL ∧
          ∃ loader n, loader ∈ foundLoaders st.world (senv.GetSpellScriptsBounds spellId) ∧
            script = senv.GetSpellScript loader n ∧
            SpellEvent.Init script (env.GetName loader) spellId ∈
              (CreateSpellScripts env senv spellId st).events)) ∧
    (CreateSpellScripts env senv spellId st).scriptVector.length ≤
      st.scriptVector.length + (senv.GetSpellScriptsBounds spellId).length := by
  obtain ⟨-, hv, -, he⟩ := CreateSpellScripts_spec env senv spellId st
  refine ⟨?_, ?_, ?_, ?_⟩
  · rw [hv]
    simp [appendedScripts, factoryResults, List.map_map, Function.comp_def]
  · unfold CreateSpellScriptLoaders
    rw [List.enum, foldl_CreateSpellScriptLoaders]
    simp
  · intro script hmem
    rw [hv] at hmem
    rcases List.mem_append.1 hmem with h | h
    · exact Or.inl h
    · right
      have hnn := not_null_of_mem_appendedScripts _ _ _ _ _ h
      obtain ⟨loader, n, hr, hl, -, -, hs⟩ := mem_appendedScripts _ _ _ _ _ h
      refine ⟨hnn, loader, n, hl, hs, ?_⟩
      rw [he]
      exact List.mem_append_right _ (init_mem_factoryEvents env _ spellId _ loader script hr hnn)
  · rw [hv, List.length_append]
    have h1 := appendedScripts_length_le senv.GetSpellScript st.world
      (senv.GetSpellScriptsBounds spellId) st.made
    have h2 := foundLoaders_length_le st.world (senv.GetSpellScriptsBounds spellId)
    omega


theorem foundLoaders_append (w : World) (a b : List (Nat × Nat)) :
    foundLoaders w (a ++ b) = foundLoaders w a ++ foundLoaders w b := by
  simp [foundLoaders]

theorem appendedScripts_append (factory : ScriptPtr → Nat → ScriptPtr) (w : World)
    (a b : List (Nat × Nat)) (made : Nat) :
    appendedScripts factory w (a ++ b) made =
      appendedScripts factory w a made ++
        appendedScripts factory w b (made + (foundLoaders w a).length) := by
  simp [appendedScripts, factoryResults, foundLoaders_append, List.enumFrom_append]

theorem appendedScripts_singleton (factory : ScriptPtr → Nat → ScriptPtr) (w : World)
    (itr : Nat × Nat) (made : Nat) :
    appendedScripts factory w [itr] made =
      if GetScriptById w .SpellScriptLoader itr.2 ≠ NULL ∧
          factory (GetScriptById w .SpellScriptLoader itr.2) made ≠ NULL
      then [factory (GetScriptById w .SpellScriptLoader itr.2) made] else [] := by
  by_cases hnull : GetScriptById w .SpellScriptLoader itr.2 = NULL
  · simp [appendedScripts, factoryResults, foundLoaders, hnull]
  · by_cases hs : factory (GetScriptById w .SpellScriptLoader itr.2) made = NULL
    · simp [appendedScripts, factoryResults, foundLoaders, hnull, hs]
    · simp [appendedScripts, factoryResults, foundLoaders, hnull, hs]

theorem appendedScripts_split (factory : ScriptPtr → Nat → ScriptPtr) (w : World)
    (pre post : List (Nat × Nat)) (itr : Nat × Nat) (made : Nat) :
    appendedScripts factory w (pre ++ itr :: post) made =
      appendedScripts factory w pre made ++
        (if GetScriptById w .SpellScriptLoader itr.2 ≠ NULL ∧
            factory (GetScriptById w .SpellScriptLoader itr.2)
              (made + (foundLoaders w pre).length) ≠ NULL
          then [factory (GetScriptById w .SpellScriptLoader itr.2)
            (made + (foundLoaders w pre).length)]
          else []) ++
        appendedScripts factory w post (made + (foundLoaders w (pre ++ [itr])).length) := by
  have hsplit : pre ++ itr :: post = (pre ++ [itr]) ++ post := by simp
  rw [hsplit, appendedScripts_append, appendedScripts_append, appendedScripts_singleton]

/-- C22 (counterexample): both loaders of the pairs with the IDs 5 and 7 are registered,
yet `CreateSpellScripts` appends one instance only for the three pairs of spell 133,
because the loader at 20 returns null from `GetSpellScript`; `CreateAuraScripts` likewise
appends one only, because the loader at 10 returns null from `GetAuraScript`. -/
theorem registered_loader_returning_null_appends_nothing :
    GetScriptById sampleSpellWorld .SpellScriptLoader 5 = 10 ∧
    GetScriptById sampleSpellWorld .SpellScriptLoader 9 = NULL ∧
    GetScriptById sampleSpellWorld .SpellScriptLoader 7 = 20 ∧
    sampleSpellEnv.GetSpellScriptsBounds 133 = [(133, 5), (133, 9), (133, 7)] ∧
    (CreateSpellScripts sampleEnv sampleSpellEnv 133 sampleSpellCall).scriptVector = [100] ∧
    (CreateAuraScripts sampleEnv sampleSpellEnv 133 sampleSpellCall).scriptVector = [201] := by
  decide

/-- C22 (amended): for every pair of the range, `CreateSpellScripts` (and likewise
`CreateAuraScripts`) appends exactly one instance when the loader ID of the pair is
registered and the loader returns a script that is not null, and nothing otherwise; the
instances stand in range order after what the output held: first those of the pairs
before, then the one of this pair, then those of the pairs after. -/
theorem factories_append_one_per_productive_pair (env : Env) (senv : SpellEnv)
    (spellId : Nat) (st : SpellCall) (pre post : List (Nat × Nat)) (itr : Nat × Nat)
    (hrange : senv.GetSpellScriptsBounds spellId = pre ++ itr :: post) :
    (CreateSpellScripts env senv spellId st).scriptVector =
      st.scriptVector ++
        (appendedScripts senv.GetSpellScript st.world pre st.made ++
          (if GetScriptById st.world .SpellScriptLoader itr.2 ≠ NULL ∧
              senv.GetSpellScript (GetScriptById st.world .SpellScriptLoader itr.2)
                (st.made + (foundLoaders st.world pre).length) ≠ NULL
            then [senv.GetSpellScript (GetScriptById st.world .SpellScriptLoader itr.2)
              (st.made + (foundLoaders st.world pre).length)]
            else []) ++
          appendedScripts senv.GetSpellScript st.world post
            (st.made + (foundLoaders st.world (pre ++ [itr])).length)) ∧
    (CreateAuraScripts env senv spellId st).scriptVector =
      st.scriptVector ++
        (appendedScripts senv.GetAuraScript st.world pre st.made ++
          (if GetScriptById st.world .SpellScriptLoader itr.2 ≠ NULL ∧
              senv.GetAuraScript (GetScriptById st.world .SpellScriptLoader itr.2)
                (st.made + (foundLoaders st.world pre).length) ≠ NULL
            then [senv.GetAuraScript (GetScriptById st.world .SpellScriptLoader itr.2)
              (st.made + (foundLoaders st.world pre).length)]
            else []) ++
          appendedScripts senv.GetAuraScript st.world post
            (st.made + (foundLoaders st.world (pre ++ [itr])).length)) := by
  obtain ⟨-, hv, -, -⟩ := CreateSpellScripts_spec env senv spellId st
  obtain ⟨-, ha, -, -⟩ := CreateAuraScripts_spec env senv spellId st
  rw [hv, ha, hrange, appendedScripts_split, appendedScripts_split]
  exact ⟨rfl, rfl⟩

theorem factories_append_one_per_productive_pair_witness :
    sampleSpellEnv.GetSpellScriptsBounds 133 = [(133, 5), (133, 9)] ++ (133, 7) :: [] ∧
    (CreateSpellScripts sampleEnv sampleSpellEnv 133 sampleSpellCall).scriptVector =
      sampleSpellCall.scriptVector ++
        (appendedScripts sampleSpellEnv.GetSpellScript sampleSpellCall.world
            [(133, 5), (133, 9)] sampleSpellCall.made ++
          (if GetScriptById sampleSpellCall.world .SpellScriptLoader (133, 7).2 ≠ NULL ∧
              sampleSpellEnv.GetSpellScript
                (GetScriptById sampleSpellCall.world .SpellScriptLoader (133, 7).2)
                (sampleSpellCall.made +
                  (foundLoaders sampleSpellCall.world [(133, 5), (133, 9)]).length) ≠ NULL
            then [sampleSpellEnv.GetSpellScript
              (GetScriptById sampleSpellCall.world .SpellScriptLoader (133, 7).2)
              (sampleSpellCall.made +
                (foundLoaders sampleSpellCall.world [(133, 5), (133, 9)]).length)]
            else []) ++
          appendedScripts sampleSpellEnv.GetSpellScript sampleSpellCall.world []
            (sampleSpellCall.made +
              (foundLoaders sampleSpellCall.world ([(133, 5), (133, 9)] ++ [(133, 7)])).length)) :=
  ⟨rfl, (factories_append_one_per_productive_pair sampleEnv sampleSpellEnv 133 sampleSpellCall
    [(133, 5), (133, 9)] [] (133, 7) rfl).1⟩


theorem factoryCalls_factoryEvents (env : Env) (factory : ScriptPtr → Nat → ScriptPtr)
    (spellId : Nat) (loaders : List ScriptPtr) :
    ∀ n, factoryCalls (factoryEvents env SpellEvent.GetSpellScript spellId
      ((loaders.enumFrom n).map (fun nl => (nl.2, factory nl.2 nl.1)))) = loaders := by
  induction loaders with
  | nil => intro n; simp [factoryCalls, factoryEvents]
  | cons l ls ih =>
    intro n
    have h := ih (n + 1)
    unfold factoryCalls factoryEvents at h ⊢
    rw [List.enumFrom_cons, List.map_cons, List.flatMap_cons, List.filterMap_append, h]
    by_cases hs : factory l n = NULL
    · simp [hs]
    · simp [hs]

/-- C23: two calls of `CreateSpellScripts` for the same spell ID, the second with an output
list of its own. Each call asks every registered loader of the range once, in range order,
and nothing is kept from one call to the next; when the loaders return a new object on
each invocation, no instance appended by the first call is appended by the second; the
registries are the same after both calls as before. -/
theorem factory_freshness (env : Env) (senv : SpellEnv) (spellId : Nat) (st : SpellCall)
    (out2 : List ScriptPtr)
    (hfresh : ∀ l l' n n', n ≠ n' → senv.GetSpellScript l n ≠ NULL →
      senv.GetSpellScript l n ≠ senv.GetSpellScript l' n') :
    ∃ (a1 a2 : List ScriptPtr) (e1 e2 : List SpellEvent),
      (CreateSpellScripts env senv spellId st).scriptVector = st.scriptVector ++ a1 ∧
      (CreateSpellScripts env senv spellId
        ⟨(CreateSpellScripts env senv spellId st).world, out2,
          (CreateSpellScripts env senv spellId st).made,
          (CreateSpellScripts env senv spellId st).events⟩).scriptVector = out2 ++ a2 ∧
      (∀ script, script ∈ a1 → script ∉ a2) ∧
      (CreateSpellScripts env senv spellId st).events = st.events ++ e1 ∧
      (CreateSpellScripts env senv spellId
        ⟨(CreateSpellScripts env senv spellId st).world, out2,
          (CreateSpellScripts env senv spellId st).made,
          (CreateSpellScripts env senv spellId st).events⟩).events =
        st.events ++ e1 ++ e2 ∧
      factoryCalls e1 = foundLoaders st.world (senv.GetSpellScriptsBounds spellId) ∧
      factoryCalls e2 = foundLoaders st.world (senv.GetSpellScriptsBounds spellId) ∧
      (CreateSpellScripts env senv spellId st).world = st.world ∧
      (CreateSpellScripts env senv spellId
        ⟨(CreateSpellScripts env senv spellId st).world, out2,
          (CreateSpellScripts env senv spellId st).made,
          (CreateSpellScripts env senv spellId st).events⟩).world = st.world := by
  obtain ⟨hw, hv, hm, he⟩ := CreateSpellScripts_spec env senv spellId st
  obtain ⟨hw2, hv2, -, he2⟩ := CreateSpellScripts_spec env senv spellId
    ⟨(CreateSpellScripts env senv spellId st).world, out2,
      (CreateSpellScripts env senv spellId st).made,
      (CreateSpellScripts env senv spellId st).events⟩
  simp only [hw, hm, he] at hw2 hv2 he2
  refine ⟨appendedScripts senv.GetSpellScript st.world (senv.GetSpellScriptsBounds spellId)
      st.made,
    appendedScripts senv.GetSpellScript st.world (senv.GetSpellScriptsBounds spellId)
      (st.made + (foundLoaders st.world (senv.GetSpellScriptsBounds spellId)).length),
    factoryEvents env SpellEvent.GetSpellScript spellId
      (factoryResults senv.GetSpellScript st.world (senv.GetSpellScriptsBounds spellId)
        st.made),
    factoryEvents env SpellEvent.GetSpellScript spellId
      (factoryResults senv.GetSpellScript st.world (senv.GetSpellScriptsBounds spellId)
        (st.made + (foundLoaders st.world (senv.GetSpellScriptsBounds spellId)).length)), ?_⟩
  simp only [hw, hm, he]
  refine ⟨hv, hv2, ?_, trivial, he2, ?_, ?_, trivial, hw2⟩
  · intro script h1 h2
    have hnn := not_null_of_mem_appendedScripts _ _ _ _ _ h1
    obtain ⟨l, n, -, -, -, hn, hs⟩ := mem_appendedScripts _ _ _ _ _ h1
    obtain ⟨l', n', -, -, hn', -, hs'⟩ := mem_appendedScripts _ _ _ _ _ h2
    have hne : n ≠ n' := by omega
    rw [hs] at hnn
    exact hfresh l l' n n' hne hnn (hs.symm.trans hs')
  · exact factoryCalls_factoryEvents env _ spellId _ _
  · exact factoryCalls_factoryEvents env _ spellId _ _

theorem sampleSpellEnv_fresh (l l' n n' : Nat) (hne : n ≠ n')
    (hs : sampleSpellEnv.GetSpellScript l n ≠ NULL) :
    sampleSpellEnv.GetSpellScript l n ≠ sampleSpellEnv.GetSpellScript l' n' := by
  simp only [sampleSpellEnv, NULL] at hs ⊢
  by_cases h : l = 10
  · by_cases h' : l' = 10
    · simp only [h, h', if_true]
      change (100 + n : Nat) ≠ 100 + n'
      omega
    · simp only [h, h', if_true, if_false]
      change (100 + n : Nat) ≠ 0
      omega
  · simp [h] at hs

theorem factory_freshness_witness :
    ∃ (a1 a2 : List ScriptPtr) (e1 e2 : List SpellEvent),
      (CreateSpellScripts sampleEnv sampleSpellEnv 133 sampleSpellCall).scriptVector =
        sampleSpellCall.scriptVector ++ a1 ∧
      (CreateSpellScripts sampleEnv sampleSpellEnv 133
        ⟨(CreateSpellScripts sampleEnv sampleSpellEnv 133 sampleSpellCall).world, [],
          (CreateSpellScripts sampleEnv sampleSpellEnv 133 sampleSpellCall).made,
          (CreateSpellScripts sampleEnv sampleSpellEnv 133 sampleSpellCall).events⟩).scriptVector =
        [] ++ a2 ∧
      (∀ script, script ∈ a1 → script ∉ a2) ∧
      (CreateSpellScripts sampleEnv sampleSpellEnv 133 sampleSpellCall).events =
        sampleSpellCall.events ++ e1 ∧
      (CreateSpellScripts sampleEnv sampleSpellEnv 133
        ⟨(CreateSpellScripts sampleEnv sampleSpellEnv 133 sampleSpellCall).world, [],
          (CreateSpellScripts sampleEnv sampleSpellEnv 133 sampleSpellCall).made,
          (CreateSpellScripts sampleEnv sampleSpellEnv 133 sampleSpellCall).events⟩).events =
        sampleSpellCall.events ++ e1 ++ e2 ∧
      factoryCalls e1 =
        foundLoaders sampleSpellCall.world (sampleSpellEnv.GetSpellScriptsBounds 133) ∧
      factoryCalls e2 =
        foundLoaders sampleSpellCall.world (sampleSpellEnv.GetSpellScriptsBounds 133) ∧
      (CreateSpellScripts sampleEnv sampleSpellEnv 133 sampleSpellCall).world =
        sampleSpellCall.world ∧
      (CreateSpellScripts sampleEnv sampleSpellEnv 133
        ⟨(CreateSpellScripts sampleEnv sampleSpellEnv 133 sampleSpellCall).world, [],
          (CreateSpellScripts sampleEnv sampleSpellEnv 133 sampleSpellCall).made,
          (CreateSpellScripts sampleEnv sampleSpellEnv 133 sampleSpellCall).events⟩).world =
        sampleSpellCall.world :=
  factory_freshness sampleEnv sampleSpellEnv 133 sampleSpellCall [] sampleSpellEnv_fresh


/-! ## Start-up -/

theorem Outcome.eq_returned_of_not_aborted {σ : Type} (o : Outcome σ)
    (h : o.isAborted = false) : o = .returned o.state := by
  cases o with
  | returned s => rfl
  | aborted s => simp [Outcome.isAborted] at h

theorem Initialize_callback_aborted (env : Env) (ienv : InitEnv) (w w1 w2 : World)
    (callback : World → Outcome World) (hsome : ienv._script_loader_callback = some callback)
    (hsmart : ienv.AddSC_SmartScripts w = .returned w1) (hcb : callback w1 = .aborted w2) :
    Initialize env ienv w =
      .aborted (w2, [.LoadDatabase, .loadingScripts, .FillSpellSummary, .AddSC_SmartScripts,
        .script_loader_callback]) := by
  simp [Initialize, hsome, hsmart, hcb]

theorem Initialize_callback_returned (env : Env) (ienv : InitEnv) (w w1 w2 : World)
    (callback : World → Outcome World) (hsome : ienv._script_loader_callback = some callback)
    (hsmart : ienv.AddSC_SmartScripts w = .returned w1) (hcb : callback w1 = .returned w2) :
    Initialize env ienv w =
      .returned (w2,
        [.LoadDatabase, .loadingScripts, .FillSpellSummary, .AddSC_SmartScripts,
          .script_loader_callback] ++
          ((reportUnusedScriptNames env w2).map InitEvent.error ++ [.loaded])) := by
  simp [Initialize, hsome, hsmart, hcb]

/-- C24: `Initialize` aborts when `_script_loader_callback` is null, and then the callback
step is never made. When a callback is set (and the process is still running after
`AddSC_SmartScripts`), `Initialize` aborts only if the callback itself does; the callback is
called exactly once, on the state `AddSC_SmartScripts` left; no error line of the report
stands before the call, and when the callback returns the steps after it are exactly the
report of the names unused in the state the callback left, then the closing line. -/
theorem Initialize_requires_callback_and_calls_it_once (env : Env) (ienv : InitEnv)
    (w : World) :
    (ienv._script_loader_callback = none →
      (Initialize env ienv w).isAborted = true ∧
        InitEvent.script_loader_callback ∉ (Initialize env ienv w).state.2) ∧
    (∀ callback w1, ienv._script_loader_callback = some callback →
      ienv.AddSC_SmartScripts w = .returned w1 →
        (Initialize env ienv w).isAborted = (callback w1).isAborted ∧
        (Initialize env ienv w).state.1 = (callback w1).state ∧
        (Initialize env ienv w).state.2.count InitEvent.script_loader_callback = 1 ∧
        ∃ before after,
          (Initialize env ienv w).state.2 =
            before ++ [InitEvent.script_loader_callback] ++ after ∧
          (∀ line, InitEvent.error line ∉ before) ∧
          ((callback w1).isAborted = false →
            after = (reportUnusedScriptNames env (callback w1).state).map InitEvent.error ++
              [InitEvent.loaded])) := by
  constructor
  · intro hnone
    unfold Initialize
    rw [hnone]
    cases ienv.AddSC_SmartScripts w <;> simp [Outcome.isAborted, Outcome.state]
  · intro callback w1 hsome hsmart
    cases hcb : callback w1 with
    | aborted w2 =>
      rw [Initialize_callback_aborted env ienv w w1 w2 callback hsome hsmart hcb]
      refine ⟨rfl, rfl, ?_, ?_⟩
      · simp [Outcome.state, List.count_cons]
      · refine ⟨[.LoadDatabase, .loadingScripts, .FillSpellSummary, .AddSC_SmartScripts], [],
          ?_, ?_, ?_⟩
        · simp [Outcome.state]
        · intro line; simp
        · intro h; simp [Outcome.isAborted] at h
    | returned w2 =>
      rw [Initialize_callback_returned env ienv w w1 w2 callback hsome hsmart hcb]
      refine ⟨rfl, rfl, ?_, ?_⟩
      · simp [Outcome.state, List.count_cons, List.count_eq_zero]
      · refine ⟨[.LoadDatabase, .loadingScripts, .FillSpellSummary, .AddSC_SmartScripts],
          (reportUnusedScriptNames env w2).map InitEvent.error ++ [InitEvent.loaded],
          ?_, ?_, ?_⟩
        · simp [Outcome.state]
        · intro line; simp
        · intro _; rfl

theorem Initialize_requires_callback_and_calls_it_once_witness :
    (Initialize sampleEnv sampleInitEnv (World.initial ["npc_a", "npc_b"])).isAborted =
        (registerAll sampleEnv (World.initial ["npc_a", "npc_b"])
          [⟨.CreatureScript, 10, true⟩]).isAborted ∧
      (Initialize sampleEnv sampleInitEnv (World.initial ["npc_a", "npc_b"])).state.2.count
        InitEvent.script_loader_callback = 1 :=
  ⟨((Initialize_requires_callback_and_calls_it_once sampleEnv sampleInitEnv
      (World.initial ["npc_a", "npc_b"])).2 _ _ rfl rfl).1,
    ((Initialize_requires_callback_and_calls_it_once sampleEnv sampleInitEnv
      (World.initial ["npc_a", "npc_b"])).2 _ _ rfl rfl).2.2.1⟩


/-! ## Spell summary -/

theorem orIf_lt (cond : Bool) (x c : Nat) (hx : x < 2 ^ 8) : orIf cond x c < 2 ^ 8 := by
  unfold orIf
  split
  · exact Nat.mod_lt _ (by norm_num)
  · exact hx

theorem testBit_orIf (cond : Bool) (x c k : Nat) (hx : x < 2 ^ 8) (h1 : 1 ≤ c)
    (h8 : c ≤ 8) :
    (orIf cond x c).testBit k = (x.testBit k || (cond && (k + 1 == c))) := by
  cases cond with
  | false => simp [orIf]
  | true =>
    simp only [orIf, if_true, Bool.true_and]
    rw [Nat.testBit_mod_two_pow, Nat.testBit_or, Nat.one_shiftLeft, Nat.testBit_two_pow]
    by_cases hk : k < 8
    · have hiff : (c - 1 = k) ↔ (k + 1 = c) := by omega
      by_cases hc : k + 1 = c
      · simp [hk, hiff, hc]
      · simp [hk, hiff, hc]
    · have hxk : x.testBit k = false := by
        apply Nat.testBit_lt_two_pow
        exact lt_of_lt_of_le hx (Nat.pow_le_pow_right (by norm_num) (by omega))
      have hne : ¬ (k + 1 = c) := by omega
      simp [hk, hxk, hne]

theorem summaryStep_Targets (K : SpellConstants) (s : TSpellSummary) (e : SpellEffectInfo) :
    (summaryStep K s e).Targets =
      (targetRules K).foldl (fun t r => orIf (r.1 e) t r.2) s.Targets := rfl

theorem summaryStep_Effects (K : SpellConstants) (s : TSpellSummary) (e : SpellEffectInfo) :
    (summaryStep K s e).Effects =
      (effectRules K).foldl (fun t r => orIf (r.1 e) t r.2) s.Effects := rfl

theorem foldl_rules_testBit (e : SpellEffectInfo)
    (rules : List ((SpellEffectInfo → Bool) × Nat)) :
    (∀ r ∈ rules, 1 ≤ r.2 ∧ r.2 ≤ 8) → ∀ x, x < 2 ^ 8 →
      rules.foldl (fun t r => orIf (r.1 e) t r.2) x < 2 ^ 8 ∧
      ∀ k, (rules.foldl (fun t r => orIf (r.1 e) t r.2) x).testBit k =
        (x.testBit k || ruleBits rules e k) := by
  induction rules with
  | nil => intro _ x hx; exact ⟨hx, fun k => by simp [ruleBits]⟩
  | cons r rules ih =>
    intro hr x hx
    have hr0 := hr r (List.mem_cons_self _ _)
    obtain ⟨hlt, hbits⟩ := ih (fun r' hr' => hr r' (List.mem_cons_of_mem _ hr'))
      (orIf (r.1 e) x r.2) (orIf_lt _ _ _ hx)
    rw [List.foldl_cons]
    refine ⟨hlt, fun k => ?_⟩
    rw [hbits k, testBit_orIf _ _ _ _ hx hr0.1 hr0.2]
    simp [ruleBits, Bool.or_assoc]

theorem foldl_summaryStep_bits (K : SpellConstants)
    (hT : ∀ r ∈ targetRules K, 1 ≤ r.2 ∧ r.2 ≤ 8)
    (hE : ∀ r ∈ effectRules K, 1 ≤ r.2 ∧ r.2 ≤ 8) (es : List SpellEffectInfo) :
    ∀ s : TSpellSummary, s.Targets < 2 ^ 8 → s.Effects < 2 ^ 8 →
      (es.foldl (summaryStep K) s).Targets < 2 ^ 8 ∧
      (es.foldl (summaryStep K) s).Effects < 2 ^ 8 ∧
      (∀ k, (es.foldl (summaryStep K) s).Targets.testBit k =
        (s.Targets.testBit k || es.any (fun e => ruleBits (targetRules K) e k))) ∧
      (∀ k, (es.foldl (summaryStep K) s).Effects.testBit k =
        (s.Effects.testBit k || es.any (fun e => ruleBits (effectRules K) e k))) := by
  induction es with
  | nil => intro s h1 h2; exact ⟨h1, h2, fun k => by simp, fun k => by simp⟩
  | cons e es ih =>
    intro s h1 h2
    obtain ⟨ht, htb⟩ := foldl_rules_testBit e (targetRules K) hT s.Targets h1
    obtain ⟨he, heb⟩ := foldl_rules_testBit e (effectRules K) hE s.Effects h2
    rw [← summaryStep_Targets] at ht htb
    rw [← summaryStep_Effects] at he heb
    obtain ⟨i1, i2, i3, i4⟩ := ih (summaryStep K s e) ht he
    rw [List.foldl_cons]
    refine ⟨i1, i2, fun k => ?_, fun k => ?_⟩
    · rw [i3 k, htb k]; simp [Bool.or_assoc]
    · rw [i4 k, heb k]; simp [Bool.or_assoc]


theorem FillSpellSummary_getElem? (K : SpellConstants) (size : Nat)
    (GetSpellInfo : Nat → Option SpellInfo) (i : Nat) (hi : i < size) :
    (FillSpellSummary K size GetSpellInfo)[i]? =
      some (match GetSpellInfo i with
        | none => ⟨0, 0⟩
        | some pTempSpell =>
          ((List.range K.MAX_SPELL_EFFECTS).map pTempSpell.Effects).foldl (summaryStep K)
            ⟨0, 0⟩) := by
  unfold FillSpellSummary
  rw [List.getElem?_map, List.getElem?_range hi]
  cases hsp : GetSpellInfo i with
  | none => simp [hsp]
  | some sp => simp [hsp, List.foldl_map]

theorem targetRules_range (K : SpellConstants)
    (hTr : ∀ c ∈ selectTargets K, 1 ≤ c ∧ c ≤ 8) :
    ∀ r ∈ targetRules K, 1 ≤ r.2 ∧ r.2 ≤ 8 := by
  intro r hr
  apply hTr
  have hmem : r.2 ∈ (targetRules K).map Prod.snd := List.mem_map_of_mem _ hr
  exact hmem

theorem effectRules_range (K : SpellConstants)
    (hEr : ∀ c ∈ selectEffects K, 1 ≤ c ∧ c ≤ 8) :
    ∀ r ∈ effectRules K, 1 ≤ r.2 ∧ r.2 ≤ 8 := by
  intro r hr
  apply hEr
  have hmem : r.2 ∈ (effectRules K).map Prod.snd := List.mem_map_of_mem _ hr
  exact hmem

theorem hasBit_Targets (K : SpellConstants) (hTr : ∀ c ∈ selectTargets K, 1 ≤ c ∧ c ≤ 8)
    (hEr : ∀ c ∈ selectEffects K, 1 ≤ c ∧ c ≤ 8) (es : List SpellEffectInfo) (c : Nat)
    (h1 : 1 ≤ c) :
    hasBit (es.foldl (summaryStep K) ⟨0, 0⟩).Targets c =
      es.any (fun e => (targetRules K).any (fun r => r.1 e && (c == r.2))) := by
  obtain ⟨-, -, h, -⟩ := foldl_summaryStep_bits K (targetRules_range K hTr)
    (effectRules_range K hEr) es ⟨0, 0⟩ (by norm_num) (by norm_num)
  unfold hasBit
  rw [h (c - 1), Nat.zero_testBit, Bool.false_or]
  simp only [ruleBits, Nat.sub_add_cancel h1]

theorem hasBit_Effects (K : SpellConstants) (hTr : ∀ c ∈ selectTargets K, 1 ≤ c ∧ c ≤ 8)
    (hEr : ∀ c ∈ selectEffects K, 1 ≤ c ∧ c ≤ 8) (es : List SpellEffectInfo) (c : Nat)
    (h1 : 1 ≤ c) :
    hasBit (es.foldl (summaryStep K) ⟨0, 0⟩).Effects c =
      es.any (fun e => (effectRules K).any (fun r => r.1 e && (c == r.2))) := by
  obtain ⟨-, -, -, h⟩ := foldl_summaryStep_bits K (targetRules_range K hTr)
    (effectRules_range K hEr) es ⟨0, 0⟩ (by norm_num) (by norm_num)
  unfold hasBit
  rw [h (c - 1), Nat.zero_testBit, Bool.false_or]
  simp only [ruleBits, Nat.sub_add_cancel h1]

theorem hasBit_ANY_ENEMY (K : SpellConstants) (hT : (selectTargets K).Nodup)
    (hTr : ∀ c ∈ selectTargets K, 1 ≤ c ∧ c ≤ 8)
    (hEr : ∀ c ∈ selectEffects K, 1 ≤ c ∧ c ≤ 8) (es : List SpellEffectInfo) :
    hasBit (es.foldl (summaryStep K) ⟨0, 0⟩).Targets K.SELECT_TARGET_ANY_ENEMY = true ↔
      ∃ e ∈ es, e.TargetA = K.TARGET_UNIT_TARGET_ENEMY ∨
        e.TargetA = K.TARGET_DEST_TARGET_ENEMY ∨ e.TargetA = K.TARGET_UNIT_SRC_AREA_ENEMY ∨
        e.TargetA = K.TARGET_UNIT_DEST_AREA_ENEMY ∨ e.TargetA = K.TARGET_SRC_CASTER ∨
        e.TargetA = K.TARGET_DEST_DYNOBJ_ENEMY := by
  have hT1 := hT
  have hT2 : (selectTargets K).reverse.Nodup := List.nodup_reverse.2 hT
  simp [selectTargets] at hT1 hT2
  rw [hasBit_Targets K hTr hEr es _ (hTr _ (by simp [selectTargets])).1]
  simp [targetRules, hT1, hT2, or_assoc]


theorem hasBit_SELF (K : SpellConstants) (hT : (selectTargets K).Nodup)
    (hTr : ∀ c ∈ selectTargets K, 1 ≤ c ∧ c ≤ 8)
    (hEr : ∀ c ∈ selectEffects K, 1 ≤ c ∧ c ≤ 8) (es : List SpellEffectInfo) :
    hasBit (es.foldl (summaryStep K) ⟨0, 0⟩).Targets K.SELECT_TARGET_SELF = true ↔
      ∃ e ∈ es, e.TargetA = K.TARGET_UNIT_CASTER := by
  have hT1 := hT
  have hT2 : (selectTargets K).reverse.Nodup := List.nodup_reverse.2 hT
  simp [selectTargets] at hT1 hT2
  rw [hasBit_Targets K hTr hEr es _ (hTr _ (by simp [selectTargets])).1]
  simp [targetRules, hT1, hT2, or_assoc]

theorem hasBit_SINGLE_ENEMY (K : SpellConstants) (hT : (selectTargets K).Nodup)
    (hTr : ∀ c ∈ selectTargets K, 1 ≤ c ∧ c ≤ 8)
    (hEr : ∀ c ∈ selectEffects K, 1 ≤ c ∧ c ≤ 8) (es : List SpellEffectInfo) :
    hasBit (es.foldl (summaryStep K) ⟨0, 0⟩).Targets K.SELECT_TARGET_SINGLE_ENEMY = true ↔
      ∃ e ∈ es, e.TargetA = K.TARGET_UNIT_TARGET_ENEMY ∨ e.TargetA = K.TARGET_DEST_TARGET_ENEMY := by
  have hT1 := hT
  have hT2 : (selectTargets K).reverse.Nodup := List.nodup_reverse.2 hT
  simp [selectTargets] at hT1 hT2
  rw [hasBit_Targets K hTr hEr es _ (hTr _ (by simp [selectTargets])).1]
  simp [targetRules, hT1, hT2, or_assoc]

theorem hasBit_AOE_ENEMY (K : SpellConstants) (hT : (selectTargets K).Nodup)
    (hTr : ∀ c ∈ selectTargets K, 1 ≤ c ∧ c ≤ 8)
    (hEr : ∀ c ∈ selectEffects K, 1 ≤ c ∧ c ≤ 8) (es : List SpellEffectInfo) :
    hasBit (es.foldl (summaryStep K) ⟨0, 0⟩).Targets K.SELECT_TARGET_AOE_ENEMY = true ↔
      ∃ e ∈ es, e.TargetA = K.TARGET_UNIT_SRC_AREA_ENEMY ∨
        e.TargetA = K.TARGET_UNIT_DEST_AREA_ENEMY ∨ e.TargetA = K.TARGET_SRC_CASTER ∨
        e.TargetA = K.TARGET_DEST_DYNOBJ_ENEMY := by
  have hT1 := hT
  have hT2 : (selectTargets K).reverse.Nodup := List.nodup_reverse.2 hT
  simp [selectTargets] at hT1 hT2
  rw [hasBit_Targets K hTr hEr es _ (hTr _ (by simp [selectTargets])).1]
  simp [targetRules, hT1, hT2, or_assoc]

theorem hasBit_SINGLE_FRIEND (K : SpellConstants) (hT : (selectTargets K).Nodup)
    (hTr : ∀ c ∈ selectTargets K, 1 ≤ c ∧ c ≤ 8)
    (hEr : ∀ c ∈ selectEffects K, 1 ≤ c ∧ c ≤ 8) (es : List SpellEffectInfo) :
    hasBit (es.foldl (summaryStep K) ⟨0, 0⟩).Targets K.SELECT_TARGET_SINGLE_FRIEND = true ↔
      ∃ e ∈ es, e.TargetA = K.TARGET_UNIT_CASTER ∨ e.TargetA = K.TARGET_UNIT_TARGET_ALLY ∨
        e.TargetA = K.TARGET_UNIT_TARGET_PARTY := by
  have hT1 := hT
  have hT2 : (selectTargets K).reverse.Nodup := List.nodup_reverse.2 hT
  simp [selectTargets] at hT1 hT2
  rw [hasBit_Targets K hTr hEr es _ (hTr _ (by simp [selectTargets])).1]
  simp [targetRules, hT1, hT2, or_assoc]

theorem hasBit_AOE_FRIEND (K : SpellConstants) (hT : (selectTargets K).Nodup)
    (hTr : ∀ c ∈ selectTargets K, 1 ≤ c ∧ c ≤ 8)
    (hEr : ∀ c ∈ selectEffects K, 1 ≤ c ∧ c ≤ 8) (es : List SpellEffectInfo) :
    hasBit (es.foldl (summaryStep K) ⟨0, 0⟩).Targets K.SELECT_TARGET_AOE_FRIEND = true ↔
      ∃ e ∈ es, e.TargetA = K.TARGET_UNIT_CASTER_AREA_PARTY ∨
        e.TargetA = K.TARGET_UNIT_LASTTARGET_AREA_PARTY ∨
        e.TargetA = K.TARGET_SRC_CASTER := by
  have hT1 := hT
  have hT2 : (selectTargets K).reverse.Nodup := List.nodup_reverse.2 hT
  simp [selectTargets] at hT1 hT2
  rw [hasBit_Targets K hTr hEr es _ (hTr _ (by simp [selectTargets])).1]
  simp [targetRules, hT1, hT2, or_assoc]

theorem hasBit_ANY_FRIEND (K : SpellConstants) (hT : (selectTargets K).Nodup)
    (hTr : ∀ c ∈ selectTargets K, 1 ≤ c ∧ c ≤ 8)
    (hEr : ∀ c ∈ selectEffects K, 1 ≤ c ∧ c ≤ 8) (es : List SpellEffectInfo) :
    hasBit (es.foldl (summaryStep K) ⟨0, 0⟩).Targets K.SELECT_TARGET_ANY_FRIEND = true ↔
      ∃ e ∈ es, e.TargetA = K.TARGET_UNIT_CASTER ∨ e.TargetA = K.TARGET_UNIT_TARGET_ALLY ∨
        e.TargetA = K.TARGET_UNIT_TARGET_PARTY ∨
        e.TargetA = K.TARGET_UNIT_CASTER_AREA_PARTY ∨
        e.TargetA = K.TARGET_UNIT_LASTTARGET_AREA_PARTY ∨
        e.TargetA = K.TARGET_SRC_CASTER := by
  have hT1 := hT
  have hT2 : (selectTargets K).reverse.Nodup := List.nodup_reverse.2 hT
  simp [selectTargets] at hT1 hT2
  rw [hasBit_Targets K hTr hEr es _ (hTr _ (by simp [selectTargets])).1]
  simp [targetRules, hT1, hT2, or_assoc]

theorem hasBit_AURA (K : SpellConstants) (hE : (selectEffects K).Nodup)
    (hTr : ∀ c ∈ selectTargets K, 1 ≤ c ∧ c ≤ 8)
    (hEr : ∀ c ∈ selectEffects K, 1 ≤ c ∧ c ≤ 8) (es : List SpellEffectInfo) :
    hasBit (es.foldl (summaryStep K) ⟨0, 0⟩).Effects K.SELECT_EFFECT_AURA = true ↔
      ∃ e ∈ es, e.Effect = K.SPELL_EFFECT_APPLY_AURA := by
  have hE1 := hE
  have hE2 : (selectEffects K).reverse.Nodup := List.nodup_reverse.2 hE
  simp [selectEffects] at hE1 hE2
  rw [hasBit_Effects K hTr hEr es _ (hEr _ (by simp [selectEffects])).1]
  simp [effectRules, hE1, hE2]

theorem bits_of_foldl_summaryStep (K : SpellConstants)
    (hTr : ∀ c ∈ selectTargets K, 1 ≤ c ∧ c ≤ 8)
    (hEr : ∀ c ∈ selectEffects K, 1 ≤ c ∧ c ≤ 8) (es : List SpellEffectInfo) :
    (∀ k, (es.foldl (summaryStep K) ⟨0, 0⟩).Targets.testBit k = true →
      ∃ c ∈ selectTargets K, k = c - 1) ∧
    (∀ k, (es.foldl (summaryStep K) ⟨0, 0⟩).Effects.testBit k = true →
      ∃ c ∈ selectEffects K, k = c - 1) := by
  obtain ⟨-, -, ht, he⟩ := foldl_summaryStep_bits K (targetRules_range K hTr)
    (effectRules_range K hEr) es ⟨0, 0⟩ (by norm_num) (by norm_num)
  constructor
  · intro k hk
    rw [ht k, Nat.zero_testBit, Bool.false_or, List.any_eq_true] at hk
    obtain ⟨e, -, hbits⟩ := hk
    unfold ruleBits at hbits
    rw [List.any_eq_true] at hbits
    obtain ⟨r, hr, hrk⟩ := hbits
    have hmem : r.2 ∈ (targetRules K).map Prod.snd := List.mem_map_of_mem _ hr
    have hk1 : k + 1 = r.2 := by
      have h2 := (Bool.and_eq_true _ _ ▸ hrk).2
      exact beq_iff_eq.1 h2
    exact ⟨r.2, hmem, by omega⟩
  · intro k hk
    rw [he k, Nat.zero_testBit, Bool.false_or, List.any_eq_true] at hk
    obtain ⟨e, -, hbits⟩ := hk
    unfold ruleBits at hbits
    rw [List.any_eq_true] at hbits
    obtain ⟨r, hr, hrk⟩ := hbits
    have hmem : r.2 ∈ (effectRules K).map Prod.snd := List.mem_map_of_mem _ hr
    have hk1 : k + 1 = r.2 := by
      have h2 := (Bool.and_eq_true _ _ ▸ hrk).2
      exact beq_iff_eq.1 h2
    exact ⟨r.2, hmem, by omega⟩


/-- C27: for every index `i` below the size of the spell store, `SpellSummary[i]` has both
fields 0 when spell `i` does not exist; otherwise the `ANY_ENEMY` bit of `Targets` is set
iff the `SINGLE_ENEMY` or the `AOE_ENEMY` bit is, the `ANY_FRIEND` bit iff the
`SINGLE_FRIEND` or the `AOE_FRIEND` bit is, the `SINGLE_FRIEND` bit whenever the `SELF` bit
is, and the `AURA` bit of `Effects` iff one of the `MAX_SPELL_EFFECTS` effects is
`SPELL_EFFECT_APPLY_AURA`; in both cases only bits of the seven `SelectTarget` enumerators
are set in `Targets` and only bits of the three `SelectEffect` enumerators in `Effects`.
The enumerators of each of the two enumerations are distinct values from 1 to 8, so that
every bit `1 << (c-1)` is a bit of its own within the `uint8`. -/
theorem spell_summary_bits (K : SpellConstants) (size : Nat)
    (GetSpellInfo : Nat → Option SpellInfo) (i : Nat) (hi : i < size)
    (hT : (selectTargets K).Nodup) (hTr : ∀ c ∈ selectTargets K, 1 ≤ c ∧ c ≤ 8)
    (hE : (selectEffects K).Nodup) (hEr : ∀ c ∈ selectEffects K, 1 ≤ c ∧ c ≤ 8) :
    ∃ s, (FillSpellSummary K size GetSpellInfo)[i]? = some s ∧
      (GetSpellInfo i = none → s.Targets = 0 ∧ s.Effects = 0) ∧
      (∀ pTempSpell, GetSpellInfo i = some pTempSpell →
        (hasBit s.Targets K.SELECT_TARGET_ANY_ENEMY = true ↔
          hasBit s.Targets K.SELECT_TARGET_SINGLE_ENEMY = true ∨
            hasBit s.Targets K.SELECT_TARGET_AOE_ENEMY = true) ∧
        (hasBit s.Targets K.SELECT_TARGET_ANY_FRIEND = true ↔
          hasBit s.Targets K.SELECT_TARGET_SINGLE_FRIEND = true ∨
            hasBit s.Targets K.SELECT_TARGET_AOE_FRIEND = true) ∧
        (hasBit s.Targets K.SELECT_TARGET_SELF = true →
          hasBit s.Targets K.SELECT_TARGET_SINGLE_FRIEND = true) ∧
        (hasBit s.Effects K.SELECT_EFFECT_AURA = true ↔
          ∃ j, j < K.MAX_SPELL_EFFECTS ∧
            (pTempSpell.Effects j).Effect = K.SPELL_EFFECT_APPLY_AURA)) ∧
      (∀ k, s.Targets.testBit k = true → ∃ c ∈ selectTargets K, k = c - 1) ∧
      (∀ k, s.Effects.testBit k = true → ∃ c ∈ selectEffects K, k = c - 1) := by
  refine ⟨_, FillSpellSummary_getElem? K size GetSpellInfo i hi, ?_, ?_, ?_, ?_⟩
  · intro hnone
    rw [hnone]
    exact ⟨rfl, rfl⟩
  · intro sp hsome
    rw [hsome]
    simp only
    rw [hasBit_ANY_ENEMY K hT hTr hEr, hasBit_SINGLE_ENEMY K hT hTr hEr,
      hasBit_AOE_ENEMY K hT hTr hEr, hasBit_ANY_FRIEND K hT hTr hEr,
      hasBit_SINGLE_FRIEND K hT hTr hEr, hasBit_AOE_FRIEND K hT hTr hEr,
      hasBit_SELF K hT hTr hEr, hasBit_AURA K hE hTr hEr]
    refine ⟨?_, ?_, ?_, ?_⟩
    · constructor
      · rintro ⟨e, he, h⟩
        rcases h with h | h | h | h | h | h
        · exact Or.inl ⟨e, he, Or.inl h⟩
        · exact Or.inl ⟨e, he, Or.inr h⟩
        · exact Or.inr ⟨e, he, Or.inl h⟩
        · exact Or.inr ⟨e, he, Or.inr (Or.inl h)⟩
        · exact Or.inr ⟨e, he, Or.inr (Or.inr (Or.inl h))⟩
        · exact Or.inr ⟨e, he, Or.inr (Or.inr (Or.inr h))⟩
      · rintro (⟨e, he, h⟩ | ⟨e, he, h⟩)
        · exact ⟨e, he, by tauto⟩
        · exact ⟨e, he, by tauto⟩
    · constructor
      · rintro ⟨e, he, h⟩
        rcases h with h | h | h | h | h | h
        · exact Or.inl ⟨e, he, Or.inl h⟩
        · exact Or.inl ⟨e, he, Or.inr (Or.inl h)⟩
        · exact Or.inl ⟨e, he, Or.inr (Or.inr h)⟩
        · exact Or.inr ⟨e, he, Or.inl h⟩
        · exact Or.inr ⟨e, he, Or.inr (Or.inl h)⟩
        · exact Or.inr ⟨e, he, Or.inr (Or.inr h)⟩
      · rintro (⟨e, he, h⟩ | ⟨e, he, h⟩)
        · exact ⟨e, he, by tauto⟩
        · exact ⟨e, he, by tauto⟩
    · rintro ⟨e, he, h⟩
      exact ⟨e, he, Or.inl h⟩
    · constructor
      · rintro ⟨e, he, h⟩
        obtain ⟨j, hj, rfl⟩ := List.mem_map.1 he
        exact ⟨j, List.mem_range.1 hj, h⟩
      · rintro ⟨j, hj, h⟩
        exact ⟨sp.Effects j, List.mem_map_of_mem _ (List.mem_range.2 hj), h⟩
  · cases hsp : GetSpellInfo i with
    | none => intro k hk; simp at hk
    | some sp => exact (bits_of_foldl_summaryStep K hTr hEr _).1
  · cases hsp : GetSpellInfo i with
    | none => intro k hk; simp at hk
    | some sp => exact (bits_of_foldl_summaryStep K hTr hEr _).2


theorem spell_summary_bits_witness :
    FillSpellSummary sampleSpellConstants 3 sampleGetSpellInfo = [⟨0, 0⟩, ⟨91, 5⟩, ⟨108, 2⟩] ∧
    ∃ s, (FillSpellSummary sampleSpellConstants 3 sampleGetSpellInfo)[1]? = some s ∧
      (sampleGetSpellInfo 1 = none → s.Targets = 0 ∧ s.Effects = 0) ∧
      (∀ pTempSpell, sampleGetSpellInfo 1 = some pTempSpell →
        (hasBit s.Targets sampleSpellConstants.SELECT_TARGET_ANY_ENEMY = true ↔
          hasBit s.Targets sampleSpellConstants.SELECT_TARGET_SINGLE_ENEMY = true ∨
            hasBit s.Targets sampleSpellConstants.SELECT_TARGET_AOE_ENEMY = true) ∧
        (hasBit s.Targets sampleSpellConstants.SELECT_TARGET_ANY_FRIEND = true ↔
          hasBit s.Targets sampleSpellConstants.SELECT_TARGET_SINGLE_FRIEND = true ∨
            hasBit s.Targets sampleSpellConstants.SELECT_TARGET_AOE_FRIEND = true) ∧
        (hasBit s.Targets sampleSpellConstants.SELECT_TARGET_SELF = true →
          hasBit s.Targets sampleSpellConstants.SELECT_TARGET_SINGLE_FRIEND = true) ∧
        (hasBit s.Effects sampleSpellConstants.SELECT_EFFECT_AURA = true ↔
          ∃ j, j < sampleSpellConstants.MAX_SPELL_EFFECTS ∧
            (pTempSpell.Effects j).Effect = sampleSpellConstants.SPELL_EFFECT_APPLY_AURA)) ∧
      (∀ k, s.Targets.testBit k = true → ∃ c ∈ selectTargets sampleSpellConstants, k = c - 1) ∧
      (∀ k, s.Effects.testBit k = true → ∃ c ∈ selectEffects sampleSpellConstants, k = c - 1) :=
  ⟨by decide,
    spell_summary_bits sampleSpellConstants 3 sampleGetSpellInfo 1 (by decide) (by decide)
      (by decide) (by decide) (by decide)⟩

end ScriptMgr
